import Mathlib

/-!
Game simulation core: road movement solver, collision detector, loot arena.

A shallow embedding of the simulation core of the game server
(`src/game_model/*`, `src/detail/position.h`) and of the player commands and the
snapshot restore of `src/app/application.cpp`, together with theorems about them.

Modelling conventions
* C++ `double` values are rationals (`ℚ`).  The movement solver is modelled in exact
  arithmetic.  The collision detector and the swept-cell computation, whose
  properties turn on rounding, are modelled in binary64 arithmetic: every
  operation is rounded to the nearest double, ties to even, with gradual
  underflow (`double.fl`), each operation on its own (no fused multiply-add).
  Overflow to infinity is not modelled; a division by zero is handled explicitly
  (see `TryCollectPoint`).
* C++ `int` coordinates are modelled as `Int` (no wrap-around), `size_t` indices as `Nat`;
  a dog's `int` score wraps around at 32 bits (`Dog.int32`), ids are reduced
  modulo `2^32` or `2^64` where the source converts them.
* `std::vector` is a `List`; `std::unordered_map<Cell, std::vector<size_t>>` is a
  function from cells to an optional list (absent key = `none`).
* `std::sort` is modelled by insertion sort on the same comparison key.
* A function that throws returns the message of the exception (or an `Except`)
  together with the state it leaves behind.
* The random generator is a list of draws handed in from outside.
-/

namespace pos

/-- Source: `pos::Coordinate` in `src/detail/position.h`. -/
structure Coordinate where
  x : ℚ
  y : ℚ
deriving DecidableEq, Repr

end pos

namespace double

/-- The loop of `ilog2`: `fuel` bounds the number of halvings. -/
def ilog2_loop : Nat → Nat → Nat
  | 0, _ => 0
  | fuel + 1, n => if n < 2 then 0 else ilog2_loop fuel (n / 2) + 1

/-- The position of the highest set bit of a positive natural number. -/
def ilog2 (n : Nat) : Nat := ilog2_loop n n

/-- The power `2^k` for an integer `k`. -/
def pow2 (k : Int) : ℚ :=
  if 0 ≤ k then ((2 ^ k.toNat : Nat) : ℚ) else 1 / ((2 ^ (-k).toNat : Nat) : ℚ)

/-- The binade of a non-zero rational `q`: the integer `e` with `2^e ≤ |q| < 2^(e+1)`. -/
def binade (q : ℚ) : Int :=
  if pow2 ((ilog2 q.num.natAbs : Int) - (ilog2 q.den : Int)) ≤ |q| then
    (ilog2 q.num.natAbs : Int) - (ilog2 q.den : Int)
  else (ilog2 q.num.natAbs : Int) - (ilog2 q.den : Int) - 1

/-- The spacing of the doubles around `q`: `2^(e-52)` in the binade `e` of `q`, and
`2^(-1074)` below the smallest normal binade `-1022`. -/
def ulp (q : ℚ) : ℚ := pow2 (max (binade q) (-1022) - 52)

/-- Rounding to the nearest integer, a tie going to the even one. -/
def round_half_even (x : ℚ) : Int :=
  if x - (⌊x⌋ : ℚ) < 1 / 2 then ⌊x⌋
  else if 1 / 2 < x - (⌊x⌋ : ℚ) then ⌊x⌋ + 1
  else if ⌊x⌋ % 2 = 0 then ⌊x⌋ else ⌊x⌋ + 1

/-- The double nearest to `q` (IEEE 754 binary64, round to nearest, ties to even,
gradual underflow).  Values beyond the largest double are not modelled. -/
def fl (q : ℚ) : ℚ :=
  if q = 0 then 0 else (round_half_even (q / ulp q) : ℚ) * ulp q

/-- The rational is the value of a double. -/
def IsDouble (q : ℚ) : Prop := fl q = q

instance (q : ℚ) : Decidable (IsDouble q) := by
  unfold IsDouble
  exact inferInstance

/-- The sum of two doubles, as `+` computes it. -/
def add (a b : ℚ) : ℚ := fl (a + b)

/-- The difference of two doubles, as `-` computes it. -/
def sub (a b : ℚ) : ℚ := fl (a - b)

/-- The product of two doubles, as `*` computes it. -/
def mul (a b : ℚ) : ℚ := fl (a * b)

/-- The quotient of two doubles, as `/` computes it, for a non-zero divisor. -/
def div (a b : ℚ) : ℚ := fl (a / b)

end double

namespace model

/-- Source: `model::Point` in `src/game_model/map.h`. -/
structure Point where
  x : Int
  y : Int
deriving DecidableEq, Repr

/-- Source: `model::Road`; the two data members `start_` and `end_`. -/
structure Road where
  start_ : Point
  end_ : Point
deriving DecidableEq, Repr

namespace Road

/-- Source: constructor `Road(HorizontalTag, Point start, Coord end_x)`. -/
def HORIZONTAL (start : Point) (end_x : Int) : Road :=
  { start_ := start, end_ := { x := end_x, y := start.y } }

/-- Source: constructor `Road(VerticalTag, Point start, Coord end_y)`. -/
def VERTICAL (start : Point) (end_y : Int) : Road :=
  { start_ := start, end_ := { x := start.x, y := end_y } }

/-- Source: `Road::IsHorizontal`. -/
def IsHorizontal (r : Road) : Bool := r.start_.y == r.end_.y

/-- Source: `Road::IsVertical`. -/
def IsVertical (r : Road) : Bool := r.start_.x == r.end_.x

/-- Source: `Road::GetStart`. -/
def GetStart (r : Road) : Point := r.start_

/-- Source: `Road::GetEnd`. -/
def GetEnd (r : Road) : Point := r.end_

/-- Source: `Road::GetMinAlongAxis`. -/
def GetMinAlongAxis (r : Road) : Int :=
  if r.IsHorizontal then min r.start_.x r.end_.x else min r.start_.y r.end_.y

/-- Source: `Road::GetMaxAlongAxis`. -/
def GetMaxAlongAxis (r : Road) : Int :=
  if r.IsHorizontal then max r.start_.x r.end_.x else max r.start_.y r.end_.y

end Road

/-- Source: `Map::Cell`. -/
structure Cell where
  x : Int
  y : Int
deriving DecidableEq, Repr

/-- The road cell index `roads_by_cell_`: an absent key is `none`. -/
abbrev RoadCellIndex := Cell → Option (List Nat)

/-- The effect of `roads_by_cell_[c]` used as an lvalue: a missing key is created
with an empty vector. -/
def RoadCellIndex.touch (idx : RoadCellIndex) (c : Cell) : RoadCellIndex :=
  fun d => if d = c then some ((idx c).getD []) else idx d

/-- The effect of `roads_by_cell_[c].push_back(i)`. -/
def RoadCellIndex.push_back (idx : RoadCellIndex) (c : Cell) (i : Nat) : RoadCellIndex :=
  fun d => if d = c then some ((idx c).getD [] ++ [i]) else idx d

/-- Source: `enum class LootType` in `src/game_model/loot_struct.h`. -/
inductive LootType where
  | KEY
  | WALLET
  | UNKNOWN
deriving DecidableEq, Repr

/-- Source: `struct LootInfo`. -/
structure LootInfo where
  type : LootType
  value : Int
deriving DecidableEq, Repr

/-- Source: `struct LootItem`; `ItemId` is `uint32_t`. -/
structure LootItem where
  id : Nat
  info : LootInfo
  coordinate : pos.Coordinate
  width : ℚ
deriving DecidableEq, Repr

/-- Source: `model::Offset`. -/
structure Offset where
  dx : Int
  dy : Int
deriving DecidableEq, Repr

/-- Source: `model::Office`. -/
structure Office where
  id_ : String
  position_ : Point
  offset_ : Offset
deriving DecidableEq, Repr

/-- The item cell index `items_by_cell_`: an absent key is `none`, a `std::set` of
ids is the list of its elements in increasing order. -/
abbrev ItemCellIndex := Cell → Option (List Nat)

/-- Source: `model::Map`: the road list, the loot-type catalog, the offices, the two
cell indices and the constants (buildings, id and name play no part in the
simulation). -/
structure Map where
  roads_ : List Road
  roads_by_cell_ : RoadCellIndex
  loot_info_ : List LootInfo := []
  offices_ : List Office := []
  items_by_cell_ : ItemCellIndex := fun _ => none
  dog_speed_ : ℚ := 1
  base_width_ : ℚ := 1 / 2
  dogs_bag_capacity_ : Int := 3

namespace Map

/-- A freshly constructed map: no roads, empty index. -/
def empty : Map := { roads_ := [], roads_by_cell_ := fun _ => none }

/-- Source: `Map::GetRoads`. -/
def GetRoads (m : Map) : List Road := m.roads_

/-- The integers `lo, lo+1, ..., hi` visited by `for (int v = lo; v <= hi; ++v)`. -/
def intRange (lo hi : Int) : List Int :=
  (List.range (hi - lo + 1).toNat).map (fun (k : Nat) => lo + (k : Int))

/-- Source: `Map::IndexingRoadInCells`.  `roads_.at(road_index)` throws when the
index is out of range; both callers pass a valid index, and the model leaves the
map unchanged in that unreachable case. -/
def IndexingRoadInCells (m : Map) (road_index : Nat) : Map :=
  match m.roads_.get? road_index with
  | none => m
  | some r =>
    let a := r.GetStart
    let b := r.GetEnd
    if r.IsHorizontal then
      let y := a.y
      let x0 := min a.x b.x
      let x1 := max a.x b.x
      let idx1 := (intRange x0 x1).foldl
        (fun idx x => idx.push_back { x := x, y := y } road_index) m.roads_by_cell_
      let idx2 := idx1.touch { x := x0, y := y - 1 }
      let idx3 := idx2.touch { x := x0, y := y + 1 }
      { m with roads_by_cell_ := idx3 }
    else
      let x := a.x
      let y0 := min a.y b.y
      let y1 := max a.y b.y
      let idx1 := (intRange y0 y1).foldl
        (fun idx y => idx.push_back { x := x, y := y } road_index) m.roads_by_cell_
      { m with roads_by_cell_ := idx1 }

/-- Source: `Map::AddRoad`. -/
def AddRoad (m : Map) (road : Road) : Map :=
  let index := m.roads_.length
  IndexingRoadInCells { m with roads_ := m.roads_ ++ [road] } index

/-- Source: `Map::RebuildRoadCellIndex`. -/
def RebuildRoadCellIndex (m : Map) : Map :=
  (List.range m.roads_.length).foldl IndexingRoadInCells
    { m with roads_by_cell_ := fun _ => none }

/-- Source: the road part of `ConstructMapFromConfig` in
`src/configuration/json_loader.cpp`: every configured road is added with `AddRoad`
and the index is rebuilt at the end.  This is how every map of the game is made. -/
def ConstructMapFromConfig (roads : List Road) : Map :=
  (roads.foldl AddRoad empty).RebuildRoadCellIndex

/-- Source: `std::unique` followed by `erase`: drops every element equal to its
predecessor. -/
def unique : List Nat → List Nat
  | [] => []
  | [a] => [a]
  | a :: b :: rest => if a = b then unique (b :: rest) else a :: unique (b :: rest)

/-- Source: the lambda `add_from_cell` in `Map::GetRoadCandidates`. -/
def add_from_cell (m : Map) (result : List Nat) (x y : Int) : List Nat :=
  match m.roads_by_cell_ { x := x, y := y } with
  | none => result
  | some vec => result ++ vec

/-- Source: `Map::GetRoadCandidates`. -/
def GetRoadCandidates (m : Map) (c : pos.Coordinate) : List Nat :=
  let cx : Int := ⌊c.x⌋
  let cy : Int := ⌊c.y⌋
  let result : List Nat := []
  let result := m.add_from_cell result cx cy
  let result := m.add_from_cell result (cx + 1) cy
  let result := m.add_from_cell result cx (cy + 1)
  let result := m.add_from_cell result (cx + 1) (cy + 1)
  let result := m.add_from_cell result (cx - 1) cy
  let result := m.add_from_cell result cx (cy - 1)
  unique (result.insertionSort (· ≤ ·))

end Map

/-- Source: `kHalfWidth = 0.4` in `src/game_model/game_session.cpp`. -/
def kHalfWidth : ℚ := 2 / 5

/-- Source: `kEps = 1e-6`. -/
def kEps : ℚ := 1 / 1000000

/-- Source: `enum class RoadOrientation`. -/
inductive RoadOrientation where
  | Horizontal
  | Vertical
deriving DecidableEq, Repr

/-- Source: `struct RectD`. -/
structure RectD where
  min_x : ℚ
  max_x : ℚ
  min_y : ℚ
  max_y : ℚ
deriving DecidableEq, Repr

/-- Source: `struct Interval`. -/
structure Interval where
  left : ℚ
  right : ℚ
deriving DecidableEq, Repr

/-- Source: `InRange`. -/
def InRange (v a b : ℚ) : Bool := decide (v ≥ a - kEps) && decide (v ≤ b + kEps)

/-- Source: `RoadRect`. -/
def RoadRect (road : Road) : RectD :=
  if road.IsHorizontal then
    let y : ℚ := (road.GetStart.y : ℚ)
    let x0 : ℚ := (road.GetMinAlongAxis : ℚ) - kHalfWidth
    let x1 : ℚ := (road.GetMaxAlongAxis : ℚ) + kHalfWidth
    { min_x := x0, max_x := x1, min_y := y - kHalfWidth, max_y := y + kHalfWidth }
  else
    let x : ℚ := (road.GetStart.x : ℚ)
    let y0 : ℚ := (road.GetMinAlongAxis : ℚ) - kHalfWidth
    let y1 : ℚ := (road.GetMaxAlongAxis : ℚ) + kHalfWidth
    { min_x := x - kHalfWidth, max_x := x + kHalfWidth, min_y := y0, max_y := y1 }

/-- The loop of `FindCurrentInterval` over the remaining intervals, carrying the
locals `best` and `best_dist`; the tail is the code after the loop. -/
def FindCurrentIntervalLoop (from_ : ℚ) :
    List Interval → Option Interval → ℚ → Option Interval
  | [], best, best_dist =>
    match best with
    | some b => if best_dist ≤ kEps then some b else none
    | none => none
  | seg :: rest, best, best_dist =>
    if from_ ≥ seg.left - kEps ∧ from_ ≤ seg.right + kEps then
      some seg
    else
      let dist : ℚ := if from_ < seg.left then seg.left - from_ else from_ - seg.right
      if dist < best_dist then
        FindCurrentIntervalLoop from_ rest (some seg) dist
      else
        FindCurrentIntervalLoop from_ rest best best_dist

/-- Source: `FindCurrentInterval`; `best = nullptr`, `best_dist = 1e100`. -/
def FindCurrentInterval (from_ : ℚ) (merged : List Interval) : Option Interval :=
  FindCurrentIntervalLoop from_ merged none ((10 : ℚ) ^ 100)

/-- Source: the loop of `BuildIntervalsAlongRoadAxis` for one candidate index.
`roads.at(idx)` throws for an index outside the road list; the cell index only
holds valid indices, and the model skips such an index. -/
def BuildIntervalsStep (roads : List Road) (from_ : pos.Coordinate)
    (orientation : RoadOrientation) (result : List Interval) (idx : Nat) : List Interval :=
  match roads.get? idx with
  | none => result
  | some road =>
    let r := RoadRect road
    match orientation with
    | RoadOrientation.Horizontal =>
      if !InRange from_.y r.min_y r.max_y then result
      else result ++ [{ left := r.min_x, right := r.max_x }]
    | RoadOrientation.Vertical =>
      if !InRange from_.x r.min_x r.max_x then result
      else result ++ [{ left := r.min_y, right := r.max_y }]

/-- Source: `BuildIntervalsAlongRoadAxis`. -/
def BuildIntervalsAlongRoadAxis (map : Map) (from_ : pos.Coordinate)
    (orientation : RoadOrientation) : List Interval :=
  let roads := map.GetRoads
  let candidates := map.GetRoadCandidates from_
  candidates.foldl (BuildIntervalsStep roads from_ orientation) []

/-- One iteration of the merge loop in `RestrictInsideIntervals`; the vector
`merged` is a list whose last element is `merged.back()`. -/
def MergeStep (merged : List Interval) (seg : Interval) : List Interval :=
  match merged.getLast? with
  | none => merged ++ [seg]
  | some back =>
    if seg.left > back.right then merged ++ [seg]
    else merged.dropLast ++ [{ back with right := max back.right seg.right }]

/-- The merge loop of `RestrictInsideIntervals` over the sorted intervals. -/
def MergeIntervals (sorted : List Interval) : List Interval :=
  sorted.foldl MergeStep []

/-- The `std::sort` call of `RestrictInsideIntervals` (comparison `a.left < b.left`). -/
def SortIntervals (intervals : List Interval) : List Interval :=
  intervals.insertionSort (fun a b => a.left ≤ b.left)

/-- Source: `RestrictInsideIntervals`. -/
def RestrictInsideIntervals (from_ to_ : ℚ) (intervals : List Interval) : ℚ :=
  if intervals.isEmpty then from_
  else
    let merged := MergeIntervals (SortIntervals intervals)
    match FindCurrentInterval from_ merged with
    | none => from_
    | some current =>
      if to_ > from_ then min to_ current.right
      else max to_ current.left

/-- Source: `GameSession::RestrictMovementToRoads`, as a function of the session's map. -/
def RestrictMovementToRoads (map_ : Map) (from_ to_ : pos.Coordinate) : pos.Coordinate :=
  let dx := to_.x - from_.x
  let dy := to_.y - from_.y
  if |dx| ≥ |dy| then
    let intervals := BuildIntervalsAlongRoadAxis map_ from_ RoadOrientation.Horizontal
    let clamped_x := RestrictInsideIntervals from_.x to_.x intervals
    { x := clamped_x, y := from_.y }
  else
    let intervals := BuildIntervalsAlongRoadAxis map_ from_ RoadOrientation.Vertical
    let clamped_y := RestrictInsideIntervals from_.y to_.y intervals
    { x := from_.x, y := clamped_y }

end model

namespace model

/-- The road indices stored under a cell (none when the key is absent). -/
def RoadCellIndex.lookup (idx : RoadCellIndex) (c : Cell) : List Nat := (idx c).getD []

/-- The cells on the axis line of a road, as `IndexingRoadInCells` walks them. -/
def Road.covers (r : Road) (c : Cell) : Prop :=
  if r.IsHorizontal then
    c.y = r.start_.y ∧ min r.start_.x r.end_.x ≤ c.x ∧ c.x ≤ max r.start_.x r.end_.x
  else
    c.x = r.start_.x ∧ min r.start_.y r.end_.y ≤ c.y ∧ c.y ≤ max r.start_.y r.end_.y

/-- A point lies inside the corridor of a road: the rectangle `RoadRect`, the road's
axis rectangle expanded by `kHalfWidth` on all sides. -/
def InCorridor (r : Road) (p : pos.Coordinate) : Prop :=
  (RoadRect r).min_x ≤ p.x ∧ p.x ≤ (RoadRect r).max_x ∧
  (RoadRect r).min_y ≤ p.y ∧ p.y ≤ (RoadRect r).max_y

/-- A point lies inside the corridor of a road up to the tolerance `kEps` of
`InRange` across the axis of movement: exactly within the corridor along the
axis of movement, within `kEps` of it on the other axis. -/
def InCorridorAcross (o : RoadOrientation) (r : Road) (p : pos.Coordinate) : Prop :=
  match o with
  | RoadOrientation.Horizontal =>
    (RoadRect r).min_x ≤ p.x ∧ p.x ≤ (RoadRect r).max_x ∧
      InRange p.y (RoadRect r).min_y (RoadRect r).max_y = true
  | RoadOrientation.Vertical =>
    (RoadRect r).min_y ≤ p.y ∧ p.y ≤ (RoadRect r).max_y ∧
      InRange p.x (RoadRect r).min_x (RoadRect r).max_x = true

/-- The axis along which `RestrictMovementToRoads` moves: horizontal when
`|dx| ≥ |dy|`, vertical otherwise. -/
def DominantAxis (from_ to_ : pos.Coordinate) : RoadOrientation :=
  if |to_.x - from_.x| ≥ |to_.y - from_.y| then RoadOrientation.Horizontal
  else RoadOrientation.Vertical

/-- The coordinate of a point along an axis. -/
def along (o : RoadOrientation) (p : pos.Coordinate) : ℚ :=
  match o with
  | RoadOrientation.Horizontal => p.x
  | RoadOrientation.Vertical => p.y

/-- The coordinate of a point across an axis. -/
def across (o : RoadOrientation) (p : pos.Coordinate) : ℚ :=
  match o with
  | RoadOrientation.Horizontal => p.y
  | RoadOrientation.Vertical => p.x

/-- The extent of a road corridor along an axis. -/
def RectAlong (o : RoadOrientation) (r : RectD) : Interval :=
  match o with
  | RoadOrientation.Horizontal => { left := r.min_x, right := r.max_x }
  | RoadOrientation.Vertical => { left := r.min_y, right := r.max_y }

/-- The extent of a road corridor across an axis. -/
def RectAcross (o : RoadOrientation) (r : RectD) : Interval :=
  match o with
  | RoadOrientation.Horizontal => { left := r.min_y, right := r.max_y }
  | RoadOrientation.Vertical => { left := r.min_x, right := r.max_x }

instance (r : Road) (p : pos.Coordinate) : Decidable (InCorridor r p) := by
  unfold InCorridor
  exact inferInstance

/-- The whole straight segment from `from_` to `to_` stays inside the corridor of `r`. -/
def SegmentInCorridor (r : Road) (from_ to_ : pos.Coordinate) : Prop :=
  ∀ t : ℚ, 0 ≤ t → t ≤ 1 →
    InCorridor r { x := from_.x + t * (to_.x - from_.x), y := from_.y + t * (to_.y - from_.y) }

/-- An interval whose bounds are an integer minus `kHalfWidth` and a not smaller
integer plus `kHalfWidth`, as every corridor extent is. -/
def Interval.OnGrid (iv : Interval) : Prop :=
  ∃ a b : Int, a ≤ b ∧ iv.left = (a : ℚ) - kHalfWidth ∧ iv.right = (b : ℚ) + kHalfWidth

/-- The merge of a sorted list by direct recursion: `cur` is the interval being
grown (the `merged.back()` of the loop). -/
def MergeFrom (cur : Interval) : List Interval → List Interval
  | [] => [cur]
  | seg :: rest =>
    if seg.left > cur.right then cur :: MergeFrom seg rest
    else MergeFrom { cur with right := max cur.right seg.right } rest

end model

namespace model

namespace collision_detector

/-- Source: `struct CollectionResult` in `src/game_model/collision_detector.h`. -/
structure CollectionResult where
  sq_distance : ℚ
  proj_ratio : ℚ
deriving DecidableEq, Repr

/-- Source: `CollectionResult::IsCollected`. -/
def CollectionResult.IsCollected (r : CollectionResult) (collect_radius : ℚ) : Bool :=
  decide (r.proj_ratio ≥ 0) && decide (r.proj_ratio ≤ 1) &&
    decide (r.sq_distance ≤ double.mul collect_radius collect_radius)

/-- Source: `TryCollectPoint`, in double arithmetic.  The two quotients divide by
`v_len2`.  When `v_len2` is zero (`a = b`, or a segment so short that the squares
underflow) the C++ quotients are infinite or NaN, and `IsCollected` is false of
the result for every radius; the model returns `none` for that result. -/
def TryCollectPoint (a b c : pos.Coordinate) : Option CollectionResult :=
  let u_x := double.sub c.x a.x
  let u_y := double.sub c.y a.y
  let v_x := double.sub b.x a.x
  let v_y := double.sub b.y a.y
  let u_dot_v := double.add (double.mul u_x v_x) (double.mul u_y v_y)
  let u_len2 := double.add (double.mul u_x u_x) (double.mul u_y u_y)
  let v_len2 := double.add (double.mul v_x v_x) (double.mul v_y v_y)
  if v_len2 = 0 then none
  else
    let proj_ratio := double.div u_dot_v v_len2
    let sq_distance := double.sub u_len2 (double.div (double.mul u_dot_v u_dot_v) v_len2)
    some { sq_distance := sq_distance, proj_ratio := proj_ratio }

/-- Source: `struct Item`. -/
structure Item where
  type : String
  position : pos.Coordinate
  width : ℚ
  id : Int
deriving DecidableEq, Repr

/-- Source: `struct Gatherer`. -/
structure Gatherer where
  start_pos : pos.Coordinate
  end_pos : pos.Coordinate
  width : ℚ
  id : Int
deriving DecidableEq, Repr

/-- The coordinates and the width of the item are at most `2^k` in magnitude. -/
def Item.in_range (it : Item) (k : Int) : Prop :=
  |it.position.x| ≤ double.pow2 k ∧ |it.position.y| ≤ double.pow2 k ∧
  |it.width| ≤ double.pow2 k

instance (it : Item) (k : Int) : Decidable (it.in_range k) := by
  unfold Item.in_range
  exact inferInstance

/-- The coordinates of both ends and the width of the gatherer are at most `2^k` in
magnitude. -/
def Gatherer.in_range (g : Gatherer) (k : Int) : Prop :=
  |g.start_pos.x| ≤ double.pow2 k ∧ |g.start_pos.y| ≤ double.pow2 k ∧
  |g.end_pos.x| ≤ double.pow2 k ∧ |g.end_pos.y| ≤ double.pow2 k ∧
  |g.width| ≤ double.pow2 k

instance (g : Gatherer) (k : Int) : Decidable (g.in_range k) := by
  unfold Gatherer.in_range
  exact inferInstance

/-- Source: the abstract class `ItemGathererProvider` (its four virtual methods). -/
structure ItemGathererProvider where
  ItemsCount : Nat
  GetItem : Nat → Item
  GatherersCount : Nat
  GetGatherer : Nat → Gatherer

/-- Source: `struct GatheringEvent`; the two ids are `size_t`. -/
structure GatheringEvent where
  item_type : String
  item_id : Nat
  gatherer_id : Nat
  sq_distance : ℚ
  time : ℚ
deriving DecidableEq, Repr

/-- The implicit conversion `int → size_t` (64 bit) applied to the ids when an
event is emplaced. -/
def to_size_t (i : Int) : Nat := (i % 2 ^ 64).toNat

/-- The body of the inner loop of `FindGatherEvents` for gatherer `g`, item `i`. -/
def GatherStep (provider : ItemGathererProvider) (g : Nat)
    (events : List GatheringEvent) (i : Nat) : List GatheringEvent :=
  let gatherer := provider.GetGatherer g
  let item_obj := provider.GetItem i
  match TryCollectPoint gatherer.start_pos gatherer.end_pos item_obj.position with
  | none => events
  | some result =>
    let collect_radius := double.add gatherer.width item_obj.width
    if result.IsCollected collect_radius then
      let time := result.proj_ratio
      events ++ [{ item_type := item_obj.type, item_id := to_size_t item_obj.id,
                   gatherer_id := to_size_t gatherer.id,
                   sq_distance := result.sq_distance, time := time }]
    else events

/-- The event, if any, that the loop body emits for one gatherer and one item. -/
def PairEvent (gatherer : Gatherer) (item_obj : Item) : Option GatheringEvent :=
  match TryCollectPoint gatherer.start_pos gatherer.end_pos item_obj.position with
  | none => none
  | some result =>
    if result.IsCollected (double.add gatherer.width item_obj.width) then
      some { item_type := item_obj.type, item_id := to_size_t item_obj.id,
             gatherer_id := to_size_t gatherer.id,
             sq_distance := result.sq_distance, time := result.proj_ratio }
    else none

/-- The two nested loops of `FindGatherEvents`, before sorting. -/
def CollectEvents (provider : ItemGathererProvider) : List GatheringEvent :=
  (List.range provider.GatherersCount).foldl
    (fun events g => (List.range provider.ItemsCount).foldl (GatherStep provider g) events) []

/-- Source: `FindGatherEvents`; `std::ranges::sort` by the projection `time`. -/
def FindGatherEvents (provider : ItemGathererProvider) : List GatheringEvent :=
  (CollectEvents provider).insertionSort (fun a b => a.time ≤ b.time)

/-- Source: `LootPickupProvider` in `src/game_model/game_session.cpp`: a provider
over two vectors.  `at(idx)` throws outside the vector; the loops of
`FindGatherEvents` never ask for such an index, where the model returns a default. -/
def LootPickupProvider (items : List Item) (gatherers : List Gatherer) :
    ItemGathererProvider :=
  { ItemsCount := items.length
    GetItem := fun idx => items.getD idx
      { type := "", position := { x := 0, y := 0 }, width := 0, id := 0 }
    GatherersCount := gatherers.length
    GetGatherer := fun idx => gatherers.getD idx
      { start_pos := { x := 0, y := 0 }, end_pos := { x := 0, y := 0 }, width := 0, id := 0 } }

/-- The projection fraction of the spec, `(u·v)/|v|²` for `u = c − a`, `v = b − a`, in
exact arithmetic. -/
def spec_proj_ratio (a b c : pos.Coordinate) : ℚ :=
  ((c.x - a.x) * (b.x - a.x) + (c.y - a.y) * (b.y - a.y)) /
    ((b.x - a.x) ^ 2 + (b.y - a.y) ^ 2)

/-- The squared distance of the spec, `|u|² − (u·v)²/|v|²`, in exact arithmetic. -/
def spec_sq_distance (a b c : pos.Coordinate) : ℚ :=
  ((c.x - a.x) ^ 2 + (c.y - a.y) ^ 2) -
    ((c.x - a.x) * (b.x - a.x) + (c.y - a.y) * (b.y - a.y)) ^ 2 /
      ((b.x - a.x) ^ 2 + (b.y - a.y) ^ 2)

/-- The collection criterion of the spec for one (gatherer, item) pair, in exact
arithmetic: `0 ≤ proj_ratio ≤ 1` and `sq_distance ≤ (gatherer.width + item.width)²`. -/
def spec_collected (g : Gatherer) (it : Item) : Prop :=
  0 ≤ spec_proj_ratio g.start_pos g.end_pos it.position ∧
  spec_proj_ratio g.start_pos g.end_pos it.position ≤ 1 ∧
  spec_sq_distance g.start_pos g.end_pos it.position ≤ (g.width + it.width) ^ 2

instance (g : Gatherer) (it : Item) : Decidable (spec_collected g it) := by
  unfold spec_collected
  exact inferInstance

/-- The event the spec attaches to a collected pair. -/
def spec_event (g : Gatherer) (it : Item) : GatheringEvent :=
  { item_type := it.type, item_id := to_size_t it.id, gatherer_id := to_size_t g.id,
    sq_distance := spec_sq_distance g.start_pos g.end_pos it.position,
    time := spec_proj_ratio g.start_pos g.end_pos it.position }

/-- The events the spec asks for, one per collected (gatherer, item) pair, listed
gatherer by gatherer (unsorted). -/
def spec_events (items : List Item) (gatherers : List Gatherer) : List GatheringEvent :=
  gatherers.flatMap (fun g => (items.filter (fun it => decide (spec_collected g it))).map (spec_event g))

/-- The squared length `|v|²` of the spec for `v = b − a`, each operation rounded to
the nearest double. -/
def double_len2 (a b : pos.Coordinate) : ℚ :=
  double.add (double.mul (double.sub b.x a.x) (double.sub b.x a.x))
    (double.mul (double.sub b.y a.y) (double.sub b.y a.y))

/-- The dot product `u·v` of the spec for `u = c − a`, `v = b − a`, each operation
rounded to the nearest double. -/
def double_dot (a b c : pos.Coordinate) : ℚ :=
  double.add (double.mul (double.sub c.x a.x) (double.sub b.x a.x))
    (double.mul (double.sub c.y a.y) (double.sub b.y a.y))

/-- The projection fraction `(u·v)/|v|²` of the spec, each operation rounded to the
nearest double. -/
def double_proj_ratio (a b c : pos.Coordinate) : ℚ :=
  double.div (double_dot a b c) (double_len2 a b)

/-- The squared distance `|u|² − (u·v)²/|v|²` of the spec, each operation rounded to
the nearest double. -/
def double_sq_distance (a b c : pos.Coordinate) : ℚ :=
  double.sub (double_len2 a c)
    (double.div (double.mul (double_dot a b c) (double_dot a b c)) (double_len2 a b))

/-- The collection criterion of the spec for one (gatherer, item) pair, each
operation rounded to the nearest double. -/
def double_collected (g : Gatherer) (it : Item) : Prop :=
  0 ≤ double_proj_ratio g.start_pos g.end_pos it.position ∧
  double_proj_ratio g.start_pos g.end_pos it.position ≤ 1 ∧
  double_sq_distance g.start_pos g.end_pos it.position ≤
    double.mul (double.add g.width it.width) (double.add g.width it.width)

instance (g : Gatherer) (it : Item) : Decidable (double_collected g it) := by
  unfold double_collected
  exact inferInstance

/-- The event the spec attaches to a collected pair, with the two quantities as
rounded. -/
def double_event (g : Gatherer) (it : Item) : GatheringEvent :=
  { item_type := it.type, item_id := to_size_t it.id, gatherer_id := to_size_t g.id,
    sq_distance := double_sq_distance g.start_pos g.end_pos it.position,
    time := double_proj_ratio g.start_pos g.end_pos it.position }

/-- The events the spec asks for when its quantities are evaluated in double
arithmetic, one per collected (gatherer, item) pair, listed gatherer by gatherer
(unsorted). -/
def double_events (items : List Item) (gatherers : List Gatherer) : List GatheringEvent :=
  gatherers.flatMap (fun g =>
    (items.filter (fun it => decide (double_collected g it))).map (double_event g))

end collision_detector

/-- Source: `class LootStore` in `src/game_model/loot_store.h`: the vector of
optional items and the stack of free ids (its top is the last element). -/
structure LootStore where
  items_ : List (Option LootItem)
  free_ids_ : List Nat
deriving DecidableEq, Repr

namespace LootStore

/-- Source: the constructor `LootStore()`. -/
def empty : LootStore := { items_ := [], free_ids_ := [] }

/-- Source: `LootStore::Create`; returns the stored item and the store after the
call.  The `width` member keeps its default `0.0`.  The cast
`static_cast<ItemId>(items_.size())` is the reduction modulo `2^32`. -/
def Create (s : LootStore) (info : LootInfo) (coord : pos.Coordinate) :
    LootItem × LootStore :=
  match s.free_ids_.getLast? with
  | some id =>
    let item : LootItem := { id := id, info := info, coordinate := coord, width := 0 }
    (item, { items_ := s.items_.set id (some item), free_ids_ := s.free_ids_.dropLast })
  | none =>
    let id := s.items_.length % 2 ^ 32
    let item : LootItem := { id := id, info := info, coordinate := coord, width := 0 }
    (item, { items_ := s.items_ ++ [some item], free_ids_ := s.free_ids_ })

/-- Whether slot `id` exists and holds an item (`items_[id].has_value()` with the
range check in front). -/
def has_value (s : LootStore) (id : Nat) : Bool :=
  match s.items_.get? id with
  | some (some _) => true
  | _ => false

/-- Source: `LootStore::Remove`; the outcome (`throw std::invalid_argument` or a
normal return) together with the store after the call. -/
def Remove (s : LootStore) (id : Nat) : Except String Unit × LootStore :=
  if id ≥ s.items_.length || !s.has_value id then
    (Except.error "incorrect item id", s)
  else
    (Except.ok (), { items_ := s.items_.set id none, free_ids_ := s.free_ids_ ++ [id] })

/-- Source: `LootStore::Clear`. -/
def Clear (_s : LootStore) : LootStore := { items_ := [], free_ids_ := [] }

/-- The effect of `items_.resize(n)`: the first `n` slots, new ones empty. -/
def resize (items : List (Option LootItem)) (n : Nat) : List (Option LootItem) :=
  items.take n ++ List.replicate (n - items.length) none

/-- Source: `LootStore::RestoreItem`, for an `ItemId` (`id < 2^32`).  The source
computes `id + 1` in `uint32_t`: for the id `2^32 − 1` the sum wraps to `0`, the
array is emptied, and the store to `items_[id]` that follows is out of bounds
(undefined in C++); the model leaves the emptied array there. -/
def RestoreItem (s : LootStore) (id : Nat) (info : LootInfo) (coord : pos.Coordinate)
    (width : ℚ) : LootItem × LootStore :=
  let items :=
    if id ≥ s.items_.length then resize s.items_ ((id + 1) % 2 ^ 32)
    else s.items_
  let item : LootItem := { id := id, info := info, coordinate := coord, width := width }
  (item, { items_ := items.set id (some item), free_ids_ := s.free_ids_ })

/-- Source: `LootStore::FinalizeAfterRestore`. -/
def FinalizeAfterRestore (s : LootStore) : LootStore :=
  { items_ := s.items_
    free_ids_ := (List.range s.items_.length).filter (fun id => !s.has_value id) }

/-- Source: `LootStore::GetItem`. -/
def GetItem (s : LootStore) (id : Nat) : Option LootItem :=
  match s.items_.get? id with
  | some (some item) => some item
  | _ => none

/-- Source: `LootStore::GetAllItems`. -/
def GetAllItems (s : LootStore) : List LootItem :=
  s.items_.filterMap id

/-- Source: `LootStore::GetItemNumber` (`size_t` subtraction). -/
def GetItemNumber (s : LootStore) : Nat :=
  (s.items_.length + 2 ^ 64 - s.free_ids_.length % 2 ^ 64) % 2 ^ 64

/-- A call of one of the two mutating operations `Create` and `Remove`. -/
inductive Call where
  | Create (info : LootInfo) (coord : pos.Coordinate)
  | Remove (id : Nat)
deriving DecidableEq, Repr

/-- The store after one call; a `Remove` that throws leaves the store as it was. -/
def step (s : LootStore) : Call → LootStore
  | Call.Create info coord => (s.Create info coord).2
  | Call.Remove id => (s.Remove id).2

/-- The store after a sequence of calls, starting from `s`. -/
def run (s : LootStore) (calls : List Call) : LootStore :=
  calls.foldl step s

/-- The ids that were removed and not yet reused, oldest first, read off the call
history: a successful `Remove id` adds `id` at the end, a `Create` takes the most
recent one away when there is one, a failing `Remove` changes nothing.  `s` is the
store before the remaining calls and `pending` the ids pending so far. -/
def removed_not_reused : LootStore → List Nat → List Call → List Nat
  | _, pending, [] => pending
  | s, pending, Call.Create info coord :: rest =>
    removed_not_reused (s.Create info coord).2 pending.dropLast rest
  | s, pending, Call.Remove id :: rest =>
    match (s.Remove id).1 with
    | Except.ok _ => removed_not_reused (s.Remove id).2 (pending ++ [id]) rest
    | Except.error _ => removed_not_reused (s.Remove id).2 pending rest

/-- A call of one of the five public mutating operations of the store. -/
inductive Op where
  | Create (info : LootInfo) (coord : pos.Coordinate)
  | Remove (id : Nat)
  | Clear
  | RestoreItem (id : Nat) (info : LootInfo) (coord : pos.Coordinate) (width : ℚ)
  | FinalizeAfterRestore
deriving DecidableEq, Repr

/-- The store after one public call; a `Remove` that throws leaves the store as it was. -/
def apply (s : LootStore) : Op → LootStore
  | Op.Create info coord => (s.Create info coord).2
  | Op.Remove id => (s.Remove id).2
  | Op.Clear => s.Clear
  | Op.RestoreItem id info coord width => (s.RestoreItem id info coord width).2
  | Op.FinalizeAfterRestore => s.FinalizeAfterRestore

/-- The store after a sequence of public calls, starting from `s`. -/
def run_ops (s : LootStore) (ops : List Op) : LootStore :=
  ops.foldl apply s

/-- Whether a `RestoreItem` of the call history is still waiting for its
`FinalizeAfterRestore` (a `Clear` drops everything and so settles it as well);
`pending` is the answer for the calls made so far. -/
def restore_pending (pending : Bool) : List Op → Bool
  | [] => pending
  | Op.RestoreItem _ _ _ _ :: rest => restore_pending true rest
  | Op.FinalizeAfterRestore :: rest => restore_pending false rest
  | Op.Clear :: rest => restore_pending false rest
  | Op.Create _ _ :: rest => restore_pending pending rest
  | Op.Remove _ :: rest => restore_pending pending rest

/-- The free-id list names every empty slot below the array length exactly once and
nothing else. -/
def Consistent (s : LootStore) : Prop :=
  s.free_ids_.Nodup ∧ ∀ k, k ∈ s.free_ids_ ↔ (k < s.items_.length ∧ s.has_value k = false)

/-- Whether every `RestoreItem` of a call history has an id below `2^32 − 1`, where
the `id + 1` of the source does not wrap around. -/
def restore_ids_in_range (ops : List Op) : Bool :=
  ops.all (fun op =>
    match op with
    | Op.RestoreItem id _ _ _ => decide (id + 1 < 2 ^ 32)
    | _ => true)

/-- Whether a call history is free of `RestoreItem`. -/
def no_restore (ops : List Op) : Bool :=
  ops.all (fun op =>
    match op with
    | Op.RestoreItem _ _ _ _ => false
    | _ => true)

/-- Every live item carries the index of its slot as id (the index as cast to
`ItemId`, modulo `2^32`, when the item was appended). -/
def IdsMatch (s : LootStore) : Prop :=
  ∀ k item, s.items_.get? k = some (some item) → (item.id = k ∨ item.id = k % 2 ^ 32)

/-- The store after a sequence of `RestoreItem` calls, given by their arguments. -/
def restore_all (s : LootStore) (restores : List (Nat × LootInfo × pos.Coordinate × ℚ)) :
    LootStore :=
  run_ops s (restores.map (fun r => Op.RestoreItem r.1 r.2.1 r.2.2.1 r.2.2.2))

end LootStore

namespace Map

/-- Source: `Map::GetOffices`. -/
def GetOffices (m : Map) : List Office := m.offices_

/-- Source: `Map::GetOfficeWidth`. -/
def GetOfficeWidth (m : Map) : ℚ := m.base_width_

/-- Source: `Map::GetDogSpeed`. -/
def GetDogSpeed (m : Map) : ℚ := m.dog_speed_

/-- Source: `Map::GetDogsBagCapacity`. -/
def GetDogsBagCapacity (m : Map) : Int := m.dogs_bag_capacity_

/-- Source: `Map::GetMaxCountLootTypes`. -/
def GetMaxCountLootTypes (m : Map) : Nat := m.loot_info_.length

/-- Source: `Map::GetLootType`.  `loot_info_.at(index)` throws outside the catalog;
the model answers `UNKNOWN` there. -/
def GetLootType (m : Map) (index : Nat) : LootType :=
  match m.loot_info_.get? index with
  | some info => info.type
  | none => LootType.UNKNOWN

/-- Source: `Map::GetLootInfo`: the first catalog entry of the type, else the
default `LootInfo{}`. -/
def GetLootInfo (m : Map) (type : LootType) : LootInfo :=
  match m.loot_info_.find? (fun info => info.type == type) with
  | some info => info
  | none => { type := LootType.UNKNOWN, value := 0 }

/-- Source: `Map::GetItemIdsInCell`. -/
def GetItemIdsInCell (m : Map) (cell : Cell) : List Nat :=
  match m.items_by_cell_ cell with
  | some ids => ids
  | none => []

/-- Source: `Map::GetCellsOnTheWayArea`, the four bounds in double arithmetic. -/
def GetCellsOnTheWayArea (from_ to_ : pos.Coordinate) (width_area : ℚ) : List Cell :=
  let min_x : Int := ⌊double.sub (min from_.x to_.x) width_area⌋
  let max_x : Int := ⌊double.add (max from_.x to_.x) width_area⌋
  let min_y : Int := ⌊double.sub (min from_.y to_.y) width_area⌋
  let max_y : Int := ⌊double.add (max from_.y to_.y) width_area⌋
  (intRange min_x max_x).flatMap (fun x => (intRange min_y max_y).map (fun y => { x := x, y := y }))

/-- The effect of `std::set::insert` on the increasing list of elements. -/
def set_insert (ids : List Nat) (id : Nat) : List Nat :=
  if id ∈ ids then ids else ids.orderedInsert (· ≤ ·) id

/-- Source: `Map::AddLootItem`. -/
def AddLootItem (m : Map) (item : LootItem) : Map :=
  let c : Cell := { x := ⌊item.coordinate.x⌋, y := ⌊item.coordinate.y⌋ }
  { m with items_by_cell_ := fun d =>
      if d = c then some (set_insert ((m.items_by_cell_ c).getD []) item.id)
      else m.items_by_cell_ d }

/-- Source: `Map::RemoveLootItem`. -/
def RemoveLootItem (m : Map) (item : LootItem) : Map :=
  let c : Cell := { x := ⌊item.coordinate.x⌋, y := ⌊item.coordinate.y⌋ }
  match m.items_by_cell_ c with
  | none => m
  | some ids =>
    { m with items_by_cell_ := fun d =>
        if d = c then some (ids.filter (fun k => k != item.id)) else m.items_by_cell_ d }

/-- Source: `Map::ClearLootIndex`. -/
def ClearLootIndex (m : Map) : Map := { m with items_by_cell_ := fun _ => none }

end Map

end model

namespace pos

/-- Source: `pos::Velocity`. -/
structure Velocity where
  vx : ℚ
  vy : ℚ
deriving DecidableEq, Repr

/-- Source: `pos::Direction`. -/
inductive Direction where
  | NORTH
  | SOUTH
  | WEST
  | EAST
deriving DecidableEq, Repr

/-- Source: `pos::Position`. -/
structure Position where
  coordinates_ : Coordinate
  velocity_ : Velocity
  direction_ : Direction
deriving DecidableEq, Repr

end pos

namespace model

/-- Source: `class Dog` in `src/game_model/dog.h`; the bag holds pairs of item id and
loot info in pickup order.  `int` members are integers without wrap-around. -/
structure Dog where
  name_ : String
  id_ : Int
  pos_ : pos.Position
  collected_items_ : List (Nat × LootInfo)
  bag_capacity_ : Int
  pickup_length_ : ℚ
  score_ : Int
deriving DecidableEq, Repr

namespace Dog

/-- Source: the constructor `Dog(name, id, coordinates, bag_capacity)` with the
default member initialisers. -/
def new (name : String) (id : Int) (coordinates : pos.Coordinate) (bag_capacity : Int) : Dog :=
  { name_ := name, id_ := id,
    pos_ := { coordinates_ := coordinates, velocity_ := { vx := 0, vy := 0 },
              direction_ := pos.Direction.NORTH },
    collected_items_ := [], bag_capacity_ := bag_capacity, pickup_length_ := 3 / 5,
    score_ := 0 }

/-- Source: `Dog::GetId`. -/
def GetId (d : Dog) : Int := d.id_

/-- Source: `Dog::GetPickupRadius`. -/
def GetPickupRadius (d : Dog) : ℚ := d.pickup_length_ / 2

/-- Source: `Dog::SetCoordinates`. -/
def SetCoordinates (d : Dog) (coordinates : pos.Coordinate) : Dog :=
  { d with pos_ := { d.pos_ with coordinates_ := coordinates } }

/-- Source: `Dog::SetVelocity`. -/
def SetVelocity (d : Dog) (velocity : pos.Velocity) : Dog :=
  { d with pos_ := { d.pos_ with velocity_ := velocity } }

/-- Source: `Dog::SetDirection`. -/
def SetDirection (d : Dog) (direction : pos.Direction) : Dog :=
  { d with pos_ := { d.pos_ with direction_ := direction } }

/-- Source: `Dog::AddItem`; the result and the dog after the call.  The comparison
`collected_items_.size() < bag_capacity_` is made in `size_t`: the `int` capacity
is converted to `size_t` first. -/
def AddItem (d : Dog) (item : LootItem) : Bool × Dog :=
  if d.collected_items_.length % 2 ^ 64 < collision_detector.to_size_t d.bag_capacity_ then
    (true, { d with collected_items_ := d.collected_items_ ++ [(item.id, item.info)] })
  else
    (false, d)

/-- The value of an integer as a 32-bit `int` (two's complement wrap-around). -/
def int32 (z : Int) : Int := (z + 2 ^ 31) % 2 ^ 32 - 2 ^ 31

/-- Source: `Dog::AddScore`; `score_ += score` on a 32-bit `int`.  A sum outside the
range of `int` is undefined in C++; the model wraps it around. -/
def AddScore (d : Dog) (score : Int) : Dog := { d with score_ := int32 (d.score_ + score) }

/-- Source: `Dog::ClearItems`. -/
def ClearItems (d : Dog) : Dog :=
  { (d.collected_items_.foldl (fun dog item => dog.AddScore item.2.value) d) with
    collected_items_ := [] }

/-- Starting from `score`, adding the values of the items one by one never leaves the
range of a 32-bit `int`. -/
def deposit_in_range (score : Int) : List (Nat × LootInfo) → Prop
  | [] => True
  | item :: rest =>
    (-(2 ^ 31) ≤ score + item.2.value ∧ score + item.2.value < 2 ^ 31) ∧
      deposit_in_range (score + item.2.value) rest

instance (items : List (Nat × LootInfo)) : ∀ score : Int,
    Decidable (deposit_in_range score items) := by
  induction items with
  | nil => intro score; unfold deposit_in_range; exact inferInstance
  | cons item rest ih =>
    intro score
    unfold deposit_in_range
    have := ih (score + item.2.value)
    exact inferInstance

/-- A call of `AddItem` or `ClearItems`. -/
inductive BagCall where
  | AddItem (item : LootItem)
  | ClearItems
deriving DecidableEq, Repr

/-- The dog after one bag call. -/
def bag_step (d : Dog) : BagCall → Dog
  | BagCall.AddItem item => (d.AddItem item).2
  | BagCall.ClearItems => d.ClearItems

/-- The dog after a sequence of bag calls. -/
def bag_run (d : Dog) (calls : List BagCall) : Dog := calls.foldl bag_step d

end Dog

/-- Source: `class GameSession`: the map, the dogs keyed by id (a list of key and
dog, without repeated keys), the spawn flag, the loot arena and the time of the
last loot spawn (milliseconds on the steady clock). -/
structure GameSession where
  map_ : Map
  dogs_ : List (Int × Dog)
  randomize_spawn_points_ : Bool
  loot_store_ : LootStore
  last_loot_spawn_time_ : Int

/-- The conversion of an unsigned value to `int` (32 bit, two's complement). -/
def to_int32 (n : Nat) : Int := ((n : Int) + 2 ^ 31) % 2 ^ 32 - 2 ^ 31

/-- Source: `detail::GenerateRandomInt`.  The outcome of the generator is read off
a list of draws supplied from outside (an exhausted list answers the lower bound);
the result and the remaining draws. -/
def GenerateRandomInt (min_inclusive _max_inclusive : Int) (draws : List Int) :
    Int × List Int :=
  (draws.headD min_inclusive, draws.tail)

namespace GameSession

/-- The effect of `dogs_.find(id)`: the dog stored under the key. -/
def FindDog (dogs : List (Int × Dog)) (id : Int) : Option Dog :=
  match dogs.find? (fun p => p.1 == id) with
  | some p => some p.2
  | none => none

/-- The effect of changing, in place, the dog found under the key. -/
def ModifyDog (dogs : List (Int × Dog)) (id : Int) (f : Dog → Dog) : List (Int × Dog) :=
  match dogs with
  | [] => []
  | p :: rest => if p.1 = id then (p.1, f p.2) :: rest else p :: ModifyDog rest id f

/-- Source: `GameSession::GetDog`. -/
def GetDog (s : GameSession) (id : Int) : Option Dog := FindDog s.dogs_ id

/-- Source: `GameSession::GetDogNumber`. -/
def GetDogNumber (s : GameSession) : Nat := s.dogs_.length

/-- Source: `GameSession::GenerateRandomSpawnCoordinates`; `roads[i]` outside the
road list is undefined in the source, the model reads a degenerate road there. -/
def GenerateRandomSpawnCoordinates (s : GameSession) (draws : List Int) :
    pos.Coordinate × List Int :=
  let roads := s.map_.GetRoads
  if roads.isEmpty then ({ x := 0, y := 0 }, draws)
  else
    let r1 := GenerateRandomInt 0 ((roads.length : Int) - 1) draws
    let road := roads.getD r1.1.toNat { start_ := { x := 0, y := 0 }, end_ := { x := 0, y := 0 } }
    if road.IsHorizontal then
      let min_x := min road.GetStart.x road.GetEnd.x
      let max_x := max road.GetStart.x road.GetEnd.x
      let r2 := GenerateRandomInt min_x max_x r1.2
      ({ x := (r2.1 : ℚ), y := (road.GetStart.y : ℚ) }, r2.2)
    else
      let min_y := min road.GetStart.y road.GetEnd.y
      let max_y := max road.GetStart.y road.GetEnd.y
      let r2 := GenerateRandomInt min_y max_y r1.2
      ({ x := (road.GetStart.x : ℚ), y := (r2.1 : ℚ) }, r2.2)

/-- Source: `GameSession::GenerateDogSpawnCoordinates`. -/
def GenerateDogSpawnCoordinates (s : GameSession) (draws : List Int) :
    pos.Coordinate × List Int :=
  if s.randomize_spawn_points_ then s.GenerateRandomSpawnCoordinates draws
  else
    match s.map_.GetRoads with
    | [] => ({ x := 0, y := 0 }, draws)
    | road :: _ => ({ x := (road.GetStart.x : ℚ), y := (road.GetStart.y : ℚ) }, draws)

/-- Source: `GameSession::GetRandomLootType`. -/
def GetRandomLootType (s : GameSession) (draws : List Int) : LootType × List Int :=
  let types_num := s.map_.GetMaxCountLootTypes
  if types_num = 0 then (LootType.UNKNOWN, draws)
  else
    let r := GenerateRandomInt 0 ((types_num : Int) - 1) draws
    (s.map_.GetLootType r.1.toNat, r.2)

/-- Source: `GameSession::SpawnDog`; the returned pointer (`none` for `nullptr`), the
session after the call and the remaining draws.  The spawn coordinates are
computed before `try_emplace` looks for the key. -/
def SpawnDog (s : GameSession) (dog_name : String) (id : Int) (bag_capacity : Int)
    (draws : List Int) : Option Dog × GameSession × List Int :=
  let c := s.GenerateDogSpawnCoordinates draws
  match FindDog s.dogs_ id with
  | some _ => (none, s, c.2)
  | none =>
    let dog := Dog.new dog_name id c.1 bag_capacity
    (some dog, { s with dogs_ := s.dogs_ ++ [(id, dog)] }, c.2)

/-- Source: `GameSession::RemoveDog`. -/
def RemoveDog (s : GameSession) (id : Int) : GameSession :=
  { s with dogs_ := s.dogs_.filter (fun p => p.1 != id) }

/-- Source: `GameSession::MoveDog`, as a function of the dog passed by reference. -/
def MoveDog (s : GameSession) (dog : Dog) (dir : pos.Direction) : Dog :=
  let dog := dog.SetDirection dir
  let speed := s.map_.GetDogSpeed
  let v : pos.Velocity :=
    match dir with
    | pos.Direction.NORTH => { vx := 0, vy := -speed }
    | pos.Direction.SOUTH => { vx := 0, vy := speed }
    | pos.Direction.WEST => { vx := -speed, vy := 0 }
    | pos.Direction.EAST => { vx := speed, vy := 0 }
  dog.SetVelocity v

/-- One iteration of the creation loop of `SpawnLoot`. -/
def SpawnLootStep (acc : GameSession × List Int) (_i : Nat) : GameSession × List Int :=
  let s := acc.1
  let t := s.GetRandomLootType acc.2
  let c := s.GenerateRandomSpawnCoordinates t.2
  let info := s.map_.GetLootInfo t.1
  let created := s.loot_store_.Create info c.1
  ({ s with loot_store_ := created.2, map_ := s.map_.AddLootItem created.1 }, c.2)

/-- Source: `GameSession::SpawnLoot`.  `loot_gen::LootGenerator::Generate` is not
part of the sources at hand and is a parameter, as are the two readings `now`,
`now2` of the steady clock. -/
def SpawnLoot (s : GameSession) (Generate : Int → Nat → Nat → Nat) (now now2 : Int)
    (draws : List Int) : GameSession × List Int :=
  let delta := now - s.last_loot_spawn_time_
  let loot_count := s.loot_store_.GetItemNumber
  let looter_count := s.dogs_.length
  let items_to_generate := Generate delta loot_count looter_count
  let r := (List.range items_to_generate).foldl SpawnLootStep (s, draws)
  if items_to_generate > 0 then ({ r.1 with last_loot_spawn_time_ := now2 }, r.2)
  else r

/-- The candidate items of `LootEventProcessing`: the live items indexed under the
cells on the way of the gatherers, then every office of the map.  The cells are
taken without repetition; the iteration order of the `unordered_set` is not fixed
by the source, the model takes the order of `List.dedup`. -/
def GatherCandidates (s : GameSession) (dogs : List collision_detector.Gatherer) :
    List collision_detector.Item :=
  let checked_cells := (dogs.flatMap (fun dog =>
    Map.GetCellsOnTheWayArea dog.start_pos dog.end_pos dog.width)).dedup
  let loot := checked_cells.flatMap (fun cell =>
    (s.map_.GetItemIdsInCell cell).filterMap (fun id =>
      match s.loot_store_.GetItem (id % 2 ^ 32) with
      | none => none
      | some item =>
        some { type := "loot", position := item.coordinate, width := item.width,
               id := to_int32 item.id }))
  let offices := s.map_.GetOffices.map (fun office =>
    ({ type := "office",
       position := { x := (office.position_.x : ℚ), y := (office.position_.y : ℚ) },
       width := s.map_.GetOfficeWidth, id := 0 } : collision_detector.Item))
  loot ++ offices

/-- The body of the event loop of `LootEventProcessing`: the session and the set
`picked` after one event. -/
def ProcessEvent (acc : GameSession × List Nat) (event : collision_detector.GatheringEvent) :
    GameSession × List Nat :=
  let s := acc.1
  let picked := acc.2
  if event.item_type = "office" then
    let dog_id := to_int32 event.gatherer_id
    match FindDog s.dogs_ dog_id with
    | none => (s, picked)
    | some _ => ({ s with dogs_ := ModifyDog s.dogs_ dog_id Dog.ClearItems }, picked)
  else
    let item_id := event.item_id % 2 ^ 32
    if item_id ∈ picked then (s, picked)
    else
      let picked := item_id :: picked
      match s.loot_store_.GetItem item_id with
      | none => (s, picked)
      | some item =>
        let dog_id := to_int32 event.gatherer_id
        match FindDog s.dogs_ dog_id with
        | none => (s, picked)
        | some dog =>
          if (dog.AddItem item).1 then
            ({ s with dogs_ := ModifyDog s.dogs_ dog_id (fun d => (d.AddItem item).2),
                      map_ := s.map_.RemoveLootItem item,
                      loot_store_ := (s.loot_store_.Remove item_id).2 }, picked)
          else (s, picked)

/-- The event loop of `LootEventProcessing` over the sorted events. -/
def ProcessEvents (s : GameSession) (events : List collision_detector.GatheringEvent) :
    GameSession :=
  (events.foldl ProcessEvent (s, [])).1

/-- Source: `GameSession::LootEventProcessing`. -/
def LootEventProcessing (s : GameSession) (dogs : List collision_detector.Gatherer) :
    GameSession :=
  let items := s.GatherCandidates dogs
  let events := collision_detector.FindGatherEvents
    (collision_detector.LootPickupProvider items dogs)
  s.ProcessEvents events

/-- The body of the movement loop of `Tick` for one dog: the dog after it and the
gatherer segment recorded for it, if any. -/
def MoveInTick (map_ : Map) (dt : ℚ) (dog : Dog) : Dog × Option collision_detector.Gatherer :=
  let p := dog.pos_
  let vel := p.velocity_
  let coord := p.coordinates_
  if vel.vx = 0 ∧ vel.vy = 0 then (dog, none)
  else
    let target : pos.Coordinate := { x := coord.x + vel.vx * dt, y := coord.y + vel.vy * dt }
    let restr_pos := RestrictMovementToRoads map_ coord target
    if restr_pos.x = coord.x ∧ restr_pos.y = coord.y then (dog, none)
    else
      let dog1 := dog.SetCoordinates restr_pos
      let g : collision_detector.Gatherer :=
        { start_pos := coord, end_pos := restr_pos, width := dog1.GetPickupRadius,
          id := dog1.GetId }
      if restr_pos.x ≠ target.x ∨ restr_pos.y ≠ target.y then
        (dog1.SetVelocity { vx := 0, vy := 0 }, some g)
      else (dog1, some g)

/-- The movement loop of `Tick`: the session with every dog moved, and the recorded
gatherer segments in the order of the dogs. -/
def MoveDogs (s : GameSession) (dt : ℚ) : GameSession × List collision_detector.Gatherer :=
  ({ s with dogs_ := s.dogs_.map (fun p => (p.1, (MoveInTick s.map_ dt p.2).1)) },
    s.dogs_.filterMap (fun p => (MoveInTick s.map_ dt p.2).2))

/-- Source: `GameSession::Tick`; `delta` in milliseconds, `dt` in seconds. -/
def Tick (s : GameSession) (delta : Int) (Generate : Int → Nat → Nat → Nat) (now now2 : Int)
    (draws : List Int) : GameSession × List Int :=
  let dt : ℚ := (delta : ℚ) / 1000
  let moved := s.MoveDogs dt
  let s1 := moved.1.LootEventProcessing moved.2
  s1.SpawnLoot Generate now now2 draws

/-- A session for illustration: the road from `(0,0)` to `(10,0)`, an office at
`(3,0)`, one loot item worth `5` at `(2,0)` (id `0`, indexed under its cell) and a
dog with id `1`, bag capacity `1` and score `10` standing at `(4,0)`. -/
def pickup_session : GameSession :=
  { map_ := Map.AddLootItem
      { Map.ConstructMapFromConfig [Road.HORIZONTAL { x := 0, y := 0 } 10] with
        offices_ := [{ id_ := "o0", position_ := { x := 3, y := 0 },
                       offset_ := { dx := 0, dy := 0 } }] }
      { id := 0, info := { type := LootType.KEY, value := 5 },
        coordinate := { x := 2, y := 0 }, width := 0 },
    dogs_ := [(1, (Dog.new "a" 1 { x := 4, y := 0 } 1).AddScore 10)],
    randomize_spawn_points_ := false,
    loot_store_ := (LootStore.empty.Create { type := LootType.KEY, value := 5 }
      { x := 2, y := 0 }).2,
    last_loot_spawn_time_ := 0 }

/-- The segment from `(0,0)` to `(4,0)` walked by the dog of `pickup_session`. -/
def pickup_gatherer : collision_detector.Gatherer :=
  { start_pos := { x := 0, y := 0 }, end_pos := { x := 4, y := 0 }, width := 3 / 10, id := 1 }

/-- A session for illustration: the road from `(0,0)` to `(10,0)`, one loot item
worth `5` at `(2,0)` (id `0`, indexed under its cell), a dog with id `1` whose bag
of capacity `1` is full, and a dog with id `2` whose bag of capacity `1` is empty. -/
def contested_session : GameSession :=
  { map_ := Map.AddLootItem (Map.ConstructMapFromConfig [Road.HORIZONTAL { x := 0, y := 0 } 10])
      { id := 0, info := { type := LootType.KEY, value := 5 },
        coordinate := { x := 2, y := 0 }, width := 0 },
    dogs_ := [(1, ((Dog.new "a" 1 { x := 3, y := 0 } 1).AddItem
                { id := 7, info := { type := LootType.WALLET, value := 9 },
                  coordinate := { x := 9, y := 0 }, width := 0 }).2),
              (2, Dog.new "b" 2 { x := 3, y := 0 } 1)],
    randomize_spawn_points_ := false,
    loot_store_ := (LootStore.empty.Create { type := LootType.KEY, value := 5 }
      { x := 2, y := 0 }).2,
    last_loot_spawn_time_ := 0 }

/-- The segments walked by the two dogs of `contested_session`: dog `1` from `(1,0)`
and dog `2` from `(0,0)`, both to `(3,0)`; dog `1` passes the item at `(2,0)` at
fraction `1/2` of its path, dog `2` at fraction `2/3` (as a double). -/
def contested_gatherers : List collision_detector.Gatherer :=
  [{ start_pos := { x := 1, y := 0 }, end_pos := { x := 3, y := 0 }, width := 3 / 10, id := 1 },
   { start_pos := { x := 0, y := 0 }, end_pos := { x := 3, y := 0 }, width := 3 / 10, id := 2 }]

/-- The point lies on the segment between the two endpoints of the road: it is
collinear with them and between them in each coordinate. -/
def OnAxisSegment (r : Road) (c : pos.Coordinate) : Prop :=
  (c.x - (r.start_.x : ℚ)) * ((r.end_.y : ℚ) - (r.start_.y : ℚ)) =
    (c.y - (r.start_.y : ℚ)) * ((r.end_.x : ℚ) - (r.start_.x : ℚ)) ∧
  ((min r.start_.x r.end_.x : Int) : ℚ) ≤ c.x ∧ c.x ≤ ((max r.start_.x r.end_.x : Int) : ℚ) ∧
  ((min r.start_.y r.end_.y : Int) : ℚ) ≤ c.y ∧ c.y ≤ ((max r.start_.y r.end_.y : Int) : ℚ)

instance (r : Road) (c : pos.Coordinate) : Decidable (OnAxisSegment r c) := by
  unfold OnAxisSegment
  exact inferInstance

/-- The draw that `GenerateRandomInt` answers lies in the inclusive range asked for. -/
def DrawInRange (min_inclusive max_inclusive : Int) (draws : List Int) : Prop :=
  min_inclusive ≤ (GenerateRandomInt min_inclusive max_inclusive draws).1 ∧
  (GenerateRandomInt min_inclusive max_inclusive draws).1 ≤ max_inclusive

/-- Each of the two draws that `GenerateRandomSpawnCoordinates` makes on a map with
roads lies in the inclusive range the call asks for: the road number, then the
coordinate along the chosen road. -/
def SpawnDrawsInRange (s : GameSession) (draws : List Int) : Prop :=
  let roads := s.map_.GetRoads
  let r1 := GenerateRandomInt 0 ((roads.length : Int) - 1) draws
  let road := roads.getD r1.1.toNat { start_ := { x := 0, y := 0 }, end_ := { x := 0, y := 0 } }
  DrawInRange 0 ((roads.length : Int) - 1) draws ∧
  (if road.IsHorizontal then
    DrawInRange (min road.GetStart.x road.GetEnd.x) (max road.GetStart.x road.GetEnd.x) r1.2
  else
    DrawInRange (min road.GetStart.y road.GetEnd.y) (max road.GetStart.y road.GetEnd.y) r1.2)

instance (lo hi : Int) (draws : List Int) : Decidable (DrawInRange lo hi draws) := by
  unfold DrawInRange
  exact inferInstance

instance (s : GameSession) (draws : List Int) : Decidable (SpawnDrawsInRange s draws) := by
  unfold SpawnDrawsInRange
  exact inferInstance

/-- A session for illustration: the roads from `(0,0)` to `(10,0)` and from `(10,0)`
to `(10,5)`, one loot type, no dogs, no loot, randomized spawn points. -/
def spawn_session : GameSession :=
  { map_ :=
      { Map.ConstructMapFromConfig
          [Road.HORIZONTAL { x := 0, y := 0 } 10, Road.VERTICAL { x := 10, y := 0 } 5] with
        loot_info_ := [{ type := LootType.KEY, value := 5 }] },
    dogs_ := [],
    randomize_spawn_points_ := true,
    loot_store_ := LootStore.empty,
    last_loot_spawn_time_ := 0 }

/-- Source: `GameSession::ClearDynamicState`. -/
def ClearDynamicState (s : GameSession) : GameSession :=
  { s with dogs_ := [], loot_store_ := s.loot_store_.Clear, map_ := s.map_.ClearLootIndex }

/-- Source: `GameSession::RestoreDog`; the returned pointer (`none` for `nullptr`) and
the session after the call. -/
def RestoreDog (s : GameSession) (dog : Dog) : Option Dog × GameSession :=
  match FindDog s.dogs_ dog.GetId with
  | some _ => (none, s)
  | none => (some dog, { s with dogs_ := s.dogs_ ++ [(dog.GetId, dog)] })

/-- Source: `GameSession::RestoreLootItem`.  The item looked up right after
`RestoreItem` is there for every id below `2^32 − 1`; the model leaves the index
alone in the other case, where the source is undefined. -/
def RestoreLootItem (s : GameSession) (id : Nat) (info : LootInfo) (coord : pos.Coordinate)
    (width : ℚ) : GameSession :=
  let r := s.loot_store_.RestoreItem id info coord width
  match r.2.GetItem id with
  | some item => { s with loot_store_ := r.2, map_ := s.map_.AddLootItem item }
  | none => { s with loot_store_ := r.2 }

/-- Source: `GameSession::FinalizeAfterRestore`. -/
def FinalizeAfterRestore (s : GameSession) : GameSession :=
  { s with loot_store_ := s.loot_store_.FinalizeAfterRestore }

end GameSession

/-- Modelled from the spec: `Game` ("ordered collection of Maps, one Session per
Map"); `src/game_model/model.cpp` is not among the sources at hand.  The model keeps
the sessions in map order, each under the id of its map. -/
structure Game where
  sessions_ : List (String × GameSession)

namespace Game

/-- The session stored under a map id. -/
def FindSession (g : Game) (id : String) : Option GameSession :=
  match g.sessions_.find? (fun p => p.1 == id) with
  | some p => some p.2
  | none => none

/-- Modelled from the spec: `Game::FindMap`, the map with the given id, `none` for the
null pointer returned when the game has no such map. -/
def FindMap (g : Game) (id : String) : Option Map :=
  match g.FindSession id with
  | some s => some s.map_
  | none => none

/-- Modelled from the spec: `Game::GetSessionForMap`, the session of the map with the
given id (`none` when the game has no such map). -/
def GetSessionForMap (g : Game) (id : String) : Option GameSession := g.FindSession id

/-- The effect of changing, in place, the session returned by `GetSessionForMap`. -/
def ModifySessions (sessions : List (String × GameSession)) (id : String)
    (f : GameSession → GameSession) : List (String × GameSession) :=
  match sessions with
  | [] => []
  | p :: rest => if p.1 = id then (p.1, f p.2) :: rest else p :: ModifySessions rest id f

/-- The game after the session of a map has been changed in place. -/
def ModifySession (g : Game) (id : String) (f : GameSession → GameSession) : Game :=
  { sessions_ := ModifySessions g.sessions_ id f }

end Game

end model

namespace application

open model

/-- Source: `DogState::BagItem` in `src/app/app_state.h`. -/
structure BagItem where
  item_id : Nat
  type : String
  value : Int
deriving DecidableEq, Repr

/-- Source: `struct DogState`. -/
structure DogState where
  id : Int
  name : String
  x : ℚ
  y : ℚ
  vx : ℚ
  vy : ℚ
  dir : Char
  bag_capacity : Int
  score : Int
  bag : List BagItem
deriving DecidableEq, Repr

/-- Source: `struct LootState`. -/
structure LootState where
  id : Nat
  type : String
  score_value : Int
  x : ℚ
  y : ℚ
  width : ℚ
deriving DecidableEq, Repr

/-- Source: `struct MapState`. -/
structure MapState where
  map_id : String
  dogs : List DogState
  loot : List LootState
deriving DecidableEq, Repr

/-- Source: `AuthState::PlayerLink`. -/
structure PlayerLink where
  player_id : Nat
  map_id : String
  dog_id : Int
  play_time_sec : ℚ
  idle_time_sec : ℚ
deriving DecidableEq, Repr

/-- Source: `AuthState::TokenLink`. -/
structure TokenLink where
  token : String
  player_id : Nat
deriving DecidableEq, Repr

/-- Source: `struct AuthState`. -/
structure AuthState where
  next_player_id : Nat
  players : List PlayerLink
  tokens : List TokenLink
deriving DecidableEq, Repr

/-- Source: `struct AppState`. -/
structure AppState where
  auth : AuthState
  maps : List MapState
deriving DecidableEq, Repr

/-- Source: `class Player` in `src/app/player.h`.  The member `dog_` points at a dog
stored in the session of the map `map_id_`; the model keeps the key of that dog
(`none` for a null pointer), and a write through the pointer is a write to the entry
under that key. -/
structure Player where
  id_ : Nat
  dog_ : Option Int
  map_id_ : String
deriving DecidableEq, Repr

/-- Source: `Application::PlayerTiming`. -/
structure PlayerTiming where
  play_time_sec : ℚ
  idle_time_sec : ℚ
deriving DecidableEq, Repr

/-- Source: `Players::AddPlayer`; `emplace` keeps an entry that is already there. -/
def AddPlayer (players : List (Nat × Player)) (id : Nat) (dog : Option Int) (map_id : String) :
    List (Nat × Player) :=
  if players.any (fun p => p.1 == id) then players
  else players ++ [(id, { id_ := id, dog_ := dog, map_id_ := map_id })]

/-- Source: `Players::FindPlayerById`. -/
def FindPlayerById (players : List (Nat × Player)) (id : Nat) : Option Player :=
  match players.find? (fun p => p.1 == id) with
  | some p => some p.2
  | none => none

/-- The assignment `m[key] = value` on an `unordered_map` kept as a list of entries. -/
def assign {K V : Type} [DecidableEq K] (m : List (K × V)) (key : K) (value : V) : List (K × V) :=
  if m.any (fun p => decide (p.1 = key)) then
    m.map (fun p => if p.1 = key then (p.1, value) else p)
  else m ++ [(key, value)]

/-- Source: `PlayerTokens::SetTokenForPlayer`. -/
def SetTokenForPlayer (tokens : List (String × Nat)) (token : String) (id : Nat) :
    List (String × Nat) :=
  assign tokens token id

/-- Source: `class Application`: the game, the player and token tables, the next
player id and the timing table (the unit-of-work factory, the retirement time and
the tick callback play no part in restoring, moving or stopping). -/
structure Application where
  game_ : Game
  players_ : List (Nat × Player)
  tokens_ : List (String × Nat)
  next_player_id_ : Nat
  player_timing_ : List (Nat × PlayerTiming)

/-- The decoding of a loot type name in `RestoreState`. -/
def DecodeLootType (type : String) : LootType :=
  if type = "key" then LootType.KEY
  else if type = "wallet" then LootType.WALLET
  else LootType.UNKNOWN

/-- The decoding of a direction code in `RestoreState`; `none` where the source throws
"invalid dog direction". -/
def DecodeDirection (dir : Char) : Option pos.Direction :=
  if dir = 'N' then some pos.Direction.NORTH
  else if dir = 'S' then some pos.Direction.SOUTH
  else if dir = 'E' then some pos.Direction.EAST
  else if dir = 'W' then some pos.Direction.WEST
  else none

/-- The dog that the body of the dog loop of `RestoreState` builds from a dog state,
before `RestoreDog`; `none` where the source throws "invalid dog direction". -/
def BuildDog (dog_state : DogState) : Option Dog :=
  let dog := Dog.new dog_state.name dog_state.id { x := dog_state.x, y := dog_state.y }
    dog_state.bag_capacity
  let dog := dog.SetVelocity { vx := dog_state.vx, vy := dog_state.vy }
  match DecodeDirection dog_state.dir with
  | none => none
  | some d =>
    let dog := dog.SetDirection d
    let dog := dog.ClearItems
    let dog := dog_state.bag.foldl (fun (dg : Dog) bag_item =>
      (dg.AddItem { id := bag_item.item_id % 2 ^ 32,
                    info := { type := DecodeLootType bag_item.type, value := bag_item.value },
                    coordinate := { x := 0, y := 0 }, width := 0 }).2) dog
    some (dog.AddScore dog_state.score)

/-- The dog loop of `RestoreState` on one session: the message of the exception
thrown (`none` when the loop runs to its end) and the session as the loop leaves it. -/
def RestoreDogs (session : GameSession) : List DogState → Option String × GameSession
  | [] => (none, session)
  | dog_state :: rest =>
    match BuildDog dog_state with
    | none => (some "Restoring state failed: invalid dog direction", session)
    | some dog => RestoreDogs (session.RestoreDog dog).2 rest

/-- The loot loop of `RestoreState` on one session; the `uint64_t` id of the loot
state is converted to `ItemId` (`uint32_t`). -/
def RestoreLoot (session : GameSession) (loot : List LootState) : GameSession :=
  loot.foldl (fun (s : GameSession) loot_state =>
    s.RestoreLootItem (loot_state.id % 2 ^ 32)
      { type := DecodeLootType loot_state.type, value := loot_state.score_value }
      { x := loot_state.x, y := loot_state.y } loot_state.width) session

/-- The first loop of `RestoreState`, over the map states: the message of the
exception thrown (`none` when the loop runs to its end) and the game as the loop
leaves it.  The session is changed in place through the reference returned by
`GetSessionForMap`, so what was done before an exception stays done. -/
def RestoreMaps (g : Game) : List MapState → Option String × Game
  | [] => (none, g)
  | map_state :: rest =>
    match g.FindMap map_state.map_id, g.GetSessionForMap map_state.map_id with
    | some _, some session =>
      let r := RestoreDogs session.ClearDynamicState map_state.dogs
      match r.1 with
      | some e => (some e, g.ModifySession map_state.map_id (fun _ => r.2))
      | none =>
        RestoreMaps (g.ModifySession map_state.map_id
          (fun _ => (RestoreLoot r.2 map_state.loot).FinalizeAfterRestore)) rest
    | _, _ => (some "Restoring state failed: map not found", g)

namespace Application

/-- The second loop of `RestoreState`, over the player links: the message of the
exception thrown (`none` when the loop runs to its end) and the application as the
loop leaves it. -/
def RestorePlayers (app : Application) : List PlayerLink → Option String × Application
  | [] => (none, app)
  | player_link :: rest =>
    match app.game_.FindMap player_link.map_id, app.game_.GetSessionForMap player_link.map_id with
    | some _, some session =>
      match session.GetDog player_link.dog_id with
      | none => (some "Restoring state failed: dog not found", app)
      | some _ =>
        let players := AddPlayer app.players_ player_link.player_id (some player_link.dog_id)
          player_link.map_id
        let timing : PlayerTiming :=
          { play_time_sec := player_link.play_time_sec,
            idle_time_sec := player_link.idle_time_sec }
        let player_timing := assign app.player_timing_ player_link.player_id timing
        RestorePlayers { app with players_ := players, player_timing_ := player_timing } rest
    | _, _ => (some "Restoring state failed: map not found", app)

/-- Source: `Application::RestoreState`: the message of the exception thrown (`none`
when the call returns) and the application as the call leaves it. -/
def RestoreState (app : Application) (app_state : AppState) : Option String × Application :=
  let r := RestoreMaps app.game_ app_state.maps
  match r.1 with
  | some e => (some e, { app with game_ := r.2 })
  | none =>
    let r2 := RestorePlayers
      { app with game_ := r.2, players_ := [], tokens_ := [],
                 next_player_id_ := app_state.auth.next_player_id }
      app_state.auth.players
    match r2.1 with
    | some e => (some e, r2.2)
    | none =>
      let tokens := app_state.auth.tokens.foldl
        (fun t token_link => SetTokenForPlayer t token_link.token token_link.player_id)
        r2.2.tokens_
      (none, { r2.2 with tokens_ := tokens })

/-- Source: `Application::MovePlayer`. -/
def MovePlayer (app : Application) (player_id : Nat) (dir : pos.Direction) : Application :=
  match FindPlayerById app.players_ player_id with
  | none => app
  | some player =>
    match player.dog_ with
    | none => app
    | some dog_id =>
      let game := app.game_.ModifySession player.map_id_ (fun session =>
        { session with
          dogs_ := GameSession.ModifyDog session.dogs_ dog_id (fun dog => session.MoveDog dog dir) })
      { app with game_ := game }

/-- Source: `Application::StopPlayer`. -/
def StopPlayer (app : Application) (player_id : Nat) : Application :=
  match FindPlayerById app.players_ player_id with
  | none => app
  | some player =>
    match player.dog_ with
    | none => app
    | some dog_id =>
      let stop := fun (dog : Dog) => dog.SetVelocity { vx := 0, vy := 0 }
      let game := app.game_.ModifySession player.map_id_ (fun session =>
        { session with dogs_ := GameSession.ModifyDog session.dogs_ dog_id stop })
      { app with game_ := game }

end Application

/-- An application for illustration: one map `m1` whose session is `pickup_session`
(one dog, one loot item), one player `0` with the token `t` playing that dog. -/
def example_app : Application :=
  { game_ := { sessions_ := [("m1", GameSession.pickup_session)] },
    players_ := [(0, { id_ := 0, dog_ := some 1, map_id_ := "m1" })],
    tokens_ := [("t", 0)],
    next_player_id_ := 1,
    player_timing_ := [] }

/-- A snapshot for illustration: an empty state for the map `m1`, then a state for a
map `zz` that `example_app` does not have. -/
def broken_snapshot : AppState :=
  { auth := { next_player_id := 0, players := [], tokens := [] },
    maps := [{ map_id := "m1", dogs := [], loot := [] },
             { map_id := "zz", dogs := [], loot := [] }] }

end application

/-! ## The road cell index -/

namespace model

theorem RoadCellIndex.lookup_touch (idx : RoadCellIndex) (c d : Cell) :
    (idx.touch c).lookup d = idx.lookup d := by
  unfold RoadCellIndex.lookup RoadCellIndex.touch
  by_cases h : d = c
  · subst h; simp
  · simp [h]

theorem RoadCellIndex.mem_lookup_push_back (idx : RoadCellIndex) (c d : Cell) (i j : Nat) :
    j ∈ (idx.push_back c i).lookup d ↔ j ∈ idx.lookup d ∨ (j = i ∧ d = c) := by
  unfold RoadCellIndex.lookup RoadCellIndex.push_back
  by_cases h : d = c
  · subst h; simp
  · simp [h]

theorem RoadCellIndex.mem_lookup_foldl_push_back (f : Int → Cell) (i : Nat) (xs : List Int) :
    ∀ (idx : RoadCellIndex) (d : Cell) (j : Nat),
      j ∈ (xs.foldl (fun acc x => acc.push_back (f x) i) idx).lookup d ↔
        j ∈ idx.lookup d ∨ (j = i ∧ ∃ x ∈ xs, d = f x) := by
  induction xs with
  | nil => intro idx d j; simp
  | cons x xs ih =>
    intro idx d j
    rw [List.foldl_cons, ih, RoadCellIndex.mem_lookup_push_back]
    constructor
    · rintro ((h | ⟨h1, h2⟩) | ⟨h1, y, hy, h2⟩)
      · exact Or.inl h
      · exact Or.inr ⟨h1, x, List.mem_cons_self _ _, h2⟩
      · exact Or.inr ⟨h1, y, List.mem_cons_of_mem _ hy, h2⟩
    · rintro (h | ⟨h1, y, hy, h2⟩)
      · exact Or.inl (Or.inl h)
      · rcases List.mem_cons.mp hy with rfl | hy
        · exact Or.inl (Or.inr ⟨h1, h2⟩)
        · exact Or.inr ⟨h1, y, hy, h2⟩

theorem Map.mem_intRange (lo hi v : Int) : v ∈ Map.intRange lo hi ↔ lo ≤ v ∧ v ≤ hi := by
  unfold Map.intRange
  rw [List.mem_map]
  constructor
  · rintro ⟨k, hk, rfl⟩
    have hk2 := List.mem_range.mp hk
    omega
  · intro h
    refine ⟨(v - lo).toNat, List.mem_range.mpr ?_, ?_⟩ <;> omega

theorem Map.IndexingRoadInCells_roads (m : Map) (i : Nat) :
    (m.IndexingRoadInCells i).roads_ = m.roads_ := by
  unfold Map.IndexingRoadInCells
  cases h : m.roads_.get? i with
  | none => rfl
  | some r =>
    simp only []
    split <;> rfl

theorem Road.covers_of_horizontal (r : Road) (d : Cell) (h : r.IsHorizontal = true) :
    r.covers d ↔
      d.y = r.start_.y ∧ min r.start_.x r.end_.x ≤ d.x ∧ d.x ≤ max r.start_.x r.end_.x := by
  unfold Road.covers
  rw [if_pos h]

theorem Road.covers_of_not_horizontal (r : Road) (d : Cell) (h : ¬ r.IsHorizontal = true) :
    r.covers d ↔
      d.x = r.start_.x ∧ min r.start_.y r.end_.y ≤ d.y ∧ d.y ≤ max r.start_.y r.end_.y := by
  unfold Road.covers
  rw [if_neg h]

theorem Map.mem_lookup_IndexingRoadInCells (m : Map) (i : Nat) (d : Cell) (j : Nat) :
    j ∈ (m.IndexingRoadInCells i).roads_by_cell_.lookup d ↔
      j ∈ m.roads_by_cell_.lookup d ∨ (j = i ∧ ∃ r, m.roads_.get? i = some r ∧ r.covers d) := by
  unfold Map.IndexingRoadInCells
  cases h : m.roads_.get? i with
  | none => simp
  | some r =>
    simp only [Road.GetStart, Road.GetEnd]
    by_cases hh : r.IsHorizontal = true
    · rw [if_pos hh]
      simp only [RoadCellIndex.lookup_touch,
        RoadCellIndex.mem_lookup_foldl_push_back, Map.mem_intRange]
      constructor
      · rintro (h1 | ⟨h1, x, hx, rfl⟩)
        · exact Or.inl h1
        · exact Or.inr ⟨h1, r, rfl, (Road.covers_of_horizontal r _ hh).mpr ⟨rfl, hx.1, hx.2⟩⟩
      · rintro (h1 | ⟨h1, r2, h2, h3⟩)
        · exact Or.inl h1
        · cases h2
          obtain ⟨h3, h4, h5⟩ := (Road.covers_of_horizontal r _ hh).mp h3
          refine Or.inr ⟨h1, d.x, ⟨h4, h5⟩, ?_⟩
          cases d
          simp_all
    · rw [if_neg hh]
      simp only [RoadCellIndex.mem_lookup_foldl_push_back, Map.mem_intRange]
      constructor
      · rintro (h1 | ⟨h1, y, hy, rfl⟩)
        · exact Or.inl h1
        · exact Or.inr ⟨h1, r, rfl, (Road.covers_of_not_horizontal r _ hh).mpr ⟨rfl, hy.1, hy.2⟩⟩
      · rintro (h1 | ⟨h1, r2, h2, h3⟩)
        · exact Or.inl h1
        · cases h2
          obtain ⟨h3, h4, h5⟩ := (Road.covers_of_not_horizontal r _ hh).mp h3
          refine Or.inr ⟨h1, d.y, ⟨h4, h5⟩, ?_⟩
          cases d
          simp_all

theorem Map.foldl_IndexingRoadInCells_roads (is : List Nat) :
    ∀ m : Map, (is.foldl Map.IndexingRoadInCells m).roads_ = m.roads_ := by
  induction is with
  | nil => intro m; rfl
  | cons i is ih =>
    intro m
    rw [List.foldl_cons, ih, Map.IndexingRoadInCells_roads]

theorem Map.mem_lookup_foldl_IndexingRoadInCells (is : List Nat) :
    ∀ (m : Map) (d : Cell) (j : Nat),
      j ∈ (is.foldl Map.IndexingRoadInCells m).roads_by_cell_.lookup d ↔
        j ∈ m.roads_by_cell_.lookup d ∨
          (j ∈ is ∧ ∃ r, m.roads_.get? j = some r ∧ r.covers d) := by
  induction is with
  | nil => intro m d j; simp
  | cons i is ih =>
    intro m d j
    rw [List.foldl_cons, ih, Map.mem_lookup_IndexingRoadInCells, Map.IndexingRoadInCells_roads]
    constructor
    · rintro ((h | ⟨rfl, h⟩) | ⟨h1, h2⟩)
      · exact Or.inl h
      · exact Or.inr ⟨List.mem_cons_self _ _, h⟩
      · exact Or.inr ⟨List.mem_cons_of_mem _ h1, h2⟩
    · rintro (h | ⟨h1, h2⟩)
      · exact Or.inl (Or.inl h)
      · rcases List.mem_cons.mp h1 with rfl | h1
        · exact Or.inl (Or.inr ⟨rfl, h2⟩)
        · exact Or.inr ⟨h1, h2⟩

theorem Map.AddRoad_roads (m : Map) (road : Road) :
    (m.AddRoad road).roads_ = m.roads_ ++ [road] := by
  unfold Map.AddRoad
  simp only [Map.IndexingRoadInCells_roads]

theorem Map.foldl_AddRoad_roads (roads : List Road) :
    ∀ m : Map, (roads.foldl Map.AddRoad m).roads_ = m.roads_ ++ roads := by
  induction roads with
  | nil => intro m; simp
  | cons r roads ih =>
    intro m
    rw [List.foldl_cons, ih, Map.AddRoad_roads]
    simp

theorem Map.ConstructMapFromConfig_roads (roads : List Road) :
    (Map.ConstructMapFromConfig roads).roads_ = roads := by
  unfold Map.ConstructMapFromConfig Map.RebuildRoadCellIndex
  rw [Map.foldl_IndexingRoadInCells_roads]
  simp [Map.foldl_AddRoad_roads, Map.empty]

/-- The rebuilt index holds road `j` under cell `d` exactly when `j` is a road of
the map whose axis line passes through `d`. -/
theorem Map.mem_lookup_ConstructMapFromConfig (roads : List Road) (d : Cell) (j : Nat) :
    j ∈ (Map.ConstructMapFromConfig roads).roads_by_cell_.lookup d ↔
      ∃ r, roads.get? j = some r ∧ r.covers d := by
  unfold Map.ConstructMapFromConfig Map.RebuildRoadCellIndex
  rw [Map.mem_lookup_foldl_IndexingRoadInCells]
  simp only [Map.foldl_AddRoad_roads, Map.empty, List.nil_append, RoadCellIndex.lookup,
    Option.getD_none, List.not_mem_nil, false_or, List.mem_range]
  constructor
  · rintro ⟨_, h⟩
    exact h
  · rintro ⟨r, h1, h2⟩
    refine ⟨?_, r, h1, h2⟩
    exact (List.get?_eq_some.mp h1).1

theorem Map.mem_unique (j : Nat) : ∀ l : List Nat, j ∈ Map.unique l ↔ j ∈ l := by
  intro l
  induction l using Map.unique.induct with
  | case1 => simp [Map.unique]
  | case2 a => simp [Map.unique]
  | case3 a rest ih =>
    rw [Map.unique, if_pos rfl, ih]
    simp
  | case4 a b rest h ih =>
    rw [Map.unique, if_neg h, List.mem_cons, ih]
    simp

theorem Map.mem_add_from_cell (m : Map) (result : List Nat) (x y : Int) (j : Nat) :
    j ∈ m.add_from_cell result x y ↔
      j ∈ result ∨ j ∈ m.roads_by_cell_.lookup { x := x, y := y } := by
  unfold Map.add_from_cell RoadCellIndex.lookup
  cases h : m.roads_by_cell_ { x := x, y := y } with
  | none => simp
  | some vec => simp

/-- Membership in the candidate list: the six cells read by `GetRoadCandidates`. -/
theorem Map.mem_GetRoadCandidates (m : Map) (c : pos.Coordinate) (j : Nat) :
    j ∈ m.GetRoadCandidates c ↔
      j ∈ m.roads_by_cell_.lookup { x := ⌊c.x⌋, y := ⌊c.y⌋ } ∨
      j ∈ m.roads_by_cell_.lookup { x := ⌊c.x⌋ + 1, y := ⌊c.y⌋ } ∨
      j ∈ m.roads_by_cell_.lookup { x := ⌊c.x⌋, y := ⌊c.y⌋ + 1 } ∨
      j ∈ m.roads_by_cell_.lookup { x := ⌊c.x⌋ + 1, y := ⌊c.y⌋ + 1 } ∨
      j ∈ m.roads_by_cell_.lookup { x := ⌊c.x⌋ - 1, y := ⌊c.y⌋ } ∨
      j ∈ m.roads_by_cell_.lookup { x := ⌊c.x⌋, y := ⌊c.y⌋ - 1 } := by
  unfold Map.GetRoadCandidates
  simp only [Map.mem_unique, List.mem_insertionSort, Map.mem_add_from_cell,
    List.not_mem_nil, false_or, or_assoc]

theorem floor_in_corridor (a b : Int) (v : ℚ) (h1 : (a : ℚ) - kHalfWidth ≤ v)
    (h2 : v ≤ (b : ℚ) + kHalfWidth) : a - 1 ≤ ⌊v⌋ ∧ ⌊v⌋ ≤ b := by
  unfold kHalfWidth at h1 h2
  constructor
  · apply Int.le_floor.mpr
    push_cast
    linarith
  · have h : ⌊v⌋ < b + 1 := by
      apply Int.floor_lt.mpr
      push_cast
      linarith
    omega

theorem RoadRect_of_horizontal (r : Road) (h : r.IsHorizontal = true) :
    RoadRect r =
      { min_x := ((min r.start_.x r.end_.x : Int) : ℚ) - kHalfWidth
        max_x := ((max r.start_.x r.end_.x : Int) : ℚ) + kHalfWidth
        min_y := (r.start_.y : ℚ) - kHalfWidth
        max_y := (r.start_.y : ℚ) + kHalfWidth } := by
  simp only [RoadRect, Road.GetMinAlongAxis, Road.GetMaxAlongAxis, Road.GetStart, h, if_true]

theorem RoadRect_of_not_horizontal (r : Road) (h : ¬ r.IsHorizontal = true) :
    RoadRect r =
      { min_x := (r.start_.x : ℚ) - kHalfWidth
        max_x := (r.start_.x : ℚ) + kHalfWidth
        min_y := ((min r.start_.y r.end_.y : Int) : ℚ) - kHalfWidth
        max_y := ((max r.start_.y r.end_.y : Int) : ℚ) + kHalfWidth } := by
  simp only [RoadRect, Road.GetMinAlongAxis, Road.GetMaxAlongAxis, Road.GetStart, h]
  rfl

/-- The candidate query misses no road whose corridor contains the point. -/
theorem Map.mem_GetRoadCandidates_of_InCorridor (roads : List Road) (i : Nat) (r : Road)
    (hr : roads.get? i = some r) (p : pos.Coordinate) (hp : InCorridor r p) :
    i ∈ (Map.ConstructMapFromConfig roads).GetRoadCandidates p := by
  rw [Map.mem_GetRoadCandidates]
  simp only [Map.mem_lookup_ConstructMapFromConfig, hr, Option.some.injEq, exists_eq_left']
  unfold InCorridor at hp
  by_cases hh : r.IsHorizontal = true
  · rw [RoadRect_of_horizontal r hh] at hp
    simp only [Road.covers_of_horizontal _ _ hh]
    obtain ⟨hx1, hx2⟩ := floor_in_corridor _ _ _ hp.1 hp.2.1
    obtain ⟨hy1, hy2⟩ := floor_in_corridor _ _ _ hp.2.2.1 hp.2.2.2
    omega
  · rw [RoadRect_of_not_horizontal r hh] at hp
    simp only [Road.covers_of_not_horizontal _ _ hh]
    obtain ⟨hx1, hx2⟩ := floor_in_corridor _ _ _ hp.1 hp.2.1
    obtain ⟨hy1, hy2⟩ := floor_in_corridor _ _ _ hp.2.2.1 hp.2.2.2
    omega

/-- Every candidate is the index of a road of the map. -/
theorem Map.get_of_mem_GetRoadCandidates (roads : List Road) (i : Nat) (p : pos.Coordinate)
    (h : i ∈ (Map.ConstructMapFromConfig roads).GetRoadCandidates p) :
    ∃ r, roads.get? i = some r := by
  rw [Map.mem_GetRoadCandidates] at h
  simp only [Map.mem_lookup_ConstructMapFromConfig] at h
  rcases h with ⟨r, h, _⟩ | ⟨r, h, _⟩ | ⟨r, h, _⟩ | ⟨r, h, _⟩ | ⟨r, h, _⟩ | ⟨r, h, _⟩ <;>
    exact ⟨r, h⟩

/-! ## The intervals of the candidate roads -/

theorem mem_BuildIntervalsStep (roads : List Road) (from_ : pos.Coordinate)
    (o : RoadOrientation) (result : List Interval) (idx : Nat) (iv : Interval) :
    iv ∈ BuildIntervalsStep roads from_ o result idx ↔
      iv ∈ result ∨ ∃ r, roads.get? idx = some r ∧
        InRange (across o from_) (RectAcross o (RoadRect r)).left
          (RectAcross o (RoadRect r)).right = true ∧
        iv = RectAlong o (RoadRect r) := by
  unfold BuildIntervalsStep
  cases h : roads.get? idx with
  | none => simp
  | some r =>
    cases o with
    | Horizontal =>
      simp only [across, RectAcross, RectAlong, Option.some.injEq, exists_eq_left']
      cases hin : InRange from_.y (RoadRect r).min_y (RoadRect r).max_y <;> simp
    | Vertical =>
      simp only [across, RectAcross, RectAlong, Option.some.injEq, exists_eq_left']
      cases hin : InRange from_.x (RoadRect r).min_x (RoadRect r).max_x <;> simp

theorem mem_foldl_BuildIntervalsStep (roads : List Road) (from_ : pos.Coordinate)
    (o : RoadOrientation) (iv : Interval) (cands : List Nat) :
    ∀ result : List Interval,
      iv ∈ cands.foldl (BuildIntervalsStep roads from_ o) result ↔
        iv ∈ result ∨ ∃ idx ∈ cands, ∃ r, roads.get? idx = some r ∧
          InRange (across o from_) (RectAcross o (RoadRect r)).left
            (RectAcross o (RoadRect r)).right = true ∧
          iv = RectAlong o (RoadRect r) := by
  induction cands with
  | nil => intro result; simp
  | cons c cands ih =>
    intro result
    rw [List.foldl_cons, ih, mem_BuildIntervalsStep]
    constructor
    · rintro ((h | h) | ⟨idx, h1, h2⟩)
      · exact Or.inl h
      · exact Or.inr ⟨c, List.mem_cons_self _ _, h⟩
      · exact Or.inr ⟨idx, List.mem_cons_of_mem _ h1, h2⟩
    · rintro (h | ⟨idx, h1, h2⟩)
      · exact Or.inl (Or.inl h)
      · rcases List.mem_cons.mp h1 with rfl | h1
        · exact Or.inl (Or.inr h2)
        · exact Or.inr ⟨idx, h1, h2⟩

/-- The intervals built for a point: one per candidate road whose corridor holds
the point across the axis (up to `kEps`), namely the corridor's extent along the axis. -/
theorem mem_BuildIntervalsAlongRoadAxis (m : Map) (from_ : pos.Coordinate)
    (o : RoadOrientation) (iv : Interval) :
    iv ∈ BuildIntervalsAlongRoadAxis m from_ o ↔
      ∃ idx ∈ m.GetRoadCandidates from_, ∃ r, m.roads_.get? idx = some r ∧
        InRange (across o from_) (RectAcross o (RoadRect r)).left
          (RectAcross o (RoadRect r)).right = true ∧
        iv = RectAlong o (RoadRect r) := by
  unfold BuildIntervalsAlongRoadAxis
  simp only [Map.GetRoads]
  rw [mem_foldl_BuildIntervalsStep]
  simp

theorem OnGrid_RectAlong (o : RoadOrientation) (r : Road) :
    (RectAlong o (RoadRect r)).OnGrid := by
  unfold Interval.OnGrid
  by_cases hh : r.IsHorizontal = true
  · rw [RoadRect_of_horizontal r hh]
    cases o with
    | Horizontal =>
      exact ⟨min r.start_.x r.end_.x, max r.start_.x r.end_.x, by omega, rfl, rfl⟩
    | Vertical => exact ⟨r.start_.y, r.start_.y, le_refl _, rfl, rfl⟩
  · rw [RoadRect_of_not_horizontal r hh]
    cases o with
    | Horizontal => exact ⟨r.start_.x, r.start_.x, le_refl _, rfl, rfl⟩
    | Vertical =>
      exact ⟨min r.start_.y r.end_.y, max r.start_.y r.end_.y, by omega, rfl, rfl⟩

theorem OnGrid_of_mem_BuildIntervalsAlongRoadAxis (m : Map) (from_ : pos.Coordinate)
    (o : RoadOrientation) (iv : Interval) (h : iv ∈ BuildIntervalsAlongRoadAxis m from_ o) :
    iv.OnGrid := by
  obtain ⟨_, _, r, _, _, rfl⟩ := (mem_BuildIntervalsAlongRoadAxis m from_ o iv).mp h
  exact OnGrid_RectAlong o r

theorem Interval.OnGrid.left_le_right {iv : Interval} (h : iv.OnGrid) : iv.left ≤ iv.right := by
  obtain ⟨a, b, hab, hl, hr⟩ := h
  have : (a : ℚ) ≤ (b : ℚ) := by exact_mod_cast hab
  rw [hl, hr]
  unfold kHalfWidth
  linarith

/-- Grid intervals that do not touch or overlap are at least `1/5` apart. -/
theorem Interval.OnGrid.gap {u v : Interval} (hu : u.OnGrid) (hv : v.OnGrid)
    (h : v.left > u.right) : u.right + 1 / 5 ≤ v.left := by
  obtain ⟨a, b, _, _, hr⟩ := hu
  obtain ⟨c, d, _, hl, _⟩ := hv
  rw [hl, hr] at h
  rw [hl, hr]
  unfold kHalfWidth at h ⊢
  have h1 : (b : ℚ) < (c : ℚ) := by linarith
  have h2 : b < c := by exact_mod_cast h1
  have h3 : b + 1 ≤ c := by omega
  have h4 : (b : ℚ) + 1 ≤ (c : ℚ) := by exact_mod_cast h3
  linarith

/-! ## Merging the sorted intervals -/

theorem foldl_MergeStep_append (rest : List Interval) :
    ∀ (pre : List Interval) (cur : Interval),
      rest.foldl MergeStep (pre ++ [cur]) = pre ++ MergeFrom cur rest := by
  induction rest with
  | nil => intro pre cur; rfl
  | cons seg rest ih =>
    intro pre cur
    rw [List.foldl_cons]
    have hstep : MergeStep (pre ++ [cur]) seg =
        if seg.left > cur.right then (pre ++ [cur]) ++ [seg]
        else pre ++ [{ cur with right := max cur.right seg.right }] := by
      unfold MergeStep
      simp
    rw [hstep, MergeFrom]
    by_cases h : seg.left > cur.right
    · rw [if_pos h, if_pos h, ih]
      simp
    · rw [if_neg h, if_neg h, ih]

/-- The merge loop of the source is the recursion `MergeFrom` started at the first
sorted interval. -/
theorem MergeIntervals_cons (a : Interval) (rest : List Interval) :
    MergeIntervals (a :: rest) = MergeFrom a rest := by
  unfold MergeIntervals
  rw [List.foldl_cons]
  have h : MergeStep [] a = [] ++ [a] := by simp [MergeStep]
  rw [h, foldl_MergeStep_append]
  rfl

/-- What the merge recursion needs of its input: grid intervals, sorted by left
bound, none starting before the interval being grown. -/
theorem MergeFrom_input_step {cur seg : Interval} {rest : List Interval}
    (hc : cur.OnGrid) (hg : ∀ s ∈ seg :: rest, s.OnGrid)
    (hs : (seg :: rest).Pairwise (fun a b => a.left ≤ b.left)) :
    ({ cur with right := max cur.right seg.right } : Interval).OnGrid ∧
      seg.OnGrid ∧ (∀ s ∈ rest, s.OnGrid) ∧ (∀ s ∈ rest, seg.left ≤ s.left) ∧
      rest.Pairwise (fun a b => a.left ≤ b.left) := by
  have hsg := hg seg (List.mem_cons_self _ _)
  refine ⟨?_, hsg, fun s h => hg s (List.mem_cons_of_mem _ h),
    fun s h => List.rel_of_pairwise_cons hs h, List.Pairwise.of_cons hs⟩
  obtain ⟨a, b, hab, hl, hr⟩ := hc
  obtain ⟨c, d, hcd, hl2, hr2⟩ := hsg
  refine ⟨a, max b d, by omega, hl, ?_⟩
  simp only [hr, hr2]
  rw [Int.cast_max]
  exact max_add_add_right _ _ _

theorem MergeFrom_left_ge (rest : List Interval) :
    ∀ cur : Interval, (∀ s ∈ rest, cur.left ≤ s.left) →
      rest.Pairwise (fun a b => a.left ≤ b.left) →
      ∀ m ∈ MergeFrom cur rest, cur.left ≤ m.left := by
  induction rest with
  | nil =>
    intro cur _ _ m hm
    rw [MergeFrom, List.mem_singleton] at hm
    rw [hm]
  | cons seg rest ih =>
    intro cur hlb hs m hm
    have hseg := hlb seg (List.mem_cons_self _ _)
    rw [MergeFrom] at hm
    by_cases h : seg.left > cur.right
    · rw [if_pos h] at hm
      rcases List.mem_cons.mp hm with rfl | hm
      · exact le_refl _
      · exact le_trans hseg
          (ih seg (fun s h2 => List.rel_of_pairwise_cons hs h2) (List.Pairwise.of_cons hs) m hm)
    · rw [if_neg h] at hm
      exact ih { cur with right := max cur.right seg.right }
        (fun s hs2 => hlb s (List.mem_cons_of_mem _ hs2)) (List.Pairwise.of_cons hs) m hm

theorem MergeFrom_OnGrid (rest : List Interval) :
    ∀ cur : Interval, cur.OnGrid → (∀ s ∈ rest, s.OnGrid) →
      rest.Pairwise (fun a b => a.left ≤ b.left) →
      ∀ m ∈ MergeFrom cur rest, m.OnGrid := by
  induction rest with
  | nil =>
    intro cur hc _ _ m hm
    rw [MergeFrom, List.mem_singleton] at hm
    rw [hm]; exact hc
  | cons seg rest ih =>
    intro cur hc hg hs m hm
    obtain ⟨h1, h2, h3, _, h5⟩ := MergeFrom_input_step hc hg hs
    rw [MergeFrom] at hm
    by_cases h : seg.left > cur.right
    · rw [if_pos h] at hm
      rcases List.mem_cons.mp hm with rfl | hm
      · exact hc
      · exact ih seg h2 h3 h5 m hm
    · rw [if_neg h] at hm
      exact ih _ h1 h3 h5 m hm

/-- Merged intervals are separated: each ends at least `1/5` before the next begins. -/
theorem MergeFrom_separated (rest : List Interval) :
    ∀ cur : Interval, cur.OnGrid → (∀ s ∈ rest, s.OnGrid) →
      (∀ s ∈ rest, cur.left ≤ s.left) →
      rest.Pairwise (fun a b => a.left ≤ b.left) →
      (MergeFrom cur rest).Pairwise (fun a b => a.right + 1 / 5 ≤ b.left) := by
  induction rest with
  | nil =>
    intro cur _ _ _ _
    rw [MergeFrom]
    exact List.pairwise_singleton _ _
  | cons seg rest ih =>
    intro cur hc hg hlb hs
    obtain ⟨h1, h2, h3, h4, h5⟩ := MergeFrom_input_step hc hg hs
    rw [MergeFrom]
    by_cases h : seg.left > cur.right
    · rw [if_pos h]
      refine List.Pairwise.cons ?_ (ih seg h2 h3 h4 h5)
      intro m hm
      exact le_trans (Interval.OnGrid.gap hc h2 h) (MergeFrom_left_ge rest seg h4 h5 m hm)
    · rw [if_neg h]
      exact ih _ h1 h3 (fun s hs2 => hlb s (List.mem_cons_of_mem _ hs2)) h5

/-- Every input interval lies inside one merged interval. -/
theorem MergeFrom_covers (rest : List Interval) :
    ∀ cur : Interval, (∀ s ∈ rest, cur.left ≤ s.left) →
      rest.Pairwise (fun a b => a.left ≤ b.left) →
      ∀ iv ∈ cur :: rest, ∃ m ∈ MergeFrom cur rest, m.left ≤ iv.left ∧ iv.right ≤ m.right := by
  induction rest with
  | nil =>
    intro cur _ _ iv hiv
    rw [List.mem_singleton] at hiv
    exact ⟨cur, by simp [MergeFrom], by rw [hiv], by rw [hiv]⟩
  | cons seg rest ih =>
    intro cur hlb hs iv hiv
    have hseg := hlb seg (List.mem_cons_self _ _)
    have h4 : ∀ s ∈ rest, seg.left ≤ s.left := fun s h2 => List.rel_of_pairwise_cons hs h2
    have h5 := List.Pairwise.of_cons hs
    rw [MergeFrom]
    by_cases h : seg.left > cur.right
    · rw [if_pos h]
      rcases List.mem_cons.mp hiv with rfl | hiv
      · exact ⟨iv, List.mem_cons_self _ _, le_refl _, le_refl _⟩
      · obtain ⟨m, hm, hm1, hm2⟩ := ih seg h4 h5 iv hiv
        exact ⟨m, List.mem_cons_of_mem _ hm, hm1, hm2⟩
    · rw [if_neg h]
      have hlb2 : ∀ s ∈ rest,
          ({ cur with right := max cur.right seg.right } : Interval).left ≤ s.left :=
        fun s hs2 => hlb s (List.mem_cons_of_mem _ hs2)
      rcases List.mem_cons.mp hiv with rfl | hiv
      · obtain ⟨m, hm, hm1, hm2⟩ := ih _ hlb2 h5 _ (List.mem_cons_self _ _)
        exact ⟨m, hm, hm1, le_trans (le_max_left _ _) hm2⟩
      · rcases List.mem_cons.mp hiv with rfl | hiv
        · obtain ⟨m, hm, hm1, hm2⟩ := ih _ hlb2 h5 _ (List.mem_cons_self _ _)
          exact ⟨m, hm, le_trans hm1 hseg, le_trans (le_max_right _ _) hm2⟩
        · exact ih _ hlb2 h5 iv (List.mem_cons_of_mem _ hiv)

/-- Every point of a merged interval lies in one of the input intervals. -/
theorem MergeFrom_exact (rest : List Interval) :
    ∀ cur : Interval, (∀ s ∈ rest, cur.left ≤ s.left) →
      rest.Pairwise (fun a b => a.left ≤ b.left) →
      ∀ m ∈ MergeFrom cur rest, ∀ x : ℚ, m.left ≤ x → x ≤ m.right →
        ∃ iv ∈ cur :: rest, iv.left ≤ x ∧ x ≤ iv.right := by
  induction rest with
  | nil =>
    intro cur _ _ m hm x hx1 hx2
    rw [MergeFrom, List.mem_singleton] at hm
    subst hm
    exact ⟨m, List.mem_cons_self _ _, hx1, hx2⟩
  | cons seg rest ih =>
    intro cur hlb hs m hm x hx1 hx2
    have hseg := hlb seg (List.mem_cons_self _ _)
    have h4 : ∀ s ∈ rest, seg.left ≤ s.left := fun s h2 => List.rel_of_pairwise_cons hs h2
    have h5 := List.Pairwise.of_cons hs
    rw [MergeFrom] at hm
    by_cases h : seg.left > cur.right
    · rw [if_pos h] at hm
      rcases List.mem_cons.mp hm with rfl | hm
      · exact ⟨m, List.mem_cons_self _ _, hx1, hx2⟩
      · obtain ⟨iv, hiv, h1, h2⟩ := ih seg h4 h5 m hm x hx1 hx2
        exact ⟨iv, List.mem_cons_of_mem _ hiv, h1, h2⟩
    · rw [if_neg h] at hm
      have hlb2 : ∀ s ∈ rest,
          ({ cur with right := max cur.right seg.right } : Interval).left ≤ s.left :=
        fun s hs2 => hlb s (List.mem_cons_of_mem _ hs2)
      obtain ⟨iv, hiv, h1, h2⟩ := ih _ hlb2 h5 m hm x hx1 hx2
      rcases List.mem_cons.mp hiv with rfl | hiv
      · simp only at h1 h2
        by_cases hx : x ≤ cur.right
        · exact ⟨cur, List.mem_cons_self _ _, h1, hx⟩
        · refine ⟨seg, List.mem_cons_of_mem _ (List.mem_cons_self _ _), ?_, ?_⟩
          · push_neg at h hx
            exact le_trans h (le_of_lt hx)
          · rcases le_max_iff.mp h2 with h3 | h3
            · exact absurd h3 hx
            · exact h3
      · exact ⟨iv, List.mem_cons_of_mem _ (List.mem_cons_of_mem _ hiv), h1, h2⟩

theorem SortIntervals_sorted (ivs : List Interval) :
    (SortIntervals ivs).Pairwise (fun a b => a.left ≤ b.left) := by
  haveI : IsTotal Interval (fun a b => a.left ≤ b.left) := ⟨fun a b => le_total a.left b.left⟩
  haveI : IsTrans Interval (fun a b => a.left ≤ b.left) :=
    ⟨fun a b c h1 h2 => le_trans h1 h2⟩
  exact List.sorted_insertionSort _ ivs

theorem mem_SortIntervals (ivs : List Interval) (iv : Interval) :
    iv ∈ SortIntervals ivs ↔ iv ∈ ivs := by
  unfold SortIntervals
  exact List.mem_insertionSort _

/-- The merged intervals of a list of grid intervals: grid intervals, separated by
at least `1/5`, covering every input interval and nothing but the inputs. -/
theorem MergeIntervals_spec (ivs : List Interval) (hg : ∀ iv ∈ ivs, iv.OnGrid) :
    (∀ m ∈ MergeIntervals (SortIntervals ivs), m.OnGrid) ∧
    (MergeIntervals (SortIntervals ivs)).Pairwise (fun a b => a.right + 1 / 5 ≤ b.left) ∧
    (∀ iv ∈ ivs, ∃ m ∈ MergeIntervals (SortIntervals ivs),
      m.left ≤ iv.left ∧ iv.right ≤ m.right) ∧
    (∀ m ∈ MergeIntervals (SortIntervals ivs), ∀ x : ℚ, m.left ≤ x → x ≤ m.right →
      ∃ iv ∈ ivs, iv.left ≤ x ∧ x ≤ iv.right) := by
  have hsorted := SortIntervals_sorted ivs
  have hmem := mem_SortIntervals ivs
  cases hS : SortIntervals ivs with
  | nil =>
    rw [hS] at hmem
    refine ⟨by simp [MergeIntervals], by simp [MergeIntervals], ?_, by simp [MergeIntervals]⟩
    intro iv hiv
    exact absurd ((hmem iv).mpr hiv) (List.not_mem_nil _)
  | cons a rest =>
    rw [hS] at hmem hsorted
    rw [MergeIntervals_cons]
    have ha : a.OnGrid := hg a ((hmem a).mp (List.mem_cons_self _ _))
    have hrest : ∀ s ∈ rest, s.OnGrid := fun s h => hg s ((hmem s).mp (List.mem_cons_of_mem _ h))
    have hlb : ∀ s ∈ rest, a.left ≤ s.left := fun s h => List.rel_of_pairwise_cons hsorted h
    have hp := List.Pairwise.of_cons hsorted
    refine ⟨MergeFrom_OnGrid rest a ha hrest hp, MergeFrom_separated rest a ha hrest hlb hp,
      ?_, ?_⟩
    · intro iv hiv
      exact MergeFrom_covers rest a hlb hp iv ((hmem iv).mpr hiv)
    · intro m hm x hx1 hx2
      obtain ⟨iv, hiv, h1, h2⟩ := MergeFrom_exact rest a hlb hp m hm x hx1 hx2
      exact ⟨iv, (hmem iv).mp hiv, h1, h2⟩

/-! ## Locating the current interval -/

/-- In a separated list the search returns the interval that contains the coordinate. -/
theorem FindCurrentIntervalLoop_of_mem (from_ : ℚ) (merged : List Interval) :
    merged.Pairwise (fun a b => a.right + 1 / 5 ≤ b.left) →
    ∀ (best : Option Interval) (best_dist : ℚ), ∀ m ∈ merged, m.left ≤ from_ →
      from_ ≤ m.right → FindCurrentIntervalLoop from_ merged best best_dist = some m := by
  induction merged with
  | nil => intro _ _ _ m hm; exact absurd hm (List.not_mem_nil _)
  | cons seg rest ih =>
    intro hsep best best_dist m hm h1 h2
    rw [FindCurrentIntervalLoop]
    rcases List.mem_cons.mp hm with rfl | hm
    · have hin : from_ ≥ m.left - kEps ∧ from_ ≤ m.right + kEps := by
        unfold kEps
        constructor <;> linarith
      rw [if_pos hin]
    · have hgap := List.rel_of_pairwise_cons hsep hm
      have hout : ¬ (from_ ≥ seg.left - kEps ∧ from_ ≤ seg.right + kEps) := by
        unfold kEps
        rintro ⟨_, h4⟩
        linarith
      rw [if_neg hout]
      simp only []
      generalize (if from_ < seg.left then seg.left - from_ else from_ - seg.right) = dist
      by_cases hd : dist < best_dist
      · rw [if_pos hd]
        exact ih (List.Pairwise.of_cons hsep) _ _ m hm h1 h2
      · rw [if_neg hd]
        exact ih (List.Pairwise.of_cons hsep) _ _ m hm h1 h2

/-- Whatever the search returns is one of the intervals and holds the coordinate up
to `kEps`; the fallback to the nearest interval never fires. -/
theorem FindCurrentIntervalLoop_some (from_ : ℚ) (merged : List Interval) :
    (∀ s ∈ merged, s.left ≤ s.right) →
    ∀ (best : Option Interval) (best_dist : ℚ), (best.isSome = true → kEps < best_dist) →
      ∀ cur, FindCurrentIntervalLoop from_ merged best best_dist = some cur →
        cur ∈ merged ∧ cur.left - kEps ≤ from_ ∧ from_ ≤ cur.right + kEps := by
  induction merged with
  | nil =>
    intro _ best best_dist hb cur h
    cases best with
    | none => simp [FindCurrentIntervalLoop] at h
    | some b =>
      have := hb rfl
      simp only [FindCurrentIntervalLoop] at h
      rw [if_neg (not_le.mpr this)] at h
      simp at h
  | cons seg rest ih =>
    intro hle best best_dist hb cur h
    have hseg := hle seg (List.mem_cons_self _ _)
    have hrest : ∀ s ∈ rest, s.left ≤ s.right := fun s hs => hle s (List.mem_cons_of_mem _ hs)
    rw [FindCurrentIntervalLoop] at h
    by_cases hin : from_ ≥ seg.left - kEps ∧ from_ ≤ seg.right + kEps
    · rw [if_pos hin] at h
      cases h
      exact ⟨List.mem_cons_self _ _, hin.1, hin.2⟩
    · rw [if_neg hin] at h
      simp only [] at h
      have hdist : kEps < (if from_ < seg.left then seg.left - from_ else from_ - seg.right) := by
        have hpos : (0 : ℚ) < kEps := by unfold kEps; norm_num
        by_cases hlt : from_ < seg.left
        · rw [if_pos hlt]
          by_contra hc
          push_neg at hc
          exact hin ⟨by linarith, by linarith⟩
        · rw [if_neg hlt]
          by_contra hc
          push_neg at hc hlt
          exact hin ⟨by linarith, by linarith⟩
      generalize (if from_ < seg.left then seg.left - from_ else from_ - seg.right) = dist
        at h hdist
      by_cases hd : dist < best_dist
      · rw [if_pos hd] at h
        obtain ⟨h1, h2⟩ := ih hrest _ _ (fun _ => hdist) cur h
        exact ⟨List.mem_cons_of_mem _ h1, h2⟩
      · rw [if_neg hd] at h
        obtain ⟨h1, h2⟩ := ih hrest _ _ hb cur h
        exact ⟨List.mem_cons_of_mem _ h1, h2⟩

/-! ## The one-dimensional clamp -/

/-- The clamp never leaves the span between `from_` and `to_` by more than `kEps`. -/
theorem RestrictInsideIntervals_near (from_ to_ : ℚ) (ivs : List Interval)
    (hg : ∀ iv ∈ ivs, iv.OnGrid) :
    min from_ to_ - kEps ≤ RestrictInsideIntervals from_ to_ ivs ∧
      RestrictInsideIntervals from_ to_ ivs ≤ max from_ to_ + kEps := by
  have hpos : (0 : ℚ) < kEps := by unfold kEps; norm_num
  have hself : min from_ to_ - kEps ≤ from_ ∧ from_ ≤ max from_ to_ + kEps :=
    ⟨by linarith [min_le_left from_ to_], by linarith [le_max_left from_ to_]⟩
  unfold RestrictInsideIntervals
  by_cases he : ivs.isEmpty = true
  · rw [if_pos he]; exact hself
  · rw [if_neg he]
    simp only []
    cases hf : FindCurrentInterval from_ (MergeIntervals (SortIntervals ivs)) with
    | none => exact hself
    | some cur =>
      simp only []
      have hle : ∀ s ∈ MergeIntervals (SortIntervals ivs), s.left ≤ s.right :=
        fun s hs => ((MergeIntervals_spec ivs hg).1 s hs).left_le_right
      obtain ⟨_, h1, h2⟩ := FindCurrentIntervalLoop_some from_ _ hle none _ (by simp) cur hf
      by_cases hgt : to_ > from_
      · rw [if_pos hgt]
        rw [min_eq_left (le_of_lt hgt), max_eq_right (le_of_lt hgt)]
        constructor
        · apply le_min <;> linarith
        · linarith [min_le_left to_ cur.right]
      · rw [if_neg hgt]
        push_neg at hgt
        rw [min_eq_right hgt, max_eq_left hgt]
        constructor
        · linarith [le_max_left to_ cur.left]
        · apply max_le <;> linarith

/-- When some input interval contains `from_`, the clamp works inside the merged
interval `m` around it: `m` is found, and `to_` is cut at the bound of `m` in the
direction of travel. -/
theorem RestrictInsideIntervals_of_mem (from_ to_ : ℚ) (ivs : List Interval)
    (hg : ∀ iv ∈ ivs, iv.OnGrid) (iv0 : Interval) (h0 : iv0 ∈ ivs)
    (h1 : iv0.left ≤ from_) (h2 : from_ ≤ iv0.right) :
    ∃ m ∈ MergeIntervals (SortIntervals ivs),
      m.left ≤ iv0.left ∧ iv0.right ≤ m.right ∧
      (∀ x : ℚ, m.left ≤ x → x ≤ m.right → ∃ iv ∈ ivs, iv.left ≤ x ∧ x ≤ iv.right) ∧
      RestrictInsideIntervals from_ to_ ivs =
        (if to_ > from_ then min to_ m.right else max to_ m.left) := by
  obtain ⟨_, hsep, hcov, hex⟩ := MergeIntervals_spec ivs hg
  obtain ⟨m, hm, hm1, hm2⟩ := hcov iv0 h0
  refine ⟨m, hm, hm1, hm2, hex m hm, ?_⟩
  have hfind : FindCurrentInterval from_ (MergeIntervals (SortIntervals ivs)) = some m :=
    FindCurrentIntervalLoop_of_mem from_ _ hsep none _ m hm (le_trans hm1 h1) (le_trans h2 hm2)
  have hne : ivs.isEmpty = false := by
    cases ivs with
    | nil => exact absurd h0 (List.not_mem_nil _)
    | cons a l => rfl
  unfold RestrictInsideIntervals
  rw [hne]
  simp only [hfind, Bool.false_eq_true, if_false]

/-! ## The movement solver on a map -/

theorem RestrictMovementToRoads_along (m : Map) (from_ to_ : pos.Coordinate) :
    along (DominantAxis from_ to_) (RestrictMovementToRoads m from_ to_) =
      RestrictInsideIntervals (along (DominantAxis from_ to_) from_)
        (along (DominantAxis from_ to_) to_)
        (BuildIntervalsAlongRoadAxis m from_ (DominantAxis from_ to_)) := by
  unfold RestrictMovementToRoads DominantAxis
  by_cases h : |to_.x - from_.x| ≥ |to_.y - from_.y|
  · simp only [h, if_true, along]
  · simp only [h, if_false, along]

theorem RestrictMovementToRoads_across (m : Map) (from_ to_ : pos.Coordinate) :
    across (DominantAxis from_ to_) (RestrictMovementToRoads m from_ to_) =
      across (DominantAxis from_ to_) from_ := by
  unfold RestrictMovementToRoads DominantAxis
  by_cases h : |to_.x - from_.x| ≥ |to_.y - from_.y|
  · simp only [h, if_true, across]
  · simp only [h, if_false, across]

theorem Coordinate_ext_axis (o : RoadOrientation) (p q : pos.Coordinate)
    (h1 : along o p = along o q) (h2 : across o p = across o q) : p = q := by
  cases p; cases q
  cases o <;> simp_all [along, across]

theorem InCorridor_axis (o : RoadOrientation) (r : Road) (p : pos.Coordinate) :
    InCorridor r p ↔
      ((RectAlong o (RoadRect r)).left ≤ along o p ∧ along o p ≤ (RectAlong o (RoadRect r)).right) ∧
      ((RectAcross o (RoadRect r)).left ≤ across o p ∧
        across o p ≤ (RectAcross o (RoadRect r)).right) := by
  unfold InCorridor
  cases o <;> simp only [RectAlong, RectAcross, along, across] <;> tauto

theorem InCorridorAcross_axis (o : RoadOrientation) (r : Road) (p : pos.Coordinate) :
    InCorridorAcross o r p ↔
      ((RectAlong o (RoadRect r)).left ≤ along o p ∧ along o p ≤ (RectAlong o (RoadRect r)).right) ∧
      InRange (across o p) (RectAcross o (RoadRect r)).left
        (RectAcross o (RoadRect r)).right = true := by
  unfold InCorridorAcross
  cases o <;> simp only [RectAlong, RectAcross, along, across] <;> tauto

theorem InRange_of_le (v a b : ℚ) (h1 : a ≤ v) (h2 : v ≤ b) : InRange v a b = true := by
  unfold InRange kEps
  simp only [Bool.and_eq_true, decide_eq_true_eq]
  constructor <;> linarith

/-- The corridor extent of a road that contains `from_` is among the built intervals. -/
theorem RectAlong_mem_BuildIntervals (roads : List Road) (r : Road) (hr : r ∈ roads)
    (from_ : pos.Coordinate) (hin : InCorridor r from_) (o : RoadOrientation) :
    RectAlong o (RoadRect r) ∈
      BuildIntervalsAlongRoadAxis (Map.ConstructMapFromConfig roads) from_ o := by
  obtain ⟨i, hi⟩ := List.get?_of_mem hr
  rw [mem_BuildIntervalsAlongRoadAxis, Map.ConstructMapFromConfig_roads]
  refine ⟨i, Map.mem_GetRoadCandidates_of_InCorridor roads i r hi from_ hin, r, hi, ?_, rfl⟩
  obtain ⟨_, h2⟩ := (InCorridor_axis o r from_).mp hin
  exact InRange_of_le _ _ _ h2.1 h2.2

/-- For a point inside a road corridor the solver works inside the merged interval
`m` around it: `m` contains the point along the axis of movement, every point of `m`
lies in the corridor extent of a road that holds `from_` across the axis up to
`kEps`, and the result is `to_` cut at the bound of `m` in the direction of travel. -/
theorem RestrictMovementToRoads_inside (roads : List Road) (r : Road) (hr : r ∈ roads)
    (from_ to_ : pos.Coordinate) (hin : InCorridor r from_) :
    ∃ m ∈ MergeIntervals (SortIntervals (BuildIntervalsAlongRoadAxis
        (Map.ConstructMapFromConfig roads) from_ (DominantAxis from_ to_))),
      m.left ≤ (RectAlong (DominantAxis from_ to_) (RoadRect r)).left ∧
      (RectAlong (DominantAxis from_ to_) (RoadRect r)).right ≤ m.right ∧
      (∀ p : pos.Coordinate, m.left ≤ along (DominantAxis from_ to_) p →
        along (DominantAxis from_ to_) p ≤ m.right →
        across (DominantAxis from_ to_) p = across (DominantAxis from_ to_) from_ →
        ∃ q ∈ roads, InCorridorAcross (DominantAxis from_ to_) q p) ∧
      along (DominantAxis from_ to_)
          (RestrictMovementToRoads (Map.ConstructMapFromConfig roads) from_ to_) =
        (if along (DominantAxis from_ to_) to_ > along (DominantAxis from_ to_) from_
          then min (along (DominantAxis from_ to_) to_) m.right
          else max (along (DominantAxis from_ to_) to_) m.left) := by
  generalize ho : DominantAxis from_ to_ = o
  have hax := (InCorridor_axis o r from_).mp hin
  obtain ⟨m, hm, h1, h2, h3, h4⟩ := RestrictInsideIntervals_of_mem (along o from_) (along o to_)
    (BuildIntervalsAlongRoadAxis (Map.ConstructMapFromConfig roads) from_ o)
    (OnGrid_of_mem_BuildIntervalsAlongRoadAxis _ _ _) (RectAlong o (RoadRect r))
    (RectAlong_mem_BuildIntervals roads r hr from_ hin o) hax.1.1 hax.1.2
  refine ⟨m, hm, h1, h2, ?_, ?_⟩
  · intro p hx1 hx2 hacr
    obtain ⟨iv, hiv, hx3, hx4⟩ := h3 (along o p) hx1 hx2
    rw [mem_BuildIntervalsAlongRoadAxis, Map.ConstructMapFromConfig_roads] at hiv
    obtain ⟨idx, _, q, hq, hrange, rfl⟩ := hiv
    refine ⟨q, List.get?_mem hq, ?_⟩
    rw [InCorridorAcross_axis, hacr]
    exact ⟨⟨hx3, hx4⟩, hrange⟩
  · have := RestrictMovementToRoads_along (Map.ConstructMapFromConfig roads) from_ to_
    rw [ho] at this
    rw [this, h4]

/-- C1 (as stated) fails: with a horizontal and a vertical road from the origin, the
point `(0, 0.4000005)` is inside the vertical road's corridor, yet moving towards
`(5, 0.4000005)` is allowed (the horizontal road accepts the point within `kEps`)
and ends at `(5, 0.4000005)`, which is inside no road corridor. -/
theorem C1_counterexample :
    (∃ r ∈ [Road.HORIZONTAL { x := 0, y := 0 } 10, Road.VERTICAL { x := 0, y := 0 } 10],
      InCorridor r { x := 0, y := 4000005 / 10000000 }) ∧
    ¬ (∃ r ∈ [Road.HORIZONTAL { x := 0, y := 0 } 10, Road.VERTICAL { x := 0, y := 0 } 10],
      InCorridor r (RestrictMovementToRoads
        (Map.ConstructMapFromConfig
          [Road.HORIZONTAL { x := 0, y := 0 } 10, Road.VERTICAL { x := 0, y := 0 } 10])
        { x := 0, y := 4000005 / 10000000 } { x := 5, y := 4000005 / 10000000 })) := by
  decide!

/-- C1 (amended): for a map built from any road list and a point `from_` inside the
corridor of one of its roads, the result of `RestrictMovementToRoads` lies inside a
road corridor up to the tolerance `kEps` across the axis of movement; and there is a
merged interval containing `from_` along that axis such that a target beyond its
right (left) bound yields exactly that bound. -/
theorem C1_result_stays_in_corridor (roads : List Road) (r : Road) (hr : r ∈ roads)
    (from_ to_ : pos.Coordinate) (hin : InCorridor r from_) :
    (∃ q ∈ roads, InCorridorAcross (DominantAxis from_ to_) q
      (RestrictMovementToRoads (Map.ConstructMapFromConfig roads) from_ to_)) ∧
    (∃ m ∈ MergeIntervals (SortIntervals (BuildIntervalsAlongRoadAxis
        (Map.ConstructMapFromConfig roads) from_ (DominantAxis from_ to_))),
      m.left ≤ along (DominantAxis from_ to_) from_ ∧
      along (DominantAxis from_ to_) from_ ≤ m.right ∧
      (along (DominantAxis from_ to_) to_ > m.right →
        along (DominantAxis from_ to_)
          (RestrictMovementToRoads (Map.ConstructMapFromConfig roads) from_ to_) = m.right) ∧
      (along (DominantAxis from_ to_) to_ < m.left →
        along (DominantAxis from_ to_)
          (RestrictMovementToRoads (Map.ConstructMapFromConfig roads) from_ to_) = m.left)) := by
  obtain ⟨m, hm, h1, h2, h3, h4⟩ := RestrictMovementToRoads_inside roads r hr from_ to_ hin
  have hacr := RestrictMovementToRoads_across (Map.ConstructMapFromConfig roads) from_ to_
  have hax := (InCorridor_axis (DominantAxis from_ to_) r from_).mp hin
  have hl : m.left ≤ along (DominantAxis from_ to_) from_ := le_trans h1 hax.1.1
  have hrr : along (DominantAxis from_ to_) from_ ≤ m.right := le_trans hax.1.2 h2
  constructor
  · have hres : m.left ≤ along (DominantAxis from_ to_)
          (RestrictMovementToRoads (Map.ConstructMapFromConfig roads) from_ to_) ∧
        along (DominantAxis from_ to_)
          (RestrictMovementToRoads (Map.ConstructMapFromConfig roads) from_ to_) ≤ m.right := by
      rw [h4]
      split
      · constructor
        · apply le_min <;> linarith
        · exact min_le_right _ _
      · constructor
        · exact le_max_right _ _
        · apply max_le <;> linarith
    exact h3 _ hres.1 hres.2 hacr
  · refine ⟨m, hm, hl, hrr, ?_, ?_⟩
    · intro hgt
      rw [h4, if_pos (lt_of_le_of_lt hrr hgt)]
      exact min_eq_right (le_of_lt hgt)
    · intro hlt
      rw [h4, if_neg (not_lt.mpr (le_of_lt (lt_of_lt_of_le hlt hl)))]
      exact max_eq_right (le_of_lt hlt)

/-- C1 (amended), applied to the road from `(0,0)` to `(10,0)`, the point `(1,0)` and
the far target `(20,0)`. -/
theorem C1_result_stays_in_corridor_witness :
    InCorridor (Road.HORIZONTAL { x := 0, y := 0 } 10) { x := 1, y := 0 } ∧
    (∃ q ∈ [Road.HORIZONTAL { x := 0, y := 0 } 10],
      InCorridorAcross (DominantAxis { x := 1, y := 0 } { x := 20, y := 0 }) q
        (RestrictMovementToRoads
          (Map.ConstructMapFromConfig [Road.HORIZONTAL { x := 0, y := 0 } 10])
          { x := 1, y := 0 } { x := 20, y := 0 })) :=
  ⟨by decide!,
    (C1_result_stays_in_corridor [Road.HORIZONTAL { x := 0, y := 0 } 10]
      (Road.HORIZONTAL { x := 0, y := 0 } 10) (List.mem_singleton.mpr rfl)
      { x := 1, y := 0 } { x := 20, y := 0 } (by decide!)).1⟩

/-- C2 (as stated) fails: the diagonal move from `(0,0)` to `(0.3,0.2)` stays inside
the corridor of the road from `(0,0)` to `(10,0)`, yet the solver returns
`(0.3,0)`, not the target. -/
theorem C2_counterexample :
    Road.HORIZONTAL { x := 0, y := 0 } 10 ∈ [Road.HORIZONTAL { x := 0, y := 0 } 10] ∧
    SegmentInCorridor (Road.HORIZONTAL { x := 0, y := 0 } 10)
      { x := 0, y := 0 } { x := 3 / 10, y := 1 / 5 } ∧
    RestrictMovementToRoads (Map.ConstructMapFromConfig [Road.HORIZONTAL { x := 0, y := 0 } 10])
      { x := 0, y := 0 } { x := 3 / 10, y := 1 / 5 } ≠ { x := 3 / 10, y := 1 / 5 } := by
  refine ⟨List.mem_singleton.mpr rfl, ?_, by decide!⟩
  intro t ht0 ht1
  have hrect : RoadRect (Road.HORIZONTAL { x := 0, y := 0 } 10) =
      { min_x := -2 / 5, max_x := 52 / 5, min_y := -2 / 5, max_y := 2 / 5 } := by decide!
  unfold InCorridor
  rw [hrect]
  simp only []
  refine ⟨?_, ?_, ?_, ?_⟩ <;> linarith

/-- C2 (amended): when the whole segment from `from_` to `to_` stays inside the
corridor of one road of the map, the solver returns the target's coordinate along
the dominant axis and keeps `from_`'s coordinate on the other axis; so it returns
`to_` itself when the move is parallel to the dominant axis. -/
theorem C2_move_inside_one_corridor (roads : List Road) (r : Road) (hr : r ∈ roads)
    (from_ to_ : pos.Coordinate) (hseg : SegmentInCorridor r from_ to_) :
    RestrictMovementToRoads (Map.ConstructMapFromConfig roads) from_ to_ =
      (if |to_.x - from_.x| ≥ |to_.y - from_.y| then { x := to_.x, y := from_.y }
        else { x := from_.x, y := to_.y }) ∧
    (across (DominantAxis from_ to_) to_ = across (DominantAxis from_ to_) from_ →
      RestrictMovementToRoads (Map.ConstructMapFromConfig roads) from_ to_ = to_) := by
  have hfrom : InCorridor r from_ := by
    have := hseg 0 (le_refl _) zero_le_one
    simpa using this
  have hto : InCorridor r to_ := by
    have := hseg 1 zero_le_one (le_refl _)
    simpa using this
  obtain ⟨m, _, h1, h2, _, h4⟩ := RestrictMovementToRoads_inside roads r hr from_ to_ hfrom
  have hacr := RestrictMovementToRoads_across (Map.ConstructMapFromConfig roads) from_ to_
  have hf := (InCorridor_axis (DominantAxis from_ to_) r from_).mp hfrom
  have ht := (InCorridor_axis (DominantAxis from_ to_) r to_).mp hto
  have hal : along (DominantAxis from_ to_)
      (RestrictMovementToRoads (Map.ConstructMapFromConfig roads) from_ to_) =
      along (DominantAxis from_ to_) to_ := by
    rw [h4]
    split
    · exact min_eq_left (le_trans ht.1.2 h2)
    · exact max_eq_left (le_trans h1 ht.1.1)
  constructor
  · apply Coordinate_ext_axis (DominantAxis from_ to_)
    · rw [hal]
      unfold DominantAxis
      by_cases h : |to_.x - from_.x| ≥ |to_.y - from_.y|
      · simp only [h, if_true, along]
      · simp only [h, if_false, along]
    · rw [hacr]
      unfold DominantAxis
      by_cases h : |to_.x - from_.x| ≥ |to_.y - from_.y|
      · simp only [h, if_true, across]
      · simp only [h, if_false, across]
  · intro hpar
    exact Coordinate_ext_axis (DominantAxis from_ to_) _ _ hal (by rw [hacr, hpar])

/-- C2 (amended), applied to the road from `(0,0)` to `(10,0)` and the move from
`(0,0)` to `(3,0)` along it. -/
theorem C2_move_inside_one_corridor_witness :
    RestrictMovementToRoads (Map.ConstructMapFromConfig [Road.HORIZONTAL { x := 0, y := 0 } 10])
      { x := 0, y := 0 } { x := 3, y := 0 } = { x := 3, y := 0 } :=
  (C2_move_inside_one_corridor [Road.HORIZONTAL { x := 0, y := 0 } 10]
    (Road.HORIZONTAL { x := 0, y := 0 } 10) (List.mem_singleton.mpr rfl)
    { x := 0, y := 0 } { x := 3, y := 0 }
    (by
      intro t ht0 ht1
      have hrect : RoadRect (Road.HORIZONTAL { x := 0, y := 0 } 10) =
          { min_x := -2 / 5, max_x := 52 / 5, min_y := -2 / 5, max_y := 2 / 5 } := by decide!
      unfold InCorridor
      rw [hrect]
      simp only []
      refine ⟨?_, ?_, ?_, ?_⟩ <;> linarith)).2 (by decide!)

/-- C3: for a map built from any road list, a road `r` of it and a point `p` inside
the corridor of `r`, `RestrictMovementToRoads(p, p)` returns `p`. -/
theorem C3_no_move_returns_point (roads : List Road) (r : Road) (hr : r ∈ roads)
    (p : pos.Coordinate) (hp : InCorridor r p) :
    RestrictMovementToRoads (Map.ConstructMapFromConfig roads) p p = p := by
  obtain ⟨m, _, h1, _, _, h4⟩ := RestrictMovementToRoads_inside roads r hr p p hp
  have hf := (InCorridor_axis (DominantAxis p p) r p).mp hp
  apply Coordinate_ext_axis (DominantAxis p p)
  · rw [h4, if_neg (lt_irrefl _)]
    exact max_eq_left (le_trans h1 hf.1.1)
  · exact RestrictMovementToRoads_across _ p p

/-- C3, applied to the road from `(0,0)` to `(10,0)` and the corner `(10.4, 0.4)` of
its corridor. -/
theorem C3_no_move_returns_point_witness :
    InCorridor (Road.HORIZONTAL { x := 0, y := 0 } 10) { x := 52 / 5, y := 2 / 5 } ∧
    RestrictMovementToRoads (Map.ConstructMapFromConfig [Road.HORIZONTAL { x := 0, y := 0 } 10])
      { x := 52 / 5, y := 2 / 5 } { x := 52 / 5, y := 2 / 5 } = { x := 52 / 5, y := 2 / 5 } :=
  ⟨by decide!,
    C3_no_move_returns_point [Road.HORIZONTAL { x := 0, y := 0 } 10]
      (Road.HORIZONTAL { x := 0, y := 0 } 10) (List.mem_singleton.mpr rfl)
      { x := 52 / 5, y := 2 / 5 } (by decide!)⟩

/-- C4 (as stated) fails: on the road from `(0,0)` to `(10,0)` the point
`(10.4000005, 0)` is accepted within `kEps` of the corridor end `10.4`, and a move
towards `(11, 0)` is answered with `x = 10.4`, which is not between `10.4000005`
and `11`. -/
theorem C4_counterexample :
    ¬ (min (along (DominantAxis { x := 104000005 / 10000000, y := 0 } { x := 11, y := 0 })
            { x := 104000005 / 10000000, y := 0 })
          (along (DominantAxis { x := 104000005 / 10000000, y := 0 } { x := 11, y := 0 })
            { x := 11, y := 0 }) ≤
        along (DominantAxis { x := 104000005 / 10000000, y := 0 } { x := 11, y := 0 })
          (RestrictMovementToRoads
            (Map.ConstructMapFromConfig [Road.HORIZONTAL { x := 0, y := 0 } 10])
            { x := 104000005 / 10000000, y := 0 } { x := 11, y := 0 }) ∧
      along (DominantAxis { x := 104000005 / 10000000, y := 0 } { x := 11, y := 0 })
          (RestrictMovementToRoads
            (Map.ConstructMapFromConfig [Road.HORIZONTAL { x := 0, y := 0 } 10])
            { x := 104000005 / 10000000, y := 0 } { x := 11, y := 0 }) ≤
        max (along (DominantAxis { x := 104000005 / 10000000, y := 0 } { x := 11, y := 0 })
            { x := 104000005 / 10000000, y := 0 })
          (along (DominantAxis { x := 104000005 / 10000000, y := 0 } { x := 11, y := 0 })
            { x := 11, y := 0 })) := by
  decide!

/-- C4 (amended): for every map the dominant-axis coordinate of the result lies
within `kEps` of the closed interval between the dominant-axis coordinates of
`from_` and `to_`; and for a map built from a road list it lies in that closed
interval whenever `from_` is inside the corridor of one of the roads. -/
theorem C4_result_between_from_and_to (m : Map) (roads : List Road)
    (from_ to_ : pos.Coordinate) :
    (min (along (DominantAxis from_ to_) from_) (along (DominantAxis from_ to_) to_) - kEps ≤
        along (DominantAxis from_ to_) (RestrictMovementToRoads m from_ to_) ∧
      along (DominantAxis from_ to_) (RestrictMovementToRoads m from_ to_) ≤
        max (along (DominantAxis from_ to_) from_) (along (DominantAxis from_ to_) to_) + kEps) ∧
    ((∃ r ∈ roads, InCorridor r from_) →
      min (along (DominantAxis from_ to_) from_) (along (DominantAxis from_ to_) to_) ≤
        along (DominantAxis from_ to_)
          (RestrictMovementToRoads (Map.ConstructMapFromConfig roads) from_ to_) ∧
      along (DominantAxis from_ to_)
          (RestrictMovementToRoads (Map.ConstructMapFromConfig roads) from_ to_) ≤
        max (along (DominantAxis from_ to_) from_) (along (DominantAxis from_ to_) to_)) := by
  constructor
  · rw [RestrictMovementToRoads_along]
    exact RestrictInsideIntervals_near _ _ _ (OnGrid_of_mem_BuildIntervalsAlongRoadAxis _ _ _)
  · rintro ⟨r, hr, hin⟩
    obtain ⟨k, _, h1, h2, _, h4⟩ := RestrictMovementToRoads_inside roads r hr from_ to_ hin
    have hf := (InCorridor_axis (DominantAxis from_ to_) r from_).mp hin
    have hl : k.left ≤ along (DominantAxis from_ to_) from_ := le_trans h1 hf.1.1
    have hrr : along (DominantAxis from_ to_) from_ ≤ k.right := le_trans hf.1.2 h2
    rw [h4]
    by_cases hgt : along (DominantAxis from_ to_) to_ > along (DominantAxis from_ to_) from_
    · rw [if_pos hgt, min_eq_left (le_of_lt hgt), max_eq_right (le_of_lt hgt)]
      exact ⟨le_min (le_of_lt hgt) hrr, min_le_left _ _⟩
    · rw [if_neg hgt]
      push_neg at hgt
      rw [min_eq_right hgt, max_eq_left hgt]
      exact ⟨le_max_left _ _, max_le hgt hl⟩

/-- C4 (amended), applied to the road from `(0,0)` to `(10,0)`, the point `(1,0)`
inside its corridor and the target `(20,0)`. -/
theorem C4_result_between_from_and_to_witness :
    (∃ r ∈ [Road.HORIZONTAL { x := 0, y := 0 } 10], InCorridor r { x := 1, y := 0 }) ∧
    along (DominantAxis { x := 1, y := 0 } { x := 20, y := 0 })
        (RestrictMovementToRoads
          (Map.ConstructMapFromConfig [Road.HORIZONTAL { x := 0, y := 0 } 10])
          { x := 1, y := 0 } { x := 20, y := 0 }) ≤
      max (along (DominantAxis { x := 1, y := 0 } { x := 20, y := 0 }) { x := 1, y := 0 })
        (along (DominantAxis { x := 1, y := 0 } { x := 20, y := 0 }) { x := 20, y := 0 }) :=
  ⟨by decide!,
    ((C4_result_between_from_and_to Map.empty [Road.HORIZONTAL { x := 0, y := 0 } 10]
      { x := 1, y := 0 } { x := 20, y := 0 }).2 (by decide!)).2⟩

/-- C5: for every map and every `from_`, `to_`, the solver changes at most the
dominant coordinate: when `|to.x − from.x| ≥ |to.y − from.y|` (ties included) the
result keeps `from_.y`, otherwise it keeps `from_.x`. -/
theorem C5_other_coordinate_unchanged (map_ : Map) (from_ to_ : pos.Coordinate) :
    (|to_.x - from_.x| ≥ |to_.y - from_.y| →
      (RestrictMovementToRoads map_ from_ to_).y = from_.y) ∧
    (¬ |to_.x - from_.x| ≥ |to_.y - from_.y| →
      (RestrictMovementToRoads map_ from_ to_).x = from_.x) := by
  unfold RestrictMovementToRoads
  constructor
  · intro h
    simp only [h, if_true]
  · intro h
    simp only [h, if_false]

/-- C5, applied to the tie `(0,0) → (1,1)` (horizontal move, `y` kept) and to the
move `(0,0) → (1,2)` (vertical move, `x` kept). -/
theorem C5_other_coordinate_unchanged_witness :
    (RestrictMovementToRoads (Map.ConstructMapFromConfig [Road.HORIZONTAL { x := 0, y := 0 } 10])
      { x := 0, y := 0 } { x := 1, y := 1 }).y = 0 ∧
    (RestrictMovementToRoads (Map.ConstructMapFromConfig [Road.HORIZONTAL { x := 0, y := 0 } 10])
      { x := 0, y := 0 } { x := 1, y := 2 }).x = 0 :=
  ⟨(C5_other_coordinate_unchanged _ { x := 0, y := 0 } { x := 1, y := 1 }).1 (by decide!),
    (C5_other_coordinate_unchanged _ { x := 0, y := 0 } { x := 1, y := 2 }).2 (by decide!)⟩

end model

/-! ## Double arithmetic -/

namespace double

theorem pow2_eq (k : Int) : pow2 k = (2 : ℚ) ^ k := by
  unfold pow2
  split
  · rename_i h
    obtain ⟨n, rfl⟩ := Int.eq_ofNat_of_zero_le h
    simp
  · rename_i h
    obtain ⟨n, hn⟩ : ∃ n : ℕ, -k = n := Int.eq_ofNat_of_zero_le (by omega)
    have hk : k = -(n : ℤ) := by omega
    subst hk
    simp [zpow_neg]

theorem pow2_pos (k : Int) : 0 < pow2 k := by
  rw [pow2_eq]
  positivity

theorem ilog2_loop_spec : ∀ (fuel n : Nat), n ≤ fuel → 0 < n →
    2 ^ ilog2_loop fuel n ≤ n ∧ n < 2 ^ (ilog2_loop fuel n + 1) := by
  intro fuel
  induction fuel with
  | zero => intro n h hp; omega
  | succ fuel ih =>
    intro n h hp
    unfold ilog2_loop
    by_cases h2 : n < 2
    · rw [if_pos h2]
      simp
      omega
    · rw [if_neg h2]
      have hih := ih (n / 2) (by omega) (by omega)
      have e1 : 2 ^ (ilog2_loop fuel (n / 2) + 1) = 2 * 2 ^ ilog2_loop fuel (n / 2) := by ring
      have e2 : 2 ^ (ilog2_loop fuel (n / 2) + 1 + 1) = 4 * 2 ^ ilog2_loop fuel (n / 2) := by
        ring
      rw [e1] at hih
      rw [e1, e2]
      generalize 2 ^ ilog2_loop fuel (n / 2) = p at hih ⊢
      omega

theorem ilog2_spec (n : Nat) (hp : 0 < n) : 2 ^ ilog2 n ≤ n ∧ n < 2 ^ (ilog2 n + 1) :=
  ilog2_loop_spec n n (le_refl n) hp

theorem abs_eq_natAbs_div_den (q : ℚ) : |q| = (q.num.natAbs : ℚ) / (q.den : ℚ) := by
  have h : q = (q.num : ℚ) / (q.den : ℚ) := (Rat.num_div_den q).symm
  have hd : (0 : ℚ) < (q.den : ℚ) := by exact_mod_cast q.den_pos
  conv_lhs => rw [h]
  rw [abs_div, abs_of_pos hd]
  congr 1
  rw [Nat.cast_natAbs, Int.cast_abs]

/-- The binade of a non-zero rational: `2^e ≤ |q| < 2^(e+1)`. -/
theorem binade_spec (q : ℚ) (hq : q ≠ 0) :
    (2 : ℚ) ^ binade q ≤ |q| ∧ |q| < (2 : ℚ) ^ (binade q + 1) := by
  have hn : 0 < q.num.natAbs := Int.natAbs_pos.mpr (Rat.num_ne_zero.mpr hq)
  have hd : 0 < q.den := q.den_pos
  obtain ⟨ha1, ha2⟩ := ilog2_spec _ hn
  obtain ⟨hb1, hb2⟩ := ilog2_spec _ hd
  have ha1q : (2 : ℚ) ^ (ilog2 q.num.natAbs) ≤ (q.num.natAbs : ℚ) := by exact_mod_cast ha1
  have ha2q : (q.num.natAbs : ℚ) < (2 : ℚ) ^ (ilog2 q.num.natAbs + 1) := by exact_mod_cast ha2
  have hb1q : (2 : ℚ) ^ (ilog2 q.den) ≤ (q.den : ℚ) := by exact_mod_cast hb1
  have hb2q : (q.den : ℚ) < (2 : ℚ) ^ (ilog2 q.den + 1) := by exact_mod_cast hb2
  have hdq : (0 : ℚ) < (q.den : ℚ) := by exact_mod_cast hd
  have habs := abs_eq_natAbs_div_den q
  have hpa : (0 : ℚ) < (2 : ℚ) ^ (ilog2 q.num.natAbs) := by positivity
  have hpb : (0 : ℚ) < (2 : ℚ) ^ (ilog2 q.den) := by positivity
  have hz : ∀ a b : ℕ, (2 : ℚ) ^ ((a : ℤ) - (b : ℤ)) = (2 : ℚ) ^ a / (2 : ℚ) ^ b := by
    intro a b
    rw [zpow_sub₀ (two_ne_zero), zpow_natCast, zpow_natCast]
  unfold binade
  split
  · rename_i h
    rw [pow2_eq] at h
    refine ⟨h, ?_⟩
    have he : ((ilog2 q.num.natAbs : ℤ) - (ilog2 q.den : ℤ) + 1) =
        (((ilog2 q.num.natAbs + 1 : ℕ) : ℤ) - (ilog2 q.den : ℤ)) := by push_cast; ring
    rw [he, hz, habs, div_lt_div_iff₀ hdq hpb]
    calc (q.num.natAbs : ℚ) * (2 : ℚ) ^ ilog2 q.den
        < (2 : ℚ) ^ (ilog2 q.num.natAbs + 1) * (2 : ℚ) ^ ilog2 q.den :=
          mul_lt_mul_of_pos_right ha2q hpb
      _ ≤ (2 : ℚ) ^ (ilog2 q.num.natAbs + 1) * (q.den : ℚ) :=
          mul_le_mul_of_nonneg_left hb1q (by positivity)
  · rename_i h
    rw [pow2_eq] at h
    push_neg at h
    constructor
    · have he : ((ilog2 q.num.natAbs : ℤ) - (ilog2 q.den : ℤ) - 1) =
          ((ilog2 q.num.natAbs : ℤ) - ((ilog2 q.den + 1 : ℕ) : ℤ)) := by push_cast; ring
      rw [he, hz, habs, div_le_div_iff₀ (by positivity) hdq]
      calc (2 : ℚ) ^ ilog2 q.num.natAbs * (q.den : ℚ)
          ≤ (2 : ℚ) ^ ilog2 q.num.natAbs * (2 : ℚ) ^ (ilog2 q.den + 1) :=
            mul_le_mul_of_nonneg_left hb2q.le hpa.le
        _ ≤ (q.num.natAbs : ℚ) * (2 : ℚ) ^ (ilog2 q.den + 1) :=
            mul_le_mul_of_nonneg_right ha1q (by positivity)
    · have he : ((ilog2 q.num.natAbs : ℤ) - (ilog2 q.den : ℤ) - 1 + 1) =
          ((ilog2 q.num.natAbs : ℤ) - (ilog2 q.den : ℤ)) := by ring
      rw [he]
      exact h

theorem round_half_even_intCast (n : ℤ) : round_half_even (n : ℚ) = n := by
  unfold round_half_even
  simp

theorem round_half_even_le (x : ℚ) (n : ℤ) (h : x ≤ (n : ℚ)) : round_half_even x ≤ n := by
  have hf : (⌊x⌋ : ℚ) ≤ x := Int.floor_le x
  have hfn : ⌊x⌋ ≤ n := by
    have : (⌊x⌋ : ℚ) ≤ (n : ℚ) := le_trans hf h
    exact_mod_cast this
  unfold round_half_even
  split
  · exact hfn
  · rename_i h1
    push_neg at h1
    have hlt : (⌊x⌋ : ℚ) < (n : ℚ) := by linarith
    have hlt2 : ⌊x⌋ < n := by exact_mod_cast hlt
    split
    · omega
    · split
      · exact hfn
      · omega

theorem le_round_half_even (x : ℚ) (n : ℤ) (h : (n : ℚ) ≤ x) : n ≤ round_half_even x := by
  have hfn : n ≤ ⌊x⌋ := Int.le_floor.mpr h
  unfold round_half_even
  split
  · exact hfn
  · split
    · omega
    · split
      · exact hfn
      · omega

theorem ulp_pos (q : ℚ) : 0 < ulp q := pow2_pos _

theorem fl_zero : fl 0 = 0 := by
  unfold fl
  rw [if_pos rfl]

theorem fl_of_ne (q : ℚ) (h : q ≠ 0) :
    fl q = (round_half_even (q / ulp q) : ℚ) * ulp q := by
  unfold fl
  rw [if_neg h]

theorem fl_le_mul_ulp (x : ℚ) (n : ℤ) (h : x ≤ (n : ℚ) * ulp x) : fl x ≤ (n : ℚ) * ulp x := by
  by_cases hx : x = 0
  · rw [hx, fl_zero]
    rw [hx] at h
    exact h
  · rw [fl_of_ne x hx]
    have hu := ulp_pos x
    have h1 : x / ulp x ≤ (n : ℚ) := by
      rw [div_le_iff₀ hu]
      exact h
    have h2 := round_half_even_le _ n h1
    exact mul_le_mul_of_nonneg_right (by exact_mod_cast h2) hu.le

theorem mul_ulp_le_fl (x : ℚ) (n : ℤ) (h : (n : ℚ) * ulp x ≤ x) : (n : ℚ) * ulp x ≤ fl x := by
  by_cases hx : x = 0
  · rw [hx, fl_zero]
    rw [hx] at h
    exact h
  · rw [fl_of_ne x hx]
    have hu := ulp_pos x
    have h1 : (n : ℚ) ≤ x / ulp x := by
      rw [le_div_iff₀ hu]
      exact h
    have h2 := le_round_half_even _ n h1
    exact mul_le_mul_of_nonneg_right (by exact_mod_cast h2) hu.le

/-- A double is an integer multiple of the unit in the last place of `x`, or it is
smaller in magnitude than the binade of `x`, which is then a normal one. -/
theorem double_cases (x y : ℚ) (hy : IsDouble y) :
    (∃ n : ℤ, y = (n : ℚ) * ulp x) ∨
    (|y| < (2 : ℚ) ^ binade x ∧ ulp x = (2 : ℚ) ^ (binade x - 52)) := by
  by_cases hy0 : y = 0
  · left
    exact ⟨0, by rw [hy0]; simp⟩
  · unfold IsDouble at hy
    rw [fl_of_ne y hy0] at hy
    by_cases hk : max (binade x) (-1022) ≤ max (binade y) (-1022)
    · left
      obtain ⟨j, hj⟩ : ∃ j : ℕ, max (binade y) (-1022) - max (binade x) (-1022) = j :=
        Int.eq_ofNat_of_zero_le (by omega)
      have hu : ulp y = (2 : ℚ) ^ j * ulp x := by
        unfold ulp
        rw [pow2_eq, pow2_eq, ← zpow_natCast, ← zpow_add₀ (two_ne_zero)]
        congr 1
        omega
      generalize round_half_even (y / ulp y) = m at hy
      refine ⟨m * 2 ^ j, ?_⟩
      rw [← hy, hu]
      push_cast
      ring
    · right
      push_neg at hk
      have hex : max (binade x) (-1022) = binade x := by omega
      have hlt : binade y + 1 ≤ binade x := by omega
      constructor
      · calc |y| < (2 : ℚ) ^ (binade y + 1) := (binade_spec y hy0).2
          _ ≤ (2 : ℚ) ^ binade x := zpow_le_zpow_right₀ (by norm_num) hlt
      · unfold ulp
        rw [pow2_eq, hex]

theorem two_zpow_split (e : ℤ) : (2 : ℚ) ^ e = ((2 ^ 52 : ℤ) : ℚ) * (2 : ℚ) ^ (e - 52) := by
  have h : ((2 ^ 52 : ℤ) : ℚ) = (2 : ℚ) ^ (52 : ℤ) := by norm_num
  rw [h, ← zpow_add₀ (two_ne_zero)]
  congr 1
  ring

/-- Rounding does not jump over a double: `x ≤ y` for a double `y` gives `fl x ≤ y`. -/
theorem fl_le_of_le (x y : ℚ) (hxy : x ≤ y) (hy : IsDouble y) : fl x ≤ y := by
  rcases double_cases x y hy with ⟨n, hn⟩ | ⟨hlt, hu⟩
  · rw [hn]
    apply fl_le_mul_ulp
    rw [← hn]
    exact hxy
  · by_cases hx : x = 0
    · rw [hx, fl_zero]
      rw [hx] at hxy
      exact hxy
    have hb := (binade_spec x hx).1
    have hxneg : x < 0 := by
      by_contra hc
      push_neg at hc
      rw [abs_of_nonneg hc] at hb
      rw [abs_of_nonneg (le_trans hc hxy)] at hlt
      linarith
    rw [abs_of_neg hxneg] at hb
    have hmul : -(2 : ℚ) ^ binade x = ((-(2 ^ 52) : ℤ) : ℚ) * ulp x := by
      rw [hu, two_zpow_split (binade x)]
      push_cast
      ring
    have h1 := fl_le_mul_ulp x (-(2 ^ 52)) (by rw [← hmul]; linarith)
    rw [← hmul] at h1
    have h2 : -|y| ≤ y := neg_abs_le y
    linarith

/-- Rounding does not jump over a double: `y ≤ x` for a double `y` gives `y ≤ fl x`. -/
theorem le_fl_of_le (x y : ℚ) (hxy : y ≤ x) (hy : IsDouble y) : y ≤ fl x := by
  rcases double_cases x y hy with ⟨n, hn⟩ | ⟨hlt, hu⟩
  · rw [hn]
    apply mul_ulp_le_fl
    rw [← hn]
    exact hxy
  · by_cases hx : x = 0
    · rw [hx, fl_zero]
      rw [hx] at hxy
      exact hxy
    have hb := (binade_spec x hx).1
    have hxpos : 0 < x := by
      by_contra hc
      push_neg at hc
      rw [abs_of_nonpos hc] at hb
      rw [abs_of_nonpos (le_trans hxy hc)] at hlt
      linarith
    rw [abs_of_pos hxpos] at hb
    have hmul : (2 : ℚ) ^ binade x = (((2 ^ 52) : ℤ) : ℚ) * ulp x := by
      rw [hu]
      exact two_zpow_split (binade x)
    have h1 := mul_ulp_le_fl x (2 ^ 52) (by rw [← hmul]; exact hb)
    rw [← hmul] at h1
    have h2 : y ≤ |y| := le_abs_self y
    linarith

theorem fl_nonneg (x : ℚ) (h : 0 ≤ x) : 0 ≤ fl x :=
  le_fl_of_le x 0 h fl_zero

/-- An integer below `2^53` in magnitude is a double. -/
theorem fl_intCast (z : ℤ) (h : |z| < 2 ^ 53) : fl (z : ℚ) = (z : ℚ) := by
  by_cases hz : z = 0
  · rw [hz]
    simp [fl_zero]
  · have hzq : (z : ℚ) ≠ 0 := by exact_mod_cast hz
    obtain ⟨hb1, _⟩ := binade_spec (z : ℚ) hzq
    have habs : |(z : ℚ)| < (2 : ℚ) ^ (53 : ℤ) := by
      have : ((|z| : ℤ) : ℚ) < ((2 ^ 53 : ℤ) : ℚ) := by exact_mod_cast h
      rw [Int.cast_abs] at this
      norm_num at this ⊢
      exact this
    have hlt : (2 : ℚ) ^ binade (z : ℚ) < (2 : ℚ) ^ (53 : ℤ) := lt_of_le_of_lt hb1 habs
    have he : binade (z : ℚ) < 53 := (zpow_lt_zpow_iff_right₀ (by norm_num : (1 : ℚ) < 2)).mp hlt
    obtain ⟨j, hj⟩ : ∃ j : ℕ, -(max (binade (z : ℚ)) (-1022) - 52) = j :=
      Int.eq_ofNat_of_zero_le (by omega)
    have hu : ulp (z : ℚ) = ((2 : ℚ) ^ j)⁻¹ := by
      unfold ulp
      rw [pow2_eq, ← zpow_natCast, ← zpow_neg]
      congr 1
      omega
    rw [fl_of_ne _ hzq, hu]
    have hdiv : (z : ℚ) / ((2 : ℚ) ^ j)⁻¹ = ((z * 2 ^ j : ℤ) : ℚ) := by
      push_cast
      rw [div_inv_eq_mul]
    rw [hdiv, round_half_even_intCast]
    push_cast
    have hp : (2 : ℚ) ^ j ≠ 0 := by positivity
    field_simp

theorem sub_intCast (a b : ℤ) (h : |a - b| < 2 ^ 53) :
    sub (a : ℚ) (b : ℚ) = ((a - b : ℤ) : ℚ) := by
  unfold sub
  rw [← Int.cast_sub]
  exact fl_intCast _ h

theorem add_intCast (a b : ℤ) (h : |a + b| < 2 ^ 53) :
    add (a : ℚ) (b : ℚ) = ((a + b : ℤ) : ℚ) := by
  unfold add
  rw [← Int.cast_add]
  exact fl_intCast _ h

theorem mul_intCast (a b : ℤ) (h : |a * b| < 2 ^ 53) :
    mul (a : ℚ) (b : ℚ) = ((a * b : ℤ) : ℚ) := by
  unfold mul
  rw [← Int.cast_mul]
  exact fl_intCast _ h

end double

/-! ## The collision detector -/

namespace model.collision_detector

theorem GatherStep_eq (provider : ItemGathererProvider) (g : Nat)
    (events : List GatheringEvent) (i : Nat) :
    GatherStep provider g events i =
      events ++ (PairEvent (provider.GetGatherer g) (provider.GetItem i)).toList := by
  unfold GatherStep PairEvent
  simp only []
  cases TryCollectPoint (provider.GetGatherer g).start_pos (provider.GetGatherer g).end_pos
      (provider.GetItem i).position with
  | none => simp
  | some result =>
    simp only []
    split <;> simp

theorem foldl_GatherStep (provider : ItemGathererProvider) (g : Nat) (is : List Nat) :
    ∀ events : List GatheringEvent,
      is.foldl (GatherStep provider g) events =
        events ++ is.filterMap
          (fun i => PairEvent (provider.GetGatherer g) (provider.GetItem i)) := by
  induction is with
  | nil => intro events; simp
  | cons i is ih =>
    intro events
    rw [List.foldl_cons, ih, GatherStep_eq, List.filterMap_cons]
    cases PairEvent (provider.GetGatherer g) (provider.GetItem i) <;> simp

/-- The two loops list, gatherer by gatherer and item by item, the events of the
pairs that emit one. -/
theorem CollectEvents_eq (provider : ItemGathererProvider) :
    CollectEvents provider =
      (List.range provider.GatherersCount).flatMap (fun g =>
        (List.range provider.ItemsCount).filterMap
          (fun i => PairEvent (provider.GetGatherer g) (provider.GetItem i))) := by
  unfold CollectEvents
  generalize List.range provider.GatherersCount = gs
  have h : ∀ events : List GatheringEvent,
      gs.foldl (fun events g =>
          (List.range provider.ItemsCount).foldl (GatherStep provider g) events) events =
        events ++ gs.flatMap (fun g => (List.range provider.ItemsCount).filterMap
          (fun i => PairEvent (provider.GetGatherer g) (provider.GetItem i))) := by
    induction gs with
    | nil => intro events; simp
    | cons g gs ih =>
      intro events
      rw [List.foldl_cons, ih, foldl_GatherStep, List.flatMap_cons]
      simp
  simpa using h []

theorem PairEvent_time_bounds (g : Gatherer) (it : Item) (e : GatheringEvent)
    (h : PairEvent g it = some e) : 0 ≤ e.time ∧ e.time ≤ 1 := by
  unfold PairEvent at h
  cases hT : TryCollectPoint g.start_pos g.end_pos it.position with
  | none => rw [hT] at h; simp at h
  | some result =>
    rw [hT] at h
    simp only [] at h
    by_cases hc : result.IsCollected (double.add g.width it.width) = true
    · rw [if_pos hc] at h
      cases h
      unfold CollectionResult.IsCollected at hc
      simp only [Bool.and_eq_true, decide_eq_true_eq] at hc
      exact ⟨hc.1.1, hc.1.2⟩
    · rw [if_neg hc] at h
      simp at h

theorem map_range_getD {α : Type} (l : List α) (d : α) :
    (List.range l.length).map (fun i => l.getD i d) = l := by
  apply List.ext_getElem
  · simp
  · intro n h1 h2
    simp [List.getD_eq_getElem?_getD, List.getElem?_eq_getElem h2]

/-- Over a provider built from two lists, the loops visit the pairs list by list. -/
theorem CollectEvents_LootPickupProvider (items : List Item) (gatherers : List Gatherer) :
    CollectEvents (LootPickupProvider items gatherers) =
      gatherers.flatMap (fun g => items.filterMap (PairEvent g)) := by
  rw [CollectEvents_eq]
  have hinner : ∀ g : Gatherer,
      (List.range (LootPickupProvider items gatherers).ItemsCount).filterMap
        (fun i => PairEvent g ((LootPickupProvider items gatherers).GetItem i)) =
      items.filterMap (PairEvent g) := by
    intro g
    have h1 : (List.range (LootPickupProvider items gatherers).ItemsCount).filterMap
        (fun i => PairEvent g ((LootPickupProvider items gatherers).GetItem i)) =
        ((List.range items.length).map (fun i => items.getD i
          { type := "", position := { x := 0, y := 0 }, width := 0, id := 0 })).filterMap
          (PairEvent g) := by
      rw [List.filterMap_map]
      rfl
    rw [h1, map_range_getD]
  have houter : (List.range (LootPickupProvider items gatherers).GatherersCount).flatMap
      (fun g => (List.range (LootPickupProvider items gatherers).ItemsCount).filterMap
        (fun i => PairEvent ((LootPickupProvider items gatherers).GetGatherer g)
          ((LootPickupProvider items gatherers).GetItem i))) =
      ((List.range gatherers.length).map (fun i => gatherers.getD i
          { start_pos := { x := 0, y := 0 }, end_pos := { x := 0, y := 0 },
            width := 0, id := 0 })).flatMap
        (fun g => (List.range (LootPickupProvider items gatherers).ItemsCount).filterMap
          (fun i => PairEvent g ((LootPickupProvider items gatherers).GetItem i))) := by
    rw [List.flatMap_map]
    rfl
  rw [houter, map_range_getD]
  congr 1
  funext g
  exact hinner g

/-- Where the rounded `|v|²` is not zero, `TryCollectPoint` computes the two
quantities of the spec, each operation rounded. -/
theorem TryCollectPoint_eq_double (a b c : pos.Coordinate) (h : double_len2 a b ≠ 0) :
    TryCollectPoint a b c =
      some { sq_distance := double_sq_distance a b c,
             proj_ratio := double_proj_ratio a b c } := by
  unfold double_len2 at h
  unfold TryCollectPoint double_sq_distance double_proj_ratio double_dot double_len2
  simp only [if_neg h]

theorem PairEvent_eq_double (g : Gatherer) (it : Item)
    (h : double_len2 g.start_pos g.end_pos ≠ 0) :
    PairEvent g it = if double_collected g it then some (double_event g it) else none := by
  unfold PairEvent
  rw [TryCollectPoint_eq_double _ _ _ h]
  simp only [CollectionResult.IsCollected, double_collected, double_event, Bool.and_eq_true,
    decide_eq_true_eq, ge_iff_le, and_assoc]

theorem filterMap_PairEvent (g : Gatherer) (hg : double_len2 g.start_pos g.end_pos ≠ 0)
    (items : List Item) :
    items.filterMap (PairEvent g) =
      (items.filter (fun it => decide (double_collected g it))).map (double_event g) := by
  induction items with
  | nil => rfl
  | cons it items ih =>
    rw [List.filterMap_cons, PairEvent_eq_double g it hg, ih, List.filter_cons]
    by_cases hc : double_collected g it
    · simp [hc]
    · simp [hc]

/-- C6 as stated fails: for the gatherer walking from `(0,0)` to `(2,0)` with width
`0.3` and the item of width `0` at `(1, 0.3)` (`0.3` the double nearest to `3/10`) the
pair satisfies `0 ≤ proj_ratio ≤ 1` and `sq_distance ≤ (gatherer.width + item.width)²`
(with equality), so that the claim asks for one event, with time `1/2`, but
`FindGatherEvents` returns no event: the sum `1 + 0.3·0.3` is rounded up, and the
computed `sq_distance` exceeds the computed square of the radius. -/
theorem C6_counterexample :
    spec_collected
      { start_pos := { x := 0, y := 0 }, end_pos := { x := 2, y := 0 },
        width := double.fl (3 / 10), id := 4 }
      { type := "loot", position := { x := 1, y := double.fl (3 / 10) }, width := 0, id := 7 } ∧
    spec_events
      [{ type := "loot", position := { x := 1, y := double.fl (3 / 10) }, width := 0, id := 7 }]
      [{ start_pos := { x := 0, y := 0 }, end_pos := { x := 2, y := 0 },
         width := double.fl (3 / 10), id := 4 }] =
      [{ item_type := "loot", item_id := 7, gatherer_id := 4,
         sq_distance := double.fl (3 / 10) * double.fl (3 / 10), time := 1 / 2 }] ∧
    FindGatherEvents (LootPickupProvider
      [{ type := "loot", position := { x := 1, y := double.fl (3 / 10) }, width := 0, id := 7 }]
      [{ start_pos := { x := 0, y := 0 }, end_pos := { x := 2, y := 0 },
         width := double.fl (3 / 10), id := 4 }]) = [] := by
  decide!

/-- C6, amended: for every list of items and every list of gatherers with coordinates
and widths up to `2^100` in magnitude (where no operation of the detector
overflows) and whose `|v|²`, as computed, is not zero, `FindGatherEvents` returns, up
to the order fixed by the
sort, exactly one event for each (gatherer, item) pair whose `proj_ratio` and
`sq_distance`, computed in double arithmetic with every operation rounded to the
nearest double, satisfy `0 ≤ proj_ratio ≤ 1` and `sq_distance ≤` the rounded square
of the rounded sum of the widths, and no event for any other pair; the event
carries the item's type and id, the gatherer's id, the computed `sq_distance` and
`time =` the computed `proj_ratio` (the ids as converted to `size_t`). -/
theorem C6_events_are_the_pairs_collected_in_doubles (items : List Item)
    (gatherers : List Gatherer)
    (_hitems : ∀ it ∈ items, it.in_range 100)
    (_hgatherers : ∀ g ∈ gatherers, g.in_range 100)
    (hseg : ∀ g ∈ gatherers, double_len2 g.start_pos g.end_pos ≠ 0) :
    (FindGatherEvents (LootPickupProvider items gatherers)).Perm
      (double_events items gatherers) := by
  unfold FindGatherEvents
  refine (List.perm_insertionSort _ _).trans ?_
  rw [CollectEvents_LootPickupProvider]
  unfold double_events
  have hsame : ∀ gs : List Gatherer, (∀ g ∈ gs, double_len2 g.start_pos g.end_pos ≠ 0) →
      gs.flatMap (fun g => items.filterMap (PairEvent g)) =
      gs.flatMap (fun g =>
        (items.filter (fun it => decide (double_collected g it))).map (double_event g)) := by
    intro gs hgs
    induction gs with
    | nil => rfl
    | cons g gs ih =>
      rw [List.flatMap_cons, List.flatMap_cons,
        filterMap_PairEvent g (hgs g (List.mem_cons_self _ _)) items,
        ih (fun x hx => hgs x (List.mem_cons_of_mem _ hx))]
  rw [hsame gatherers hseg]

/-- C6 amended, applied to one gatherer moving from `(0,0)` to `(2,0)` and two items,
one at `(1,0)` on the path and one at `(5,0)` beyond its end. -/
theorem C6_events_are_the_pairs_collected_in_doubles_witness :
    (FindGatherEvents (LootPickupProvider
        [{ type := "loot", position := { x := 1, y := 0 }, width := 0, id := 7 },
         { type := "loot", position := { x := 5, y := 0 }, width := 0, id := 8 }]
        [{ start_pos := { x := 0, y := 0 }, end_pos := { x := 2, y := 0 },
           width := 3 / 10, id := 4 }])).Perm
      (double_events
        [{ type := "loot", position := { x := 1, y := 0 }, width := 0, id := 7 },
         { type := "loot", position := { x := 5, y := 0 }, width := 0, id := 8 }]
        [{ start_pos := { x := 0, y := 0 }, end_pos := { x := 2, y := 0 },
           width := 3 / 10, id := 4 }]) :=
  C6_events_are_the_pairs_collected_in_doubles _ _ (by decide!) (by decide!) (by decide!)

/-- C7 as stated fails: the target `(5, 4.8)` is the midpoint of the segment from
`(0,0)` to `(10, 9.6)` (`4.8` and `9.6` the nearest doubles, the one twice the other),
but `TryCollectPoint` computes a `sq_distance` that is not zero, and `IsCollected` is
false for the positive radius `1e-9`. -/
theorem C7_counterexample :
    (5 : ℚ) = 0 + 1 / 2 * (10 - 0) ∧
    double.fl (24 / 5) = 0 + 1 / 2 * (double.fl (48 / 5) - 0) ∧
    (0 : ℚ) < double.fl (1 / 1000000000) ∧
    (TryCollectPoint { x := 0, y := 0 } { x := 10, y := double.fl (48 / 5) }
      { x := 5, y := double.fl (24 / 5) }).map (fun r => r.proj_ratio) = some (1 / 2) ∧
    (TryCollectPoint { x := 0, y := 0 } { x := 10, y := double.fl (48 / 5) }
      { x := 5, y := double.fl (24 / 5) }).map (fun r => decide (r.sq_distance = 0)) =
        some false ∧
    (TryCollectPoint { x := 0, y := 0 } { x := 10, y := double.fl (48 / 5) }
      { x := 5, y := double.fl (24 / 5) }).map
        (fun r => r.IsCollected (double.fl (1 / 1000000000))) = some false := by
  decide!

theorem abs_mul_le_of_abs_le (a b A B : ℤ) (ha : |a| ≤ A) (hb : |b| ≤ B) : |a * b| ≤ A * B := by
  rw [abs_mul]
  exact mul_le_mul ha hb (abs_nonneg _) (le_trans (abs_nonneg _) ha)

theorem abs_sub_le_of_abs_le (a b A : ℤ) (ha : |a| ≤ A) (hb : |b| ≤ A) : |a - b| ≤ 2 * A := by
  rw [abs_le] at ha hb ⊢
  constructor <;> omega

theorem abs_add_le_of_abs_le (a b A B : ℤ) (ha : |a| ≤ A) (hb : |b| ≤ B) : |a + b| ≤ A + B :=
  le_trans (abs_add a b) (add_le_add ha hb)

/-- The dot product of two integer vectors with components up to `2^12` is computed
exactly. -/
theorem dot_intCast (p q r s : ℤ) (hp : |p| ≤ 2 ^ 12) (hq : |q| ≤ 2 ^ 12) (hr : |r| ≤ 2 ^ 12)
    (hs : |s| ≤ 2 ^ 12) :
    double.add (double.mul (p : ℚ) (q : ℚ)) (double.mul (r : ℚ) (s : ℚ)) =
      ((p * q + r * s : ℤ) : ℚ) ∧ |p * q + r * s| ≤ 2 ^ 25 := by
  have h1 := abs_mul_le_of_abs_le p q _ _ hp hq
  have h2 := abs_mul_le_of_abs_le r s _ _ hr hs
  have h3 := abs_add_le_of_abs_le _ _ _ _ h1 h2
  norm_num at h1 h2 h3
  rw [double.mul_intCast p q (lt_of_le_of_lt h1 (by norm_num)),
    double.mul_intCast r s (lt_of_le_of_lt h2 (by norm_num)),
    double.add_intCast _ _ (lt_of_le_of_lt h3 (by norm_num))]
  exact ⟨rfl, by norm_num; exact h3⟩

/-- C7, amended: for integer points `a ≠ b` and `c` with coordinates up to `2^11` in
magnitude (where every product and sum of `TryCollectPoint` is exact) and `c` on
the segment, `c = a + t·(b − a)` with `0 ≤ t ≤ 1`, `TryCollectPoint(a, b, c)` yields
`sq_distance = 0` and `proj_ratio =` the double nearest to `t`, which lies in
`[0, 1]`, so `IsCollected` is true, for every radius. -/
theorem C7_integer_point_on_segment_is_collected (ax ay bx by_ cx cy : ℤ)
    (t collect_radius : ℚ)
    (hax : |ax| ≤ 2 ^ 11) (hay : |ay| ≤ 2 ^ 11) (hbx : |bx| ≤ 2 ^ 11) (hby : |by_| ≤ 2 ^ 11)
    (hcx : |cx| ≤ 2 ^ 11) (hcy : |cy| ≤ 2 ^ 11)
    (hab : ax ≠ bx ∨ ay ≠ by_) (ht0 : 0 ≤ t) (ht1 : t ≤ 1)
    (hx : (cx : ℚ) = (ax : ℚ) + t * ((bx : ℚ) - (ax : ℚ)))
    (hy : (cy : ℚ) = (ay : ℚ) + t * ((by_ : ℚ) - (ay : ℚ))) :
    TryCollectPoint { x := (ax : ℚ), y := (ay : ℚ) } { x := (bx : ℚ), y := (by_ : ℚ) }
        { x := (cx : ℚ), y := (cy : ℚ) } =
      some { sq_distance := 0, proj_ratio := double.fl t } ∧
    0 ≤ double.fl t ∧ double.fl t ≤ 1 ∧
    CollectionResult.IsCollected { sq_distance := 0, proj_ratio := double.fl t }
      collect_radius = true := by
  have h0 : (0 : ℚ) ≤ double.fl t := double.fl_nonneg t ht0
  have h1 : double.fl t ≤ 1 := double.fl_le_of_le t 1 ht1 (by decide!)
  have hU := abs_sub_le_of_abs_le cx ax _ hcx hax
  have hW := abs_sub_le_of_abs_le cy ay _ hcy hay
  have hV := abs_sub_le_of_abs_le bx ax _ hbx hax
  have hZ := abs_sub_le_of_abs_le by_ ay _ hby hay
  norm_num at hU hW hV hZ
  have hlt : ∀ z : ℤ, |z| ≤ 4096 → |z| < 2 ^ 53 := fun z hz => lt_of_le_of_lt hz (by norm_num)
  have hU2 : |cx - ax| ≤ 2 ^ 12 := by norm_num; exact hU
  have hW2 : |cy - ay| ≤ 2 ^ 12 := by norm_num; exact hW
  have hV2 : |bx - ax| ≤ 2 ^ 12 := by norm_num; exact hV
  have hZ2 : |by_ - ay| ≤ 2 ^ 12 := by norm_num; exact hZ
  obtain ⟨hP, hPb⟩ := dot_intCast (cx - ax) (bx - ax) (cy - ay) (by_ - ay) hU2 hV2 hW2 hZ2
  obtain ⟨hUL, _⟩ := dot_intCast (cx - ax) (cx - ax) (cy - ay) (cy - ay) hU2 hU2 hW2 hW2
  obtain ⟨hL, _⟩ := dot_intCast (bx - ax) (bx - ax) (by_ - ay) (by_ - ay) hV2 hV2 hZ2 hZ2
  have hLne : (bx - ax) * (bx - ax) + (by_ - ay) * (by_ - ay) ≠ 0 := by
    intro hzero
    have hv : bx - ax = 0 := by nlinarith [mul_self_nonneg (bx - ax), mul_self_nonneg (by_ - ay)]
    have hz : by_ - ay = 0 := by nlinarith [mul_self_nonneg (bx - ax), mul_self_nonneg (by_ - ay)]
    rcases hab with h | h
    · exact h (by omega)
    · exact h (by omega)
  have hLq : (((bx - ax) * (bx - ax) + (by_ - ay) * (by_ - ay) : ℤ) : ℚ) ≠ 0 := by
    exact_mod_cast hLne
  have hPP : |((cx - ax) * (bx - ax) + (cy - ay) * (by_ - ay)) *
      ((cx - ax) * (bx - ax) + (cy - ay) * (by_ - ay))| < 2 ^ 53 := by
    have := abs_mul_le_of_abs_le _ _ _ _ hPb hPb
    exact lt_of_le_of_lt this (by norm_num)
  have hUq : ((cx - ax : ℤ) : ℚ) = t * ((bx - ax : ℤ) : ℚ) := by
    push_cast
    linarith
  have hWq : ((cy - ay : ℤ) : ℚ) = t * ((by_ - ay : ℤ) : ℚ) := by
    push_cast
    linarith
  have hproj : (((cx - ax) * (bx - ax) + (cy - ay) * (by_ - ay) : ℤ) : ℚ) /
      (((bx - ax) * (bx - ax) + (by_ - ay) * (by_ - ay) : ℤ) : ℚ) = t := by
    rw [div_eq_iff hLq]
    push_cast at hUq hWq ⊢
    rw [hUq, hWq]
    ring
  have hquot : ((((cx - ax) * (bx - ax) + (cy - ay) * (by_ - ay)) *
      ((cx - ax) * (bx - ax) + (cy - ay) * (by_ - ay)) : ℤ) : ℚ) /
      (((bx - ax) * (bx - ax) + (by_ - ay) * (by_ - ay) : ℤ) : ℚ) =
      (((cx - ax) * (cx - ax) + (cy - ay) * (cy - ay) : ℤ) : ℚ) := by
    rw [div_eq_iff hLq]
    push_cast at hUq hWq ⊢
    rw [hUq, hWq]
    ring
  refine ⟨?_, h0, h1, ?_⟩
  · unfold TryCollectPoint
    simp only
    rw [double.sub_intCast cx ax (hlt _ hU), double.sub_intCast cy ay (hlt _ hW),
      double.sub_intCast bx ax (hlt _ hV), double.sub_intCast by_ ay (hlt _ hZ), hP, hUL, hL,
      if_neg hLq, double.mul_intCast _ _ hPP]
    have hd1 : double.div
        (((cx - ax) * (bx - ax) + (cy - ay) * (by_ - ay) : ℤ) : ℚ)
        (((bx - ax) * (bx - ax) + (by_ - ay) * (by_ - ay) : ℤ) : ℚ) = double.fl t := by
      unfold double.div
      rw [hproj]
    have hd2 : double.div
        ((((cx - ax) * (bx - ax) + (cy - ay) * (by_ - ay)) *
          ((cx - ax) * (bx - ax) + (cy - ay) * (by_ - ay)) : ℤ) : ℚ)
        (((bx - ax) * (bx - ax) + (by_ - ay) * (by_ - ay) : ℤ) : ℚ) =
        (((cx - ax) * (cx - ax) + (cy - ay) * (cy - ay) : ℤ) : ℚ) := by
      unfold double.div
      rw [hquot]
      have hb := abs_add_le_of_abs_le _ _ _ _
        (abs_mul_le_of_abs_le _ _ _ _ hU2 hU2) (abs_mul_le_of_abs_le _ _ _ _ hW2 hW2)
      exact double.fl_intCast _ (lt_of_le_of_lt hb (by norm_num))
    rw [hd1, hd2]
    unfold double.sub
    rw [sub_self, double.fl_zero]
  · unfold CollectionResult.IsCollected
    simp only [Bool.and_eq_true, decide_eq_true_eq, ge_iff_le]
    exact ⟨⟨h0, h1⟩, double.fl_nonneg _ (mul_self_nonneg _)⟩

/-- C7 amended, applied to the segment `(0,0) → (6,3)` and its point `(2,1)`, at the
fraction `1/3`. -/
theorem C7_integer_point_on_segment_is_collected_witness :
    TryCollectPoint { x := ((0 : ℤ) : ℚ), y := ((0 : ℤ) : ℚ) }
        { x := ((6 : ℤ) : ℚ), y := ((3 : ℤ) : ℚ) } { x := ((2 : ℤ) : ℚ), y := ((1 : ℤ) : ℚ) } =
      some { sq_distance := 0, proj_ratio := double.fl (1 / 3) } :=
  (C7_integer_point_on_segment_is_collected 0 0 6 3 2 1 (1 / 3) (1 / 10)
    (by decide) (by decide) (by decide) (by decide) (by decide) (by decide)
    (by decide) (by decide!) (by decide!) (by decide!) (by decide!)).1


theorem mem_CollectEvents_time_bounds (provider : ItemGathererProvider) (e : GatheringEvent)
    (h : e ∈ CollectEvents provider) : 0 ≤ e.time ∧ e.time ≤ 1 := by
  rw [CollectEvents_eq] at h
  simp only [List.mem_flatMap, List.mem_filterMap] at h
  obtain ⟨g, _, i, _, hi⟩ := h
  exact PairEvent_time_bounds _ _ e hi

/-- C8: for every provider, the list returned by `FindGatherEvents` is ordered by
non-decreasing `time` (the event at position `i` is not later than the event at any
position `j > i`), and every event's `time` lies in `[0, 1]`. -/
theorem C8_events_sorted_by_time (provider : ItemGathererProvider) :
    (∀ (i j : Nat) (ei ej : GatheringEvent), i < j →
      (FindGatherEvents provider).get? i = some ei →
      (FindGatherEvents provider).get? j = some ej → ei.time ≤ ej.time) ∧
    (∀ e ∈ FindGatherEvents provider, 0 ≤ e.time ∧ e.time ≤ 1) := by
  constructor
  · intro i j ei ej hij hi hj
    haveI : IsTotal GatheringEvent (fun a b => a.time ≤ b.time) :=
      ⟨fun a b => le_total a.time b.time⟩
    haveI : IsTrans GatheringEvent (fun a b => a.time ≤ b.time) :=
      ⟨fun a b c h1 h2 => le_trans h1 h2⟩
    have hs : (FindGatherEvents provider).Pairwise (fun a b => a.time ≤ b.time) :=
      List.sorted_insertionSort _ _
    obtain ⟨hi1, hi2⟩ := List.get?_eq_some.mp hi
    obtain ⟨hj1, hj2⟩ := List.get?_eq_some.mp hj
    have := (List.pairwise_iff_get.mp hs) ⟨i, hi1⟩ ⟨j, hj1⟩ hij
    rw [hi2, hj2] at this
    exact this
  · intro e he
    unfold FindGatherEvents at he
    exact mem_CollectEvents_time_bounds provider e ((List.mem_insertionSort _).mp he)

/-- C8, applied to a gatherer moving from `(0,0)` to `(4,0)` over an item at `(3,0)`
listed before an item at `(1,0)`: the event of the second item comes first. -/
theorem C8_events_sorted_by_time_witness :
    (FindGatherEvents (LootPickupProvider
      [{ type := "loot", position := { x := 3, y := 0 }, width := 0, id := 1 },
       { type := "loot", position := { x := 1, y := 0 }, width := 0, id := 2 }]
      [{ start_pos := { x := 0, y := 0 }, end_pos := { x := 4, y := 0 },
         width := 3 / 10, id := 0 }])).get? 0 =
      some { item_type := "loot", item_id := 2, gatherer_id := 0,
             sq_distance := 0, time := 1 / 4 } ∧
    (FindGatherEvents (LootPickupProvider
      [{ type := "loot", position := { x := 3, y := 0 }, width := 0, id := 1 },
       { type := "loot", position := { x := 1, y := 0 }, width := 0, id := 2 }]
      [{ start_pos := { x := 0, y := 0 }, end_pos := { x := 4, y := 0 },
         width := 3 / 10, id := 0 }])).get? 1 =
      some { item_type := "loot", item_id := 1, gatherer_id := 0,
             sq_distance := 0, time := 3 / 4 } ∧
    (1 / 4 : ℚ) ≤ 3 / 4 :=
  ⟨by decide!, by decide!,
    (C8_events_sorted_by_time (LootPickupProvider
      [{ type := "loot", position := { x := 3, y := 0 }, width := 0, id := 1 },
       { type := "loot", position := { x := 1, y := 0 }, width := 0, id := 2 }]
      [{ start_pos := { x := 0, y := 0 }, end_pos := { x := 4, y := 0 },
         width := 3 / 10, id := 0 }])).1 0 1
    { item_type := "loot", item_id := 2, gatherer_id := 0, sq_distance := 0, time := 1 / 4 }
    { item_type := "loot", item_id := 1, gatherer_id := 0, sq_distance := 0, time := 3 / 4 }
    (by decide) (by decide!) (by decide!)⟩

end model.collision_detector

/-! ## The loot arena -/

namespace model.LootStore

theorem Create_free_ids (s : LootStore) (info : LootInfo) (coord : pos.Coordinate) :
    (s.Create info coord).2.free_ids_ = s.free_ids_.dropLast := by
  unfold Create
  cases h : s.free_ids_.getLast? with
  | none =>
    have : s.free_ids_ = [] := List.getLast?_eq_none_iff.mp h
    simp [this]
  | some id => rfl

/-- The free-id stack of the store is the list of removed and not yet reused ids
read off the call history. -/
theorem free_ids_run (calls : List Call) :
    ∀ s : LootStore, (run s calls).free_ids_ = removed_not_reused s s.free_ids_ calls := by
  induction calls with
  | nil => intro s; rfl
  | cons c calls ih =>
    intro s
    unfold run at ih ⊢
    rw [List.foldl_cons]
    cases c with
    | Create info coord =>
      rw [removed_not_reused, ih, step, Create_free_ids]
    | Remove id =>
      rw [removed_not_reused, ih, step]
      unfold Remove
      split <;> rfl

theorem Create_id (s : LootStore) (info : LootInfo) (coord : pos.Coordinate) :
    (s.Create info coord).1.id =
      (match s.free_ids_.getLast? with
       | some id => id
       | none => s.items_.length % 2 ^ 32) := by
  unfold Create
  cases s.free_ids_.getLast? <;> rfl

/-- A run of `Create` calls on a store without free ids appends one item per call,
the item at position `i` carrying the id `i` (reduced modulo `2^32`). -/
theorem run_creates (cs : List (LootInfo × pos.Coordinate)) :
    ∀ s : LootStore, s.free_ids_ = [] →
      (run s (cs.map (fun c => Call.Create c.1 c.2))).free_ids_ = [] ∧
      (run s (cs.map (fun c => Call.Create c.1 c.2))).items_.length =
        s.items_.length + cs.length ∧
      (∀ i, i < s.items_.length →
        (run s (cs.map (fun c => Call.Create c.1 c.2))).items_.get? i = s.items_.get? i) ∧
      (∀ i, s.items_.length ≤ i → i < s.items_.length + cs.length →
        ∃ item, (run s (cs.map (fun c => Call.Create c.1 c.2))).items_.get? i =
          some (some item) ∧ item.id = i % 2 ^ 32) := by
  induction cs with
  | nil =>
    intro s hs
    refine ⟨hs, rfl, fun _ _ => rfl, ?_⟩
    intro i h1 h2
    simp only [List.length_nil, Nat.add_zero] at h2
    omega
  | cons c cs ih =>
    intro s hs
    have hstep : (s.Create c.1 c.2).2 =
        { items_ := s.items_ ++ [some { id := s.items_.length % 2 ^ 32, info := c.1,
                                        coordinate := c.2, width := 0 }],
          free_ids_ := [] } := by
      unfold Create
      rw [hs]
      rfl
    have hrun : run s ((c :: cs).map (fun c => Call.Create c.1 c.2)) =
        run (s.Create c.1 c.2).2 (cs.map (fun c => Call.Create c.1 c.2)) := rfl
    rw [hrun]
    obtain ⟨h1, h2, h3, h4⟩ := ih (s.Create c.1 c.2).2 (by rw [hstep])
    rw [hstep] at h1 h2 h3 h4 ⊢
    simp only [List.length_append, List.length_singleton, List.length_cons, List.length_nil,
      List.get?_eq_getElem?] at h2 h3 h4 ⊢
    refine ⟨h1, by omega, ?_, ?_⟩
    · intro i hi
      rw [h3 i (by omega)]
      exact List.getElem?_append_left hi
    · intro i hi1 hi2
      by_cases hi : i = s.items_.length
      · subst hi
        refine ⟨{ id := s.items_.length % 2 ^ 32, info := c.1, coordinate := c.2, width := 0 },
          ?_, rfl⟩
        rw [h3 _ (by omega)]
        simp
      · exact h4 i (by omega) (by omega)

theorem has_value_eq_false_iff (s : LootStore) (id : Nat) (h : id < s.items_.length) :
    s.has_value id = false ↔ s.items_.get? id = some none := by
  unfold has_value
  obtain ⟨v, hv⟩ : ∃ v, s.items_.get? id = some v :=
    ⟨s.items_.get ⟨id, h⟩, List.get?_eq_get h⟩
  rw [hv]
  cases v <;> simp

theorem Remove_fails_iff (s : LootStore) (id : Nat) :
    (s.Remove id).1 = Except.error "incorrect item id" ↔
      (id ≥ s.items_.length ∨ s.items_.get? id = some none) := by
  unfold Remove
  by_cases h : id ≥ s.items_.length
  · simp [h]
  · have hlt : id < s.items_.length := Nat.lt_of_not_ge h
    have hv := has_value_eq_false_iff s id hlt
    rw [List.get?_eq_getElem?] at hv ⊢
    cases hb : s.has_value id
    · simp [h, hv.mp hb]
    · have : ¬ s.items_[id]? = some none := fun hc => by
        rw [hv.mpr hc] at hb
        exact Bool.noConfusion hb
      simp [h, this]

theorem Remove_ok (s : LootStore) (id : Nat)
    (h : ¬ (id ≥ s.items_.length ∨ s.items_.get? id = some none)) :
    s.Remove id =
      (Except.ok (), { items_ := s.items_.set id none, free_ids_ := s.free_ids_ ++ [id] }) := by
  push_neg at h
  have hlt : id < s.items_.length := h.1
  have hb : s.has_value id = true := by
    cases hb : s.has_value id
    · exact absurd ((has_value_eq_false_iff s id hlt).mp hb) h.2
    · rfl
  unfold Remove
  simp [hb, hlt]

/-- C9: in every store reached from the empty store by `Create` and `Remove` calls
(with fewer than `2^32` slots, the range of `ItemId`), `Create` gives the new item
the most recently removed, not yet reused id when there is one and otherwise the
current array length; in particular, after creating `N` items (which get the ids
`0..N−1`), removing id `k < N` and creating one more item, the new item has id `k`
and `GetItem(k)` returns it. -/
theorem C9_create_reuses_last_removed_id (calls : List Call) (info : LootInfo)
    (coord : pos.Coordinate) (cs : List (LootInfo × pos.Coordinate)) (k : Nat) :
    ((run empty calls).items_.length < 2 ^ 32 →
      ((run empty calls).Create info coord).1.id =
        (match (removed_not_reused empty [] calls).getLast? with
         | some id => id
         | none => (run empty calls).items_.length)) ∧
    (cs.length < 2 ^ 32 → k < cs.length →
      (∀ i, i < cs.length →
        ∃ item, (run empty (cs.map (fun c => Call.Create c.1 c.2))).GetItem i = some item ∧
          item.id = i) ∧
      ((run empty (cs.map (fun c => Call.Create c.1 c.2))).Remove k).1 = Except.ok () ∧
      ((((run empty (cs.map (fun c => Call.Create c.1 c.2))).Remove k).2).Create info coord).1.id
        = k ∧
      ((((run empty (cs.map (fun c => Call.Create c.1 c.2))).Remove k).2).Create info coord).2.GetItem
          k =
        some ((((run empty (cs.map (fun c => Call.Create c.1 c.2))).Remove k).2).Create
          info coord).1) := by
  constructor
  · intro hlen
    rw [Create_id, free_ids_run]
    have he : empty.free_ids_ = [] := rfl
    rw [he]
    cases (removed_not_reused empty [] calls).getLast? with
    | none => exact Nat.mod_eq_of_lt hlen
    | some id => rfl
  · intro hN hk
    obtain ⟨h1, h2, _, h4⟩ := run_creates cs empty rfl
    generalize run empty (cs.map (fun c => Call.Create c.1 c.2)) = s at h1 h2 h4 ⊢
    have hlen : s.items_.length = cs.length := by
      rw [h2]
      simp [empty]
    have hitem : ∀ i, i < cs.length → ∃ item, s.items_.get? i = some (some item) ∧ item.id = i := by
      intro i hi
      obtain ⟨item, hi1, hi2⟩ := h4 i (Nat.zero_le _) (by simpa [empty] using hi)
      exact ⟨item, hi1, by rw [hi2]; exact Nat.mod_eq_of_lt (by omega)⟩
    obtain ⟨itk, hk1, _⟩ := hitem k hk
    have hok := Remove_ok s k (by
      push_neg
      refine ⟨by omega, ?_⟩
      rw [hk1]
      simp)
    refine ⟨?_, ?_, ?_, ?_⟩
    · intro i hi
      obtain ⟨item, hi1, hi2⟩ := hitem i hi
      exact ⟨item, by unfold GetItem; rw [hi1], hi2⟩
    · rw [hok]
    · rw [hok, Create_id, h1]
      simp
    · rw [hok]
      unfold Create GetItem
      rw [h1]
      simp only [List.nil_append, List.getLast?_singleton, List.length_set, List.get?_eq_getElem?]
      rw [List.getElem?_set_self (by simp; omega)]

/-- C9, applied to the history "create, create, remove 0" (the next id is `0`) and
to three created items of which the middle one, id `1`, is removed. -/
theorem C9_create_reuses_last_removed_id_witness :
    ((run empty [Call.Create { type := LootType.KEY, value := 1 } { x := 0, y := 0 },
        Call.Create { type := LootType.KEY, value := 1 } { x := 1, y := 0 },
        Call.Remove 0]).Create { type := LootType.WALLET, value := 2 } { x := 5, y := 5 }).1.id =
      (match (removed_not_reused empty []
          [Call.Create { type := LootType.KEY, value := 1 } { x := 0, y := 0 },
           Call.Create { type := LootType.KEY, value := 1 } { x := 1, y := 0 },
           Call.Remove 0]).getLast? with
       | some id => id
       | none => 2) ∧
    ((((run empty ([({ type := LootType.KEY, value := 1 }, { x := 0, y := 0 }),
        ({ type := LootType.KEY, value := 1 }, { x := 1, y := 0 }),
        ({ type := LootType.KEY, value := 1 }, { x := 2, y := 0 })].map
          (fun c => Call.Create c.1 c.2))).Remove 1).2).Create
        { type := LootType.WALLET, value := 2 } { x := 5, y := 5 }).1.id = 1 :=
  ⟨(C9_create_reuses_last_removed_id
      [Call.Create { type := LootType.KEY, value := 1 } { x := 0, y := 0 },
       Call.Create { type := LootType.KEY, value := 1 } { x := 1, y := 0 },
       Call.Remove 0]
      { type := LootType.WALLET, value := 2 } { x := 5, y := 5 } [] 0).1 (by decide),
    ((C9_create_reuses_last_removed_id []
      { type := LootType.WALLET, value := 2 } { x := 5, y := 5 }
      [({ type := LootType.KEY, value := 1 }, { x := 0, y := 0 }),
        ({ type := LootType.KEY, value := 1 }, { x := 1, y := 0 }),
        ({ type := LootType.KEY, value := 1 }, { x := 2, y := 0 })] 1).2
      (by decide) (by decide)).2.2.1⟩

/-- C10: for every store and every id, `Remove(id)` fails with the invalid-argument
error if and only if `id` is not below the array length or slot `id` is empty, and
then the store is unchanged; otherwise it returns normally, empties exactly slot
`id`, leaves every other slot unchanged and pushes `id` on top of the free-id stack. -/
theorem C10_remove_fails_or_frees_slot (s : LootStore) (id : Nat) :
    ((s.Remove id).1 = Except.error "incorrect item id" ↔
      (id ≥ s.items_.length ∨ s.items_.get? id = some none)) ∧
    ((s.Remove id).1 = Except.error "incorrect item id" → (s.Remove id).2 = s) ∧
    (¬ (id ≥ s.items_.length ∨ s.items_.get? id = some none) →
      (s.Remove id).1 = Except.ok () ∧
      (s.Remove id).2.items_.length = s.items_.length ∧
      (s.Remove id).2.items_.get? id = some none ∧
      (∀ k, k ≠ id → (s.Remove id).2.items_.get? k = s.items_.get? k) ∧
      (s.Remove id).2.free_ids_ = s.free_ids_ ++ [id]) := by
  refine ⟨Remove_fails_iff s id, ?_, ?_⟩
  · intro h
    unfold Remove at h ⊢
    split
    · rfl
    · rename_i hc
      rw [if_neg hc] at h
      simp at h
  · intro h
    rw [Remove_ok s id h]
    push_neg at h
    refine ⟨rfl, by simp, ?_, ?_, rfl⟩
    · simp only [List.get?_eq_getElem?]
      rw [List.getElem?_set_self h.1]
    · intro k hk
      simp only [List.get?_eq_getElem?]
      rw [List.getElem?_set_ne (Ne.symm hk)]

/-- C10, applied to a store with one live item: removing id `5` fails and leaves
the store as it was, removing id `0` succeeds and pushes `0` on the free-id stack. -/
theorem C10_remove_fails_or_frees_slot_witness :
    ((run empty [Call.Create { type := LootType.KEY, value := 1 } { x := 0, y := 0 }]).Remove 5).2 =
      run empty [Call.Create { type := LootType.KEY, value := 1 } { x := 0, y := 0 }] ∧
    ((run empty [Call.Create { type := LootType.KEY, value := 1 } { x := 0, y := 0 }]).Remove 0).2.free_ids_ =
      (run empty [Call.Create { type := LootType.KEY, value := 1 } { x := 0, y := 0 }]).free_ids_ ++ [0] :=
  ⟨(C10_remove_fails_or_frees_slot _ 5).2.1
      ((C10_remove_fails_or_frees_slot _ 5).1.mpr (Or.inl (by decide))),
    ((C10_remove_fails_or_frees_slot _ 0).2.2 (by decide!)).2.2.2.2⟩

end model.LootStore

/-! ## The loot arena: live count and restore -/

namespace model.LootStore

theorem has_value_append_left (l : List (Option LootItem)) (x : Option LootItem)
    (f g : List Nat) (k : Nat) (h : k < l.length) :
    has_value { items_ := l ++ [x], free_ids_ := f } k =
      has_value { items_ := l, free_ids_ := g } k := by
  unfold has_value
  simp only [List.get?_eq_getElem?]
  rw [List.getElem?_append_left h]

theorem has_value_lt (s : LootStore) (k : Nat) (h : s.has_value k = true) :
    k < s.items_.length := by
  unfold has_value at h
  by_contra hc
  rw [List.get?_eq_none.mpr (Nat.le_of_not_lt hc)] at h
  simp at h

/-- The live items are as many as the slots that hold a value, and the empty slots
are the rest. -/
theorem length_filter_has_value (l : List (Option LootItem)) (f : List Nat) :
    ((List.range l.length).filter
        (fun k => has_value { items_ := l, free_ids_ := f } k)).length =
      (l.filterMap id).length ∧
    ((List.range l.length).filter
        (fun k => !has_value { items_ := l, free_ids_ := f } k)).length +
      (l.filterMap id).length = l.length := by
  induction l using List.reverseRecOn with
  | nil => simp
  | append_singleton l x ih =>
    have hsame : ∀ k ∈ List.range l.length,
        has_value { items_ := l ++ [x], free_ids_ := f } k =
          has_value { items_ := l, free_ids_ := f } k :=
      fun k hk => has_value_append_left l x f f k (List.mem_range.mp hk)
    have hlast : has_value { items_ := l ++ [x], free_ids_ := f } l.length = x.isSome := by
      unfold has_value
      simp only [List.get?_eq_getElem?]
      rw [List.getElem?_append_right (le_refl _)]
      cases x <;> simp
    have h1 : (List.range l.length).filter
        (fun k => has_value { items_ := l ++ [x], free_ids_ := f } k) =
        (List.range l.length).filter (fun k => has_value { items_ := l, free_ids_ := f } k) :=
      List.filter_congr hsame
    have h2 : (List.range l.length).filter
        (fun k => !has_value { items_ := l ++ [x], free_ids_ := f } k) =
        (List.range l.length).filter (fun k => !has_value { items_ := l, free_ids_ := f } k) :=
      List.filter_congr (fun k hk => by rw [hsame k hk])
    obtain ⟨ih1, ih2⟩ := ih
    rw [List.length_append, List.length_singleton, List.range_succ, List.filter_append,
      List.filter_append, h1, h2, List.filterMap_append, List.length_append, List.length_append,
      List.length_append, ih1]
    cases x with
    | none =>
      simp only [List.filter_singleton, hlast, Option.isSome_none, Bool.not_false,
        List.filterMap_cons, id, List.filterMap_nil, List.length_nil, List.length_singleton,
        cond_false, cond_true, Bool.false_eq_true, if_false, if_true]
      refine ⟨trivial, ?_⟩
      generalize ((List.range l.length).filter
        (fun k => !has_value { items_ := l, free_ids_ := f } k)).length = a at ih2 ⊢
      generalize (l.filterMap id).length = c at ih2 ⊢
      omega
    | some it =>
      simp only [List.filter_singleton, hlast, Option.isSome_some, Bool.not_true,
        List.filterMap_cons, id, List.filterMap_nil, List.length_nil, List.length_singleton,
        cond_false, cond_true, Bool.false_eq_true, if_false, if_true]
      refine ⟨trivial, ?_⟩
      generalize ((List.range l.length).filter
        (fun k => !has_value { items_ := l, free_ids_ := f } k)).length = a at ih2 ⊢
      generalize (l.filterMap id).length = c at ih2 ⊢
      omega

theorem Consistent.length_free_ids {s : LootStore} (h : s.Consistent) :
    s.free_ids_.length + s.GetAllItems.length = s.items_.length := by
  have hperm : s.free_ids_.Perm ((List.range s.items_.length).filter
      (fun k => !has_value { items_ := s.items_, free_ids_ := s.free_ids_ } k)) := by
    rw [List.perm_ext_iff_of_nodup h.1 ((List.nodup_range _).filter _)]
    intro k
    rw [h.2 k, List.mem_filter, List.mem_range]
    simp
  rw [hperm.length_eq]
  exact (length_filter_has_value s.items_ s.free_ids_).2

/-- In a consistent store with fewer than `2^64` slots the `size_t` subtraction of
`GetItemNumber` is the number of live items. -/
theorem Consistent.GetItemNumber_eq {s : LootStore} (h : s.Consistent)
    (hlen : s.items_.length < 2 ^ 64) : s.GetItemNumber = s.GetAllItems.length := by
  have hl := h.length_free_ids
  unfold GetItemNumber
  have h1 : s.free_ids_.length % 2 ^ 64 = s.free_ids_.length :=
    Nat.mod_eq_of_lt (by omega)
  rw [h1]
  have h2 : s.items_.length + 2 ^ 64 - s.free_ids_.length = s.GetAllItems.length + 2 ^ 64 := by
    omega
  rw [h2, Nat.add_mod_right]
  exact Nat.mod_eq_of_lt (by omega)

theorem has_value_set (l : List (Option LootItem)) (f g : List Nat) (id k : Nat)
    (v : Option LootItem) :
    has_value { items_ := l.set id v, free_ids_ := f } k =
      if k = id ∧ id < l.length then v.isSome
      else has_value { items_ := l, free_ids_ := g } k := by
  unfold has_value
  simp only [List.get?_eq_getElem?]
  by_cases hk : k = id
  · subst hk
    by_cases hlt : k < l.length
    · rw [List.getElem?_set_self hlt, if_pos ⟨rfl, hlt⟩]
      cases v <;> rfl
    · have hnot : ¬ (k = k ∧ k < l.length) := fun h => hlt h.2
      rw [if_neg hnot, List.getElem?_eq_none (by simpa using hlt),
        List.getElem?_eq_none (Nat.le_of_not_lt hlt)]
  · have hnot : ¬ (k = id ∧ id < l.length) := fun h => hk h.1
    rw [if_neg hnot, List.getElem?_set_ne (Ne.symm hk)]

theorem Consistent_empty : Consistent empty := by
  unfold Consistent empty
  simp

theorem Consistent_Clear (s : LootStore) : Consistent s.Clear := Consistent_empty

/-- `FinalizeAfterRestore` makes any store consistent. -/
theorem Consistent_FinalizeAfterRestore (s : LootStore) : Consistent s.FinalizeAfterRestore := by
  unfold Consistent FinalizeAfterRestore
  refine ⟨(List.nodup_range _).filter _, ?_⟩
  intro k
  simp only [List.mem_filter, List.mem_range, Bool.not_eq_true']
  rfl

theorem Consistent_Create (s : LootStore) (h : s.Consistent) (info : LootInfo)
    (coord : pos.Coordinate) : Consistent (s.Create info coord).2 := by
  obtain ⟨hnd, hmem⟩ := h
  cases hlast : s.free_ids_.getLast? with
  | none =>
    have hnil : s.free_ids_ = [] := List.getLast?_eq_none_iff.mp hlast
    have hstep : (s.Create info coord).2 =
        { items_ := s.items_ ++ [some { id := s.items_.length % 2 ^ 32, info := info,
                                        coordinate := coord, width := 0 }],
          free_ids_ := [] } := by
      unfold Create
      rw [hlast, hnil]
    rw [hstep]
    refine ⟨List.nodup_nil, ?_⟩
    intro k
    simp only [List.not_mem_nil, false_iff, not_and, List.length_append, List.length_singleton,
      Bool.not_eq_false]
    intro hk
    by_cases hlt : k < s.items_.length
    · rw [has_value_append_left _ _ _ s.free_ids_ k hlt]
      cases hv : has_value { items_ := s.items_, free_ids_ := s.free_ids_ } k
      · have := (hmem k).mpr ⟨hlt, hv⟩
        rw [hnil] at this
        exact absurd this (List.not_mem_nil _)
      · rfl
    · have hk2 : k = s.items_.length := by omega
      subst hk2
      unfold has_value
      simp
  | some id =>
    have hsplit : s.free_ids_ = s.free_ids_.dropLast ++ [id] :=
      (List.dropLast_append_getLast? id hlast).symm
    have hidmem : id ∈ s.free_ids_ := by
      rw [hsplit]
      simp
    obtain ⟨hidlt, _⟩ := (hmem id).mp hidmem
    have hnd2 : (s.free_ids_.dropLast ++ [id]).Nodup := by rw [← hsplit]; exact hnd
    have hnotin : id ∉ s.free_ids_.dropLast := by
      intro hc
      have := List.disjoint_of_nodup_append hnd2 hc
      exact this (List.mem_singleton.mpr rfl)
    have hstep : (s.Create info coord).2 =
        { items_ := s.items_.set id (some { id := id, info := info, coordinate := coord,
                                            width := 0 }),
          free_ids_ := s.free_ids_.dropLast } := by
      unfold Create
      rw [hlast]
    rw [hstep]
    refine ⟨(List.nodup_append.mp hnd2).1, ?_⟩
    intro k
    simp only [List.length_set]
    rw [has_value_set _ _ s.free_ids_]
    constructor
    · intro hk
      have hkne : k ≠ id := fun hc => hnotin (hc ▸ hk)
      have hk2 : k ∈ s.free_ids_ := by
        rw [hsplit]
        exact List.mem_append_left _ hk
      have hnot : ¬ (k = id ∧ id < s.items_.length) := fun hc => hkne hc.1
      rw [if_neg hnot]
      exact (hmem k).mp hk2
    · rintro ⟨hk1, hk2⟩
      by_cases hkid : k = id
      · rw [if_pos ⟨hkid, hidlt⟩] at hk2
        simp at hk2
      · have hnot : ¬ (k = id ∧ id < s.items_.length) := fun hc => hkid hc.1
        rw [if_neg hnot] at hk2
        have hk3 := (hmem k).mpr ⟨hk1, hk2⟩
        rw [hsplit] at hk3
        rcases List.mem_append.mp hk3 with h1 | h1
        · exact h1
        · exact absurd (List.mem_singleton.mp h1) hkid

theorem Consistent_Remove (s : LootStore) (h : s.Consistent) (id : Nat) :
    Consistent (s.Remove id).2 := by
  by_cases hfail : id ≥ s.items_.length ∨ s.items_.get? id = some none
  · have := (Remove_fails_iff s id).mpr hfail
    unfold Remove at this ⊢
    split
    · exact h
    · rename_i hc
      rw [if_neg hc] at this
      simp at this
  · rw [Remove_ok s id hfail]
    push_neg at hfail
    obtain ⟨hnd, hmem⟩ := h
    have hv : s.has_value id = true := by
      cases hb : s.has_value id
      · exact absurd ((has_value_eq_false_iff s id hfail.1).mp hb) hfail.2
      · rfl
    have hnotin : id ∉ s.free_ids_ := by
      intro hc
      have := ((hmem id).mp hc).2
      rw [hv] at this
      exact Bool.noConfusion this
    refine ⟨?_, ?_⟩
    · exact List.Nodup.append hnd (List.nodup_singleton _)
        (by
          intro a ha hb
          rw [List.mem_singleton.mp hb] at ha
          exact hnotin ha)
    · intro k
      simp only [List.length_set, List.mem_append, List.mem_singleton]
      rw [has_value_set _ _ s.free_ids_]
      by_cases hkid : k = id
      · rw [if_pos ⟨hkid, hfail.1⟩]
        subst hkid
        simp [hfail.1]
      · have hnot : ¬ (k = id ∧ id < s.items_.length) := fun hc => hkid hc.1
        rw [if_neg hnot]
        constructor
        · rintro (h1 | h1)
          · exact (hmem k).mp h1
          · exact absurd h1 hkid
        · intro h1
          exact Or.inl ((hmem k).mpr h1)

/-- Once no `RestoreItem` is left without its `FinalizeAfterRestore` (or `Clear`),
the store is consistent. -/
theorem Consistent_run_ops (ops : List Op) :
    ∀ (s : LootStore) (pending : Bool), (pending = false → s.Consistent) →
      restore_pending pending ops = false → (run_ops s ops).Consistent := by
  induction ops with
  | nil =>
    intro s pending hs hp
    exact hs hp
  | cons op ops ih =>
    intro s pending hs hp
    have hrun : run_ops s (op :: ops) = run_ops (s.apply op) ops := rfl
    rw [hrun]
    cases op with
    | Create info coord =>
      exact ih _ pending (fun h => Consistent_Create s (hs h) info coord) hp
    | Remove id =>
      exact ih _ pending (fun h => Consistent_Remove s (hs h) id) hp
    | Clear =>
      exact ih _ false (fun _ => Consistent_Clear s) hp
    | RestoreItem id info coord width =>
      exact ih _ true (fun h => Bool.noConfusion h) hp
    | FinalizeAfterRestore =>
      exact ih _ false (fun _ => Consistent_FinalizeAfterRestore s) hp

/-- C11 (as stated) fails: after `RestoreItem(2, ...)` on the empty store the array
has three slots and no free id, so `GetItemNumber()` is `3` while one item is live. -/
theorem C11_counterexample :
    (run_ops empty [Op.RestoreItem 2 { type := LootType.KEY, value := 1 }
        { x := 0, y := 0 } 0]).GetItemNumber = 3 ∧
    (run_ops empty [Op.RestoreItem 2 { type := LootType.KEY, value := 1 }
        { x := 0, y := 0 } 0]).GetAllItems.length = 1 := by
  decide!

/-- C11 (amended): in every state reached from the empty store by a sequence of
`Create`, `Remove`, `Clear`, `RestoreItem` and `FinalizeAfterRestore` calls in which
no `RestoreItem` is left without a later `FinalizeAfterRestore` (or `Clear`), every
restored id is below `2^32 − 1` (where `id + 1` does not wrap around in `uint32_t`
and the source is defined), and whose array has fewer than `2^64` slots (the range
of `size_t`), `GetItemNumber()` equals the number of live items, the length of
`GetAllItems()`. -/
theorem C11_item_number_is_live_count (ops : List Op)
    (hsettled : restore_pending false ops = false)
    (_hids : restore_ids_in_range ops = true)
    (hlen : (run_ops empty ops).items_.length < 2 ^ 64) :
    (run_ops empty ops).GetItemNumber = (run_ops empty ops).GetAllItems.length :=
  (Consistent_run_ops ops empty false (fun _ => Consistent_empty) hsettled).GetItemNumber_eq hlen

/-- C11 (amended), applied to "restore id 2, finalize, create, remove 1". -/
theorem C11_item_number_is_live_count_witness :
    (run_ops empty [Op.RestoreItem 2 { type := LootType.KEY, value := 1 } { x := 0, y := 0 } 0,
        Op.FinalizeAfterRestore,
        Op.Create { type := LootType.WALLET, value := 2 } { x := 1, y := 1 },
        Op.Remove 1]).GetItemNumber =
      (run_ops empty [Op.RestoreItem 2 { type := LootType.KEY, value := 1 } { x := 0, y := 0 } 0,
        Op.FinalizeAfterRestore,
        Op.Create { type := LootType.WALLET, value := 2 } { x := 1, y := 1 },
        Op.Remove 1]).GetAllItems.length :=
  C11_item_number_is_live_count _ (by decide) (by decide) (by decide!)

theorem resize_of_le (items : List (Option LootItem)) (n : Nat) (h : items.length ≤ n) :
    resize items n = items ++ List.replicate (n - items.length) none := by
  unfold resize
  rw [List.take_of_length_le h]

/-- For an id below `2^32 − 1` the array grows to `id + 1` slots when it is shorter. -/
theorem RestoreItem_of_lt (s : LootStore) (id : Nat) (info : LootInfo)
    (coord : pos.Coordinate) (width : ℚ) (h : id + 1 < 2 ^ 32) :
    s.RestoreItem id info coord width =
      ({ id := id, info := info, coordinate := coord, width := width },
       { items_ := (if id ≥ s.items_.length then
            s.items_ ++ List.replicate (id + 1 - s.items_.length) none
          else s.items_).set id
            (some { id := id, info := info, coordinate := coord, width := width }),
         free_ids_ := s.free_ids_ }) := by
  unfold RestoreItem
  simp only [Nat.mod_eq_of_lt h]
  by_cases hge : id ≥ s.items_.length
  · rw [if_pos hge, if_pos hge, resize_of_le _ _ (by omega)]
  · rw [if_neg hge, if_neg hge]

theorem has_value_RestoreItem (s : LootStore) (id : Nat) (info : LootInfo)
    (coord : pos.Coordinate) (width : ℚ) (k : Nat) (h32 : id + 1 < 2 ^ 32) :
    (s.RestoreItem id info coord width).2.has_value k = true ↔
      (k = id ∨ s.has_value k = true) := by
  rw [RestoreItem_of_lt s id info coord width h32]
  simp only []
  rw [has_value_set _ _ s.free_ids_]
  by_cases hk : k = id
  · subst hk
    have hlt : k < (if k ≥ s.items_.length then
        s.items_ ++ List.replicate (k + 1 - s.items_.length) none else s.items_).length := by
      split
      · rw [List.length_append, List.length_replicate]; omega
      · omega
    rw [if_pos ⟨rfl, hlt⟩]
    simp
  · have hnot : ∀ n : Nat, ¬ (k = id ∧ id < n) := fun n hc => hk hc.1
    rw [if_neg (hnot _)]
    simp only [hk, false_or]
    by_cases hge : id ≥ s.items_.length
    · rw [if_pos hge]
      unfold has_value
      simp only [List.get?_eq_getElem?]
      by_cases hlt : k < s.items_.length
      · rw [List.getElem?_append_left hlt]
      · rw [List.getElem?_append_right (Nat.le_of_not_lt hlt),
          List.getElem?_eq_none (Nat.le_of_not_lt hlt)]
        rw [List.getElem?_replicate]
        by_cases hc : k - s.items_.length < id + 1 - s.items_.length
        · rw [if_pos hc]
        · rw [if_neg hc]
    · rw [if_neg hge]

theorem length_RestoreItem (s : LootStore) (id : Nat) (info : LootInfo)
    (coord : pos.Coordinate) (width : ℚ) (h32 : id + 1 < 2 ^ 32) :
    (s.RestoreItem id info coord width).2.items_.length = max s.items_.length (id + 1) := by
  rw [RestoreItem_of_lt s id info coord width h32]
  simp only [List.length_set]
  split
  · rw [List.length_append, List.length_replicate]; omega
  · omega

theorem restore_all_spec (restores : List (Nat × LootInfo × pos.Coordinate × ℚ)) :
    ∀ (s : LootStore) (bound : Nat), s.items_.length ≤ bound →
      (∀ r ∈ restores, r.1 + 1 ≤ bound) → (∀ r ∈ restores, r.1 + 1 < 2 ^ 32) →
      (restore_all s restores).items_.length ≤ bound ∧
      ∀ k, (restore_all s restores).has_value k = true ↔
        (s.has_value k = true ∨ k ∈ restores.map (fun r => r.1)) := by
  induction restores with
  | nil =>
    intro s bound hs _ _
    exact ⟨hs, fun k => by simp [restore_all, run_ops]⟩
  | cons r rest ih =>
    intro s bound hs hr h32
    have hr32 := h32 r (List.mem_cons_self _ _)
    have hrun : restore_all s (r :: rest) =
        restore_all (s.RestoreItem r.1 r.2.1 r.2.2.1 r.2.2.2).2 rest := rfl
    rw [hrun]
    have hlen : (s.RestoreItem r.1 r.2.1 r.2.2.1 r.2.2.2).2.items_.length ≤ bound := by
      rw [length_RestoreItem _ _ _ _ _ hr32]
      exact max_le hs (hr r (List.mem_cons_self _ _))
    obtain ⟨h1, h2⟩ := ih _ bound hlen (fun x hx => hr x (List.mem_cons_of_mem _ hx))
      (fun x hx => h32 x (List.mem_cons_of_mem _ hx))
    refine ⟨h1, ?_⟩
    intro k
    rw [h2 k, has_value_RestoreItem _ _ _ _ _ _ hr32]
    simp only [List.map_cons, List.mem_cons]
    tauto

theorem Consistent_run (calls : List Call) :
    ∀ s : LootStore, s.Consistent → (run s calls).Consistent := by
  induction calls with
  | nil => intro s hs; exact hs
  | cons c calls ih =>
    intro s hs
    have hrun : run s (c :: calls) = run (s.step c) calls := rfl
    rw [hrun]
    cases c with
    | Create info coord => exact ih _ (Consistent_Create s hs info coord)
    | Remove id => exact ih _ (Consistent_Remove s hs id)

theorem GetItem_eq_none_iff (s : LootStore) (k : Nat) :
    s.GetItem k = none ↔ s.has_value k = false := by
  unfold GetItem has_value
  cases s.items_.get? k with
  | none => simp
  | some v => cases v <;> simp

/-- In a consistent store with fewer than `2^32` slots `Create` uses a slot that
holds no item and leaves every other slot as it was. -/
theorem Consistent.Create_fresh {s : LootStore} (h : s.Consistent)
    (hlen : s.items_.length < 2 ^ 32) (info : LootInfo) (coord : pos.Coordinate) :
    s.GetItem (s.Create info coord).1.id = none ∧
    ∀ k, k ≠ (s.Create info coord).1.id → (s.Create info coord).2.GetItem k = s.GetItem k := by
  cases hlast : s.free_ids_.getLast? with
  | none =>
    have hid : (s.Create info coord).1.id = s.items_.length := by
      rw [Create_id, hlast]
      exact Nat.mod_eq_of_lt hlen
    have hstep : (s.Create info coord).2.items_ =
        s.items_ ++ [some (s.Create info coord).1] := by
      unfold Create
      rw [hlast]
    rw [hid]
    constructor
    · unfold GetItem
      rw [List.get?_eq_none.mpr (le_refl _)]
    · intro k hk
      unfold GetItem
      rw [hstep]
      simp only [List.get?_eq_getElem?]
      by_cases hlt : k < s.items_.length
      · rw [List.getElem?_append_left hlt]
      · have hgt : s.items_.length < k := by omega
        rw [List.getElem?_eq_none (by simp; omega), List.getElem?_eq_none (by omega)]
  | some id =>
    have hid : (s.Create info coord).1.id = id := by
      rw [Create_id, hlast]
    have hstep : (s.Create info coord).2.items_ =
        s.items_.set id (some (s.Create info coord).1) := by
      unfold Create
      rw [hlast]
    have hmem : id ∈ s.free_ids_ := by
      rw [← List.dropLast_append_getLast? id hlast]
      simp
    rw [hid]
    constructor
    · exact (GetItem_eq_none_iff s id).mpr ((h.2 id).mp hmem).2
    · intro k hk
      unfold GetItem
      rw [hstep]
      simp only [List.get?_eq_getElem?]
      rw [List.getElem?_set_ne (Ne.symm hk)]

/-- C12: for every store, `FinalizeAfterRestore()` leaves all slots unchanged and
makes the free-id list hold exactly the ids of the empty slots below the array
length, each once; so after `Clear`, any sequence of `RestoreItem` calls (ids below
`2^32 − 1`) and one `FinalizeAfterRestore`, `GetItemNumber()` is the number of
distinct restored ids, and every later `Create` (after any `Create`/`Remove` calls,
while the array has fewer than `2^32` slots) returns an id whose slot held no item
and leaves every other slot as it was. -/
theorem C12_finalize_rebuilds_free_list (s : LootStore)
    (restores : List (Nat × LootInfo × pos.Coordinate × ℚ)) (calls : List Call)
    (info : LootInfo) (coord : pos.Coordinate) :
    (s.FinalizeAfterRestore.items_ = s.items_ ∧ s.FinalizeAfterRestore.free_ids_.Nodup ∧
      ∀ k, k ∈ s.FinalizeAfterRestore.free_ids_ ↔
        (k < s.items_.length ∧ s.items_.get? k = some none)) ∧
    ((∀ r ∈ restores, r.1 + 1 < 2 ^ 32) →
      (restore_all s.Clear restores).FinalizeAfterRestore.GetItemNumber =
        ((restores.map (fun r => r.1)).dedup).length ∧
      ((run (restore_all s.Clear restores).FinalizeAfterRestore calls).items_.length < 2 ^ 32 →
        (run (restore_all s.Clear restores).FinalizeAfterRestore calls).GetItem
            ((run (restore_all s.Clear restores).FinalizeAfterRestore calls).Create
              info coord).1.id = none ∧
        ∀ k, k ≠ ((run (restore_all s.Clear restores).FinalizeAfterRestore calls).Create
              info coord).1.id →
          ((run (restore_all s.Clear restores).FinalizeAfterRestore calls).Create
              info coord).2.GetItem k =
            (run (restore_all s.Clear restores).FinalizeAfterRestore calls).GetItem k)) := by
  constructor
  · have hc := Consistent_FinalizeAfterRestore s
    refine ⟨rfl, hc.1, ?_⟩
    intro k
    rw [hc.2 k]
    constructor
    · rintro ⟨h1, h2⟩
      exact ⟨h1, (has_value_eq_false_iff s k h1).mp h2⟩
    · rintro ⟨h1, h2⟩
      exact ⟨h1, (has_value_eq_false_iff s k h1).mpr h2⟩
  · intro hids
    have hcons := Consistent_FinalizeAfterRestore (restore_all s.Clear restores)
    obtain ⟨hlen, hval⟩ := restore_all_spec restores s.Clear (2 ^ 32) (by simp [Clear])
      (fun r hr => le_of_lt (hids r hr)) hids
    constructor
    · have hlen64 : (restore_all s.Clear restores).FinalizeAfterRestore.items_.length < 2 ^ 64 :=
        lt_of_le_of_lt hlen (by norm_num)
      rw [hcons.GetItemNumber_eq hlen64]
      have hall : (restore_all s.Clear restores).FinalizeAfterRestore.GetAllItems.length =
          ((List.range (restore_all s.Clear restores).items_.length).filter
            (fun k => has_value { items_ := (restore_all s.Clear restores).items_,
                                  free_ids_ := [] } k)).length :=
        (length_filter_has_value _ _).1.symm
      rw [hall]
      apply List.Perm.length_eq
      rw [List.perm_ext_iff_of_nodup ((List.nodup_range _).filter _) (List.nodup_dedup _)]
      intro k
      rw [List.mem_filter, List.mem_dedup, List.mem_range]
      have hk := hval k
      have hclear : s.Clear.has_value k = false := by simp [Clear, has_value]
      rw [hclear] at hk
      constructor
      · rintro ⟨_, h2⟩
        have := hk.mp h2
        simpa using this
      · intro h2
        have h3 : (restore_all s.Clear restores).has_value k = true := hk.mpr (Or.inr h2)
        exact ⟨has_value_lt _ k h3, h3⟩
    · intro hlen2
      exact (Consistent_run calls _ hcons).Create_fresh hlen2 info coord

/-- C12, applied to "clear, restore ids 3 and 1 and 3 again, finalize" followed by
one `Create`. -/
theorem C12_finalize_rebuilds_free_list_witness :
    (restore_all empty.Clear
        [(3, { type := LootType.KEY, value := 1 }, { x := 0, y := 0 }, 0),
         (1, { type := LootType.KEY, value := 1 }, { x := 1, y := 0 }, 0),
         (3, { type := LootType.WALLET, value := 2 }, { x := 2, y := 0 }, 0)]).FinalizeAfterRestore.GetItemNumber =
      (([(3, { type := LootType.KEY, value := 1 }, { x := 0, y := 0 }, 0),
         (1, { type := LootType.KEY, value := 1 }, { x := 1, y := 0 }, 0),
         (3, { type := LootType.WALLET, value := 2 }, { x := 2, y := 0 }, 0)] :
         List (Nat × LootInfo × pos.Coordinate × ℚ)).map (fun r => r.1)).dedup.length ∧
    (run (restore_all empty.Clear
        [(3, { type := LootType.KEY, value := 1 }, { x := 0, y := 0 }, 0),
         (1, { type := LootType.KEY, value := 1 }, { x := 1, y := 0 }, 0),
         (3, { type := LootType.WALLET, value := 2 }, { x := 2, y := 0 }, 0)]).FinalizeAfterRestore
        []).GetItem
      ((run (restore_all empty.Clear
        [(3, { type := LootType.KEY, value := 1 }, { x := 0, y := 0 }, 0),
         (1, { type := LootType.KEY, value := 1 }, { x := 1, y := 0 }, 0),
         (3, { type := LootType.WALLET, value := 2 }, { x := 2, y := 0 }, 0)]).FinalizeAfterRestore
        []).Create { type := LootType.KEY, value := 5 } { x := 9, y := 9 }).1.id = none :=
  ⟨((C12_finalize_rebuilds_free_list empty _ [] { type := LootType.KEY, value := 5 }
      { x := 9, y := 9 }).2 (by decide)).1,
    (((C12_finalize_rebuilds_free_list empty _ [] { type := LootType.KEY, value := 5 }
      { x := 9, y := 9 }).2 (by decide)).2 (by decide!)).1⟩

end model.LootStore

/-! ## Dogs and their bags -/

namespace model.Dog

theorem int32_of_range (z : Int) (h : -(2 ^ 31) ≤ z ∧ z < 2 ^ 31) : int32 z = z := by
  unfold int32
  omega

theorem foldl_AddScore (items : List (Nat × LootInfo)) :
    ∀ d : Dog, deposit_in_range d.score_ items →
      items.foldl (fun dog item => dog.AddScore item.2.value) d =
        { d with score_ := d.score_ + (items.map (fun item => item.2.value)).sum } := by
  induction items with
  | nil => intro d _; simp
  | cons it items ih =>
    intro d h
    unfold deposit_in_range at h
    have hstep : (d.AddScore it.2.value).score_ = d.score_ + it.2.value := by
      unfold AddScore
      exact int32_of_range _ h.1
    rw [List.foldl_cons, ih _ (by rw [hstep]; exact h.2), hstep]
    simp only [AddScore, List.map_cons, List.sum_cons, add_assoc]

theorem ClearItems_eq (d : Dog) (h : deposit_in_range d.score_ d.collected_items_) :
    d.ClearItems =
      { d with collected_items_ := [],
               score_ := d.score_ + (d.collected_items_.map (fun item => item.2.value)).sum } := by
  unfold ClearItems
  rw [foldl_AddScore _ _ h]

theorem ClearItems_bag (d : Dog) : d.ClearItems.collected_items_ = [] := rfl

theorem ClearItems_of_empty (d : Dog) (h : d.collected_items_ = []) : d.ClearItems = d := by
  unfold ClearItems
  rw [h]
  cases d
  simp_all

end model.Dog

namespace model.GameSession

theorem FindDog_ModifyDog_self (dogs : List (Int × Dog)) (id : Int) (f : Dog → Dog) :
    FindDog (ModifyDog dogs id f) id = (FindDog dogs id).map f := by
  induction dogs with
  | nil => rfl
  | cons p rest ih =>
    unfold ModifyDog
    by_cases h : p.1 = id
    · rw [if_pos h]
      simp [FindDog, List.find?_cons, h]
    · rw [if_neg h]
      have hb : (p.1 == id) = false := by simpa using h
      unfold FindDog at ih ⊢
      rw [List.find?_cons, hb, List.find?_cons, hb]
      exact ih

theorem FindDog_ModifyDog_ne (dogs : List (Int × Dog)) (id k : Int) (f : Dog → Dog)
    (hk : k ≠ id) : FindDog (ModifyDog dogs id f) k = FindDog dogs k := by
  induction dogs with
  | nil => rfl
  | cons p rest ih =>
    unfold ModifyDog
    by_cases h : p.1 = id
    · rw [if_pos h]
      have hb : (p.1 == k) = false := by
        rw [h]
        simpa using Ne.symm hk
      unfold FindDog
      rw [List.find?_cons, List.find?_cons]
      simp only [hb]
    · rw [if_neg h]
      unfold FindDog at ih ⊢
      rw [List.find?_cons, List.find?_cons]
      cases hb : (p.1 == k)
      · exact ih
      · rfl

theorem length_ModifyDog (dogs : List (Int × Dog)) (id : Int) (f : Dog → Dog) :
    (ModifyDog dogs id f).length = dogs.length := by
  induction dogs with
  | nil => rfl
  | cons p rest ih =>
    unfold ModifyDog
    by_cases h : p.1 = id
    · rw [if_pos h]; rfl
    · rw [if_neg h, List.length_cons, List.length_cons, ih]

/-- C16: for every dog with bag `b` and score `s`, `Dog::ClearItems` leaves the bag
empty and, when no partial sum leaves the range of the 32-bit `int` score, the
score equal to `s` plus the sum of the values of the items of `b`; the dog is
unchanged when `b` is empty; and applying an office event in the event loop turns
the gathering dog into its `ClearItems` and changes no other dog, nor the loot
arena, nor the set of picked items. -/
theorem C16_office_event_deposits_bag (d : Dog) (s : GameSession) (picked : List Nat)
    (event : collision_detector.GatheringEvent) :
    (d.ClearItems.collected_items_ = [] ∧
      (Dog.deposit_in_range d.score_ d.collected_items_ →
        d.ClearItems.score_ =
          d.score_ + (d.collected_items_.map (fun item => item.2.value)).sum) ∧
      (d.collected_items_ = [] → d.ClearItems = d)) ∧
    (event.item_type = "office" →
      FindDog (ProcessEvent (s, picked) event).1.dogs_ (to_int32 event.gatherer_id) =
        (FindDog s.dogs_ (to_int32 event.gatherer_id)).map Dog.ClearItems ∧
      (∀ k, k ≠ to_int32 event.gatherer_id →
        FindDog (ProcessEvent (s, picked) event).1.dogs_ k = FindDog s.dogs_ k) ∧
      (ProcessEvent (s, picked) event).1.dogs_.length = s.dogs_.length ∧
      (ProcessEvent (s, picked) event).1.loot_store_ = s.loot_store_ ∧
      (ProcessEvent (s, picked) event).2 = picked) := by
  constructor
  · refine ⟨Dog.ClearItems_bag d, ?_, Dog.ClearItems_of_empty d⟩
    intro h
    rw [Dog.ClearItems_eq d h]
  · intro hoff
    have hstep : ProcessEvent (s, picked) event =
        (match FindDog s.dogs_ (to_int32 event.gatherer_id) with
         | none => (s, picked)
         | some _ => ({ s with dogs_ := ModifyDog s.dogs_ (to_int32 event.gatherer_id)
                                          Dog.ClearItems }, picked)) := by
      unfold ProcessEvent
      simp only [hoff, if_true]
    rw [hstep]
    cases hf : FindDog s.dogs_ (to_int32 event.gatherer_id) with
    | none =>
      exact ⟨hf, fun _ _ => rfl, rfl, rfl, rfl⟩
    | some dog =>
      refine ⟨?_, ?_, length_ModifyDog _ _ _, rfl, rfl⟩
      · show FindDog (ModifyDog s.dogs_ (to_int32 event.gatherer_id) Dog.ClearItems) _ = _
        rw [FindDog_ModifyDog_self, hf]
      · intro k hk
        exact FindDog_ModifyDog_ne _ _ _ _ hk

/-- C16, applied to a dog holding two items worth `5` and `7` and to the office
event of that dog in a session of two dogs. -/
theorem C16_office_event_deposits_bag_witness :
    ({ name_ := "a", id_ := 1,
       pos_ := { coordinates_ := { x := 0, y := 0 }, velocity_ := { vx := 0, vy := 0 },
                 direction_ := pos.Direction.NORTH },
       collected_items_ := [(0, { type := LootType.KEY, value := 5 }),
                            (1, { type := LootType.WALLET, value := 7 })],
       bag_capacity_ := 3, pickup_length_ := 3 / 5, score_ := 10 } : Dog).ClearItems.score_ =
      10 + ([(0, ({ type := LootType.KEY, value := 5 } : LootInfo)),
             (1, { type := LootType.WALLET, value := 7 })].map
              (fun item => item.2.value)).sum ∧
    (ProcessEvent (GameSession.mk Map.empty
          [(1, Dog.new "a" 1 { x := 0, y := 0 } 3), (2, Dog.new "b" 2 { x := 0, y := 0 } 3)]
          false LootStore.empty 0, [])
        { item_type := "office", item_id := 0, gatherer_id := 1, sq_distance := 0,
          time := 1 / 2 }).1.loot_store_ = LootStore.empty :=
  ⟨(C16_office_event_deposits_bag _ (GameSession.mk Map.empty [] false LootStore.empty 0) []
      { item_type := "office", item_id := 0, gatherer_id := 1, sq_distance := 0,
        time := 1 / 2 }).1.2.1 (by decide),
    ((C16_office_event_deposits_bag (Dog.new "a" 1 { x := 0, y := 0 } 3) _ []
      { item_type := "office", item_id := 0, gatherer_id := 1, sq_distance := 0,
        time := 1 / 2 }).2 rfl).2.2.2.1⟩

/-- C17 at the failing input: a dog constructed with bag capacity `−1` accepts an
item (`AddItem` returns true, the capacity being compared after conversion to
`size_t`), and then holds one item, more than its capacity. -/
theorem C17_negative_capacity_accepts_items :
    ((Dog.new "a" 1 { x := 0, y := 0 } (-1)).AddItem
      { id := 0, info := { type := LootType.KEY, value := 5 },
        coordinate := { x := 0, y := 0 }, width := 0 }).1 = true ∧
    (((Dog.new "a" 1 { x := 0, y := 0 } (-1)).AddItem
      { id := 0, info := { type := LootType.KEY, value := 5 },
        coordinate := { x := 0, y := 0 }, width := 0 }).2.collected_items_.length : Int) >
      ((Dog.new "a" 1 { x := 0, y := 0 } (-1)).AddItem
        { id := 0, info := { type := LootType.KEY, value := 5 },
          coordinate := { x := 0, y := 0 }, width := 0 }).2.bag_capacity_ := by
  decide!

/-- C13 at the failing input: a dog standing on the end `x = 10.4` of the corridor
of the road from `(0,0)` to `(10,0)` with velocity `(1,0)`; after a tick of one
second the clamp has answered `(10.4, 0)` instead of the target `(11.4, 0)`, and
the dog still has velocity `(1,0)`. -/
theorem C13_blocked_dog_keeps_velocity :
    RestrictMovementToRoads (Map.ConstructMapFromConfig [Road.HORIZONTAL { x := 0, y := 0 } 10])
        { x := 52 / 5, y := 0 } { x := 52 / 5 + 1 * (1000 / 1000), y := 0 + 0 * (1000 / 1000) } ≠
      { x := 52 / 5 + 1 * (1000 / 1000), y := 0 + 0 * (1000 / 1000) } ∧
    ((GameSession.mk (Map.ConstructMapFromConfig [Road.HORIZONTAL { x := 0, y := 0 } 10])
        [(1, (Dog.new "a" 1 { x := 52 / 5, y := 0 } 3).SetVelocity { vx := 1, vy := 0 })]
        false LootStore.empty 0).Tick 1000 (fun _ _ _ => 0) 0 0 []).1.dogs_.map
        (fun p => p.2.pos_.velocity_) = [{ vx := 1, vy := 0 }] := by
  decide!

/-- C20 at the failing input: on a map with one road and an empty loot-type
catalog, a generator count of `1` makes `SpawnLoot` create an item of type
`UNKNOWN` and index it under its cell. -/
theorem C20_empty_catalog_still_spawns :
    (GameSession.mk (Map.ConstructMapFromConfig [Road.HORIZONTAL { x := 0, y := 0 } 10])
        [] false LootStore.empty 0).map_.GetMaxCountLootTypes = 0 ∧
    ((GameSession.mk (Map.ConstructMapFromConfig [Road.HORIZONTAL { x := 0, y := 0 } 10])
        [] false LootStore.empty 0).SpawnLoot (fun _ _ _ => 1) 5 6 [0, 3]).1.loot_store_.GetAllItems =
      [{ id := 0, info := { type := LootType.UNKNOWN, value := 0 },
         coordinate := { x := 3, y := 0 }, width := 0 }] ∧
    ((GameSession.mk (Map.ConstructMapFromConfig [Road.HORIZONTAL { x := 0, y := 0 } 10])
        [] false LootStore.empty 0).SpawnLoot (fun _ _ _ => 1) 5 6 [0, 3]).1.map_.GetItemIdsInCell
        { x := 3, y := 0 } = [0] := by
  decide!

/-- C19: for every session and every id, `SpawnDog(name, id, capacity)` returns null
if and only if a dog with that id already exists, and then the dogs of the session
are unchanged; otherwise it adds exactly one dog, stored under that id, with that
id, name and capacity, velocity `(0, 0)`, score `0` and an empty bag, and leaves
all other dogs unchanged. -/
theorem C19_spawn_dog (s : GameSession) (dog_name : String) (id : Int) (bag_capacity : Int)
    (draws : List Int) :
    ((s.SpawnDog dog_name id bag_capacity draws).1 = none ↔ (s.GetDog id).isSome = true) ∧
    ((s.GetDog id).isSome = true →
      (s.SpawnDog dog_name id bag_capacity draws).2.1.dogs_ = s.dogs_) ∧
    (s.GetDog id = none →
      ∃ dog, (s.SpawnDog dog_name id bag_capacity draws).1 = some dog ∧
        (s.SpawnDog dog_name id bag_capacity draws).2.1.dogs_ = s.dogs_ ++ [(id, dog)] ∧
        (s.SpawnDog dog_name id bag_capacity draws).2.1.GetDogNumber = s.GetDogNumber + 1 ∧
        (s.SpawnDog dog_name id bag_capacity draws).2.1.GetDog id = some dog ∧
        dog.id_ = id ∧ dog.name_ = dog_name ∧ dog.bag_capacity_ = bag_capacity ∧
        dog.pos_.velocity_ = { vx := 0, vy := 0 } ∧ dog.score_ = 0 ∧
        dog.collected_items_ = [] ∧
        ∀ k, k ≠ id →
          (s.SpawnDog dog_name id bag_capacity draws).2.1.GetDog k = s.GetDog k) := by
  unfold SpawnDog GetDog
  cases hf : FindDog s.dogs_ id with
  | some d => simp
  | none =>
    simp only [Option.isSome_none, Bool.false_eq_true, iff_false, false_implies, true_and,
      forall_true_left]
    refine ⟨by simp, _, rfl, rfl, by simp [GetDogNumber], ?_, rfl, rfl, rfl, rfl, rfl, rfl, ?_⟩
    · unfold FindDog at hf ⊢
      rw [List.find?_append]
      cases hfind : List.find? (fun p => p.1 == id) s.dogs_ with
      | some p => rw [hfind] at hf; simp at hf
      | none => simp [Dog.new]
    · intro k hk
      unfold FindDog
      rw [List.find?_append]
      cases hfind : List.find? (fun p => p.1 == k) s.dogs_ with
      | some p => simp
      | none =>
        have hb : (id == k) = false := by simpa using Ne.symm hk
        simp [hb]

/-- C19, applied to a session holding a dog with id `1`: spawning id `1` again
returns null, spawning id `2` adds the second dog. -/
theorem C19_spawn_dog_witness :
    ((GameSession.mk Map.empty [(1, Dog.new "a" 1 { x := 0, y := 0 } 3)] false
        LootStore.empty 0).SpawnDog "b" 1 3 []).2.1.dogs_ =
      [(1, Dog.new "a" 1 { x := 0, y := 0 } 3)] ∧
    ∃ dog, ((GameSession.mk Map.empty [(1, Dog.new "a" 1 { x := 0, y := 0 } 3)] false
        LootStore.empty 0).SpawnDog "b" 2 3 []).1 = some dog :=
  ⟨(C19_spawn_dog (GameSession.mk Map.empty [(1, Dog.new "a" 1 { x := 0, y := 0 } 3)] false
      LootStore.empty 0) "b" 1 3 []).2.1 (by decide!),
    (fun h => ⟨h.choose, h.choose_spec.1⟩)
      ((C19_spawn_dog (GameSession.mk Map.empty [(1, Dog.new "a" 1 { x := 0, y := 0 } 3)] false
        LootStore.empty 0) "b" 2 3 []).2.2 (by decide!))⟩

/-! ## The tick: movement -/

/-- C15 at the failing input `contested_session`: the item is first reached by dog
`1`, whose bag is full, and later by dog `2`, whose bag has room; after the event
processing the item is still in the arena and in the cell index, and the bag of
dog `2` is still empty. -/
theorem C15_item_lost_to_full_bag :
    collision_detector.FindGatherEvents (collision_detector.LootPickupProvider
        (contested_session.GatherCandidates contested_gatherers) contested_gatherers) =
      [{ item_type := "loot", item_id := 0, gatherer_id := 1, sq_distance := 0, time := 1 / 2 },
       { item_type := "loot", item_id := 0, gatherer_id := 2, sq_distance := 0,
         time := double.fl (2 / 3) }] ∧
    (contested_session.GetDog 1).map (fun d => (d.collected_items_.length, d.bag_capacity_)) =
      some (1, 1) ∧
    (contested_session.GetDog 2).map (fun d => (d.collected_items_.length, d.bag_capacity_)) =
      some (0, 1) ∧
    (contested_session.LootEventProcessing contested_gatherers).loot_store_.GetItem 0 =
      some { id := 0, info := { type := LootType.KEY, value := 5 },
             coordinate := { x := 2, y := 0 }, width := 0 } ∧
    (contested_session.LootEventProcessing contested_gatherers).map_.GetItemIdsInCell
      { x := 2, y := 0 } = [0] ∧
    ((contested_session.LootEventProcessing contested_gatherers).GetDog 2).map
      (fun d => d.collected_items_) = some [] := by
  decide!

end model.GameSession

/-! ## Roads -/

namespace model

/-- C23 (as stated) fails: the road built by the horizontal constructor from `(0,0)`
to end coordinate `0` has zero length and is both horizontal and vertical. -/
theorem C23_counterexample :
    (Road.HORIZONTAL { x := 0, y := 0 } 0).IsHorizontal = true ∧
    (Road.HORIZONTAL { x := 0, y := 0 } 0).IsVertical = true := by
  decide

/-- C23 (amended): every road built by the horizontal or the vertical constructor is
horizontal or vertical, never neither: the horizontal constructor gives a horizontal
road, which is vertical as well exactly when its end coordinate equals the start's
`x` (zero length); the vertical constructor gives a vertical road, which is
horizontal as well exactly when its end coordinate equals the start's `y`. -/
theorem C23_constructed_road_has_an_axis (start : Point) (end_c : Int) :
    ((Road.HORIZONTAL start end_c).IsHorizontal = true ∧
      ((Road.HORIZONTAL start end_c).IsVertical = true ↔ end_c = start.x)) ∧
    ((Road.VERTICAL start end_c).IsVertical = true ∧
      ((Road.VERTICAL start end_c).IsHorizontal = true ↔ end_c = start.y)) := by
  unfold Road.HORIZONTAL Road.VERTICAL Road.IsHorizontal Road.IsVertical
  simp only [beq_self_eq_true, beq_iff_eq, true_and]
  exact ⟨eq_comm, eq_comm⟩

/-- C23 (amended), applied to the road from `(0,0)` to `(5,0)`: it is not vertical. -/
theorem C23_constructed_road_has_an_axis_witness :
    ¬ (Road.HORIZONTAL { x := 0, y := 0 } 5).IsVertical = true :=
  fun h => absurd ((C23_constructed_road_has_an_axis { x := 0, y := 0 } 5).1.2.mp h) (by decide)

end model

/-! ## The tick: gatherer segments -/

namespace model.GameSession

theorem MoveInTick_gatherer (map_ : Map) (dt : ℚ) (dog : Dog)
    (g : collision_detector.Gatherer) (h : (MoveInTick map_ dt dog).2 = some g) :
    g.start_pos ≠ g.end_pos := by
  unfold MoveInTick at h
  simp only [] at h
  generalize RestrictMovementToRoads map_ dog.pos_.coordinates_ _ = r at h
  split at h
  · simp at h
  · split at h
    · simp at h
    · rename_i hne
      have hse : g.start_pos = dog.pos_.coordinates_ ∧ g.end_pos = r := by
        split at h <;> simp at h <;> subst h <;> exact ⟨rfl, rfl⟩
      rw [hse.1, hse.2]
      intro hc
      apply hne
      rw [← hc]
      exact ⟨rfl, rfl⟩

/-- The square of a difference of at least `2^(-500)` in magnitude is computed as at
least `2^(-1000)`. -/
theorem square_ge (p q : ℚ) (h : double.pow2 (-500) ≤ |q - p|) :
    double.pow2 (-1000) ≤ double.mul (double.sub q p) (double.sub q p) := by
  have hp : (0 : ℚ) < double.pow2 (-500) := double.pow2_pos _
  have hsq : double.pow2 (-500) * double.pow2 (-500) = double.pow2 (-1000) := by decide!
  have hbig : double.pow2 (-500) ≤ |double.sub q p| := by
    unfold double.sub
    rcases le_or_lt 0 (q - p) with hd | hd
    · rw [abs_of_nonneg hd] at h
      have := double.le_fl_of_le (q - p) _ h (by decide!)
      rw [abs_of_nonneg (le_trans hp.le this)]
      exact this
    · rw [abs_of_neg hd] at h
      have h2 : q - p ≤ -double.pow2 (-500) := by linarith
      have := double.fl_le_of_le (q - p) _ h2 (by decide!)
      rw [abs_of_neg (by linarith)]
      linarith
  apply double.le_fl_of_le _ _ _ (by decide!)
  rw [← hsq, ← abs_mul_abs_self (double.sub q p)]
  exact mul_le_mul hbig hbig hp.le (le_trans hp.le hbig)

theorem square_nonneg (p q : ℚ) : 0 ≤ double.mul (double.sub q p) (double.sub q p) :=
  double.fl_nonneg _ (mul_self_nonneg _)

/-- The squared length of a segment that is at least `2^(-500)` long along an axis is
not computed as zero. -/
theorem double_len2_pos (a b : pos.Coordinate)
    (h : double.pow2 (-500) ≤ |b.x - a.x| ∨ double.pow2 (-500) ≤ |b.y - a.y|) :
    0 < collision_detector.double_len2 a b := by
  have hp : (0 : ℚ) < double.pow2 (-1000) := double.pow2_pos _
  unfold collision_detector.double_len2 double.add
  refine lt_of_lt_of_le hp (double.le_fl_of_le _ _ ?_ (by decide!))
  rcases h with h | h
  · have h1 := square_ge a.x b.x h
    have h2 := square_nonneg a.y b.y
    linarith
  · have h1 := square_ge a.y b.y h
    have h2 := square_nonneg a.x b.x
    linarith

/-- C25 as stated fails: a dog at `(0,0)` on the road from `(0,0)` to `(10,0)` with
velocity `(1e-170, 0)` moves in a tick of one second; its gatherer segment has
`start ≠ end`, and the squares in `|v|²` underflow to zero, so `TryCollectPoint`
divides by zero on it. -/
theorem C25_counterexample :
    ({ start_pos := { x := 0, y := 0 },
       end_pos := { x := double.fl (1 / ((10 ^ 170 : Nat) : ℚ)), y := 0 },
       width := 3 / 10, id := 1 } : collision_detector.Gatherer) ∈
      ((GameSession.mk (Map.ConstructMapFromConfig [Road.HORIZONTAL { x := 0, y := 0 } 10])
        [(1, (Dog.new "a" 1 { x := 0, y := 0 } 3).SetVelocity
          { vx := double.fl (1 / ((10 ^ 170 : Nat) : ℚ)), vy := 0 })]
        false LootStore.empty 0).MoveDogs (((1000 : Int) : ℚ) / 1000)).2 ∧
    (0 : ℚ) ≠ double.fl (1 / ((10 ^ 170 : Nat) : ℚ)) ∧
    collision_detector.double_len2 { x := 0, y := 0 }
      { x := double.fl (1 / ((10 ^ 170 : Nat) : ℚ)), y := 0 } = 0 ∧
    collision_detector.TryCollectPoint { x := 0, y := 0 }
      { x := double.fl (1 / ((10 ^ 170 : Nat) : ℚ)), y := 0 } { x := 1, y := 0 } = none := by
  decide!

/-- C25, amended: for every session state and `Δt`, every gatherer segment that
`GameSession::Tick` records and passes to the collision detector has
`start ≠ end`; and when the segment is at least `2^(-500)` long along an axis, the
`|v|²` that `TryCollectPoint` computes is not zero, so it does not divide by zero
(it has a result for every target). -/
theorem C25_gatherers_have_distinct_endpoints (s : GameSession) (delta : Int)
    (g : collision_detector.Gatherer) (hg : g ∈ (s.MoveDogs ((delta : ℚ) / 1000)).2) :
    g.start_pos ≠ g.end_pos ∧
    ((double.pow2 (-500) ≤ |g.end_pos.x - g.start_pos.x| ∨
      double.pow2 (-500) ≤ |g.end_pos.y - g.start_pos.y|) →
      collision_detector.double_len2 g.start_pos g.end_pos ≠ 0 ∧
      ∀ c : pos.Coordinate,
        (collision_detector.TryCollectPoint g.start_pos g.end_pos c).isSome = true) := by
  have hne : g.start_pos ≠ g.end_pos := by
    unfold MoveDogs at hg
    simp only [List.mem_filterMap] at hg
    obtain ⟨p, _, hp⟩ := hg
    exact MoveInTick_gatherer _ _ _ g hp
  refine ⟨hne, fun hlong => ?_⟩
  have hpos := double_len2_pos g.start_pos g.end_pos hlong
  refine ⟨ne_of_gt hpos, fun c => ?_⟩
  rw [collision_detector.TryCollectPoint_eq_double _ _ _ (ne_of_gt hpos)]
  rfl

/-- C25 amended, applied to a dog at `(1,0)` on the road from `(0,0)` to `(10,0)` moving
east with speed `2` for half a second: its segment runs from `(1,0)` to `(2,0)`. -/
theorem C25_gatherers_have_distinct_endpoints_witness :
    ∃ g ∈ ((GameSession.mk (Map.ConstructMapFromConfig [Road.HORIZONTAL { x := 0, y := 0 } 10])
        [(1, (Dog.new "a" 1 { x := 1, y := 0 } 3).SetVelocity { vx := 2, vy := 0 })]
        false LootStore.empty 0).MoveDogs (((500 : Int) : ℚ) / 1000)).2,
      g.start_pos ≠ g.end_pos ∧
      collision_detector.double_len2 g.start_pos g.end_pos ≠ 0 :=
  ⟨{ start_pos := { x := 1, y := 0 }, end_pos := { x := 2, y := 0 }, width := 3 / 10, id := 1 },
    by decide!,
    (C25_gatherers_have_distinct_endpoints
      (GameSession.mk (Map.ConstructMapFromConfig [Road.HORIZONTAL { x := 0, y := 0 } 10])
        [(1, (Dog.new "a" 1 { x := 1, y := 0 } 3).SetVelocity { vx := 2, vy := 0 })]
        false LootStore.empty 0) 500
      { start_pos := { x := 1, y := 0 }, end_pos := { x := 2, y := 0 }, width := 3 / 10,
        id := 1 }
      (by decide!)).1,
    ((C25_gatherers_have_distinct_endpoints
      (GameSession.mk (Map.ConstructMapFromConfig [Road.HORIZONTAL { x := 0, y := 0 } 10])
        [(1, (Dog.new "a" 1 { x := 1, y := 0 } 3).SetVelocity { vx := 2, vy := 0 })]
        false LootStore.empty 0) 500
      { start_pos := { x := 1, y := 0 }, end_pos := { x := 2, y := 0 }, width := 3 / 10,
        id := 1 }
      (by decide!)).2 (Or.inl (by decide!))).1⟩

end model.GameSession

/-! ## The merge step and the candidate query, in general -/

namespace model

theorem MergeFrom_left_le_right (rest : List Interval) :
    ∀ cur : Interval, cur.left ≤ cur.right → (∀ s ∈ rest, s.left ≤ s.right) →
      ∀ m ∈ MergeFrom cur rest, m.left ≤ m.right := by
  induction rest with
  | nil =>
    intro cur hc _ m hm
    rw [MergeFrom, List.mem_singleton] at hm
    rw [hm]; exact hc
  | cons seg rest ih =>
    intro cur hc hr m hm
    have hseg := hr seg (List.mem_cons_self _ _)
    have hrest : ∀ s ∈ rest, s.left ≤ s.right := fun s h => hr s (List.mem_cons_of_mem _ h)
    rw [MergeFrom] at hm
    by_cases h : seg.left > cur.right
    · rw [if_pos h] at hm
      rcases List.mem_cons.mp hm with rfl | hm
      · exact hc
      · exact ih seg hseg hrest m hm
    · rw [if_neg h] at hm
      exact ih { cur with right := max cur.right seg.right }
        (le_trans hc (le_max_left _ _)) hrest m hm

/-- Merged intervals neither overlap nor touch: each ends strictly before the next
begins. -/
theorem MergeFrom_gap (rest : List Interval) :
    ∀ cur : Interval, (∀ s ∈ rest, cur.left ≤ s.left) →
      rest.Pairwise (fun a b => a.left ≤ b.left) →
      (MergeFrom cur rest).Pairwise (fun a b => a.right < b.left) := by
  induction rest with
  | nil =>
    intro cur _ _
    rw [MergeFrom]
    exact List.pairwise_singleton _ _
  | cons seg rest ih =>
    intro cur hlb hs
    have h4 : ∀ s ∈ rest, seg.left ≤ s.left := fun s h2 => List.rel_of_pairwise_cons hs h2
    have h5 := List.Pairwise.of_cons hs
    rw [MergeFrom]
    by_cases h : seg.left > cur.right
    · rw [if_pos h]
      refine List.Pairwise.cons ?_ (ih seg h4 h5)
      intro m hm
      exact lt_of_lt_of_le h (MergeFrom_left_ge rest seg h4 h5 m hm)
    · rw [if_neg h]
      exact ih { cur with right := max cur.right seg.right }
        (fun s hs2 => hlb s (List.mem_cons_of_mem _ hs2)) h5

/-- C27: for every non-empty list of intervals, each with `left ≤ right`, the merge
step of `RestrictInsideIntervals` (on the sorted list) produces intervals that are
sorted by left bound, pairwise separated by a strictly positive gap, and whose
union is exactly the union of the input intervals. -/
theorem C27_merge_step (ivs : List Interval) (hne : ivs ≠ [])
    (hle : ∀ iv ∈ ivs, iv.left ≤ iv.right) :
    (MergeIntervals (SortIntervals ivs)).Pairwise (fun a b => a.left ≤ b.left) ∧
    (MergeIntervals (SortIntervals ivs)).Pairwise (fun a b => a.right < b.left) ∧
    MergeIntervals (SortIntervals ivs) ≠ [] ∧
    ∀ x : ℚ, (∃ m ∈ MergeIntervals (SortIntervals ivs), m.left ≤ x ∧ x ≤ m.right) ↔
      (∃ iv ∈ ivs, iv.left ≤ x ∧ x ≤ iv.right) := by
  have hsorted := SortIntervals_sorted ivs
  have hmem := mem_SortIntervals ivs
  cases hS : SortIntervals ivs with
  | nil =>
    rw [hS] at hmem
    cases ivs with
    | nil => exact absurd rfl hne
    | cons a l => exact absurd ((hmem a).mpr (List.mem_cons_self _ _)) (List.not_mem_nil _)
  | cons a rest =>
    rw [hS] at hmem hsorted
    rw [MergeIntervals_cons]
    have hlb : ∀ s ∈ rest, a.left ≤ s.left := fun s h => List.rel_of_pairwise_cons hsorted h
    have hp := List.Pairwise.of_cons hsorted
    have ha : a.left ≤ a.right := hle a ((hmem a).mp (List.mem_cons_self _ _))
    have hrest : ∀ s ∈ rest, s.left ≤ s.right :=
      fun s h => hle s ((hmem s).mp (List.mem_cons_of_mem _ h))
    have hgap := MergeFrom_gap rest a hlb hp
    have hlr := MergeFrom_left_le_right rest a ha hrest
    refine ⟨?_, hgap, ?_, ?_⟩
    · refine List.Pairwise.imp_of_mem ?_ hgap
      intro u v hu _ huv
      exact le_trans (hlr u hu) (le_of_lt huv)
    · cases rest with
      | nil => simp [MergeFrom]
      | cons seg rest2 =>
        obtain ⟨m, hm, _⟩ := MergeFrom_covers (seg :: rest2) a hlb hp a (List.mem_cons_self _ _)
        exact List.ne_nil_of_mem hm
    · intro x
      constructor
      · rintro ⟨m, hm, h1, h2⟩
        obtain ⟨iv, hiv, h3, h4⟩ := MergeFrom_exact rest a hlb hp m hm x h1 h2
        exact ⟨iv, (hmem iv).mp hiv, h3, h4⟩
      · rintro ⟨iv, hiv, h1, h2⟩
        obtain ⟨m, hm, h3, h4⟩ := MergeFrom_covers rest a hlb hp iv ((hmem iv).mpr hiv)
        exact ⟨m, hm, le_trans h3 h1, le_trans h2 h4⟩

/-- C27, applied to the intervals `[3,4]`, `[0,1]`, `[1,2]`: the point `3/2` of the
input `[1,2]` lies in a merged interval. -/
theorem C27_merge_step_witness :
    ∃ m ∈ MergeIntervals (SortIntervals
        [{ left := 3, right := 4 }, { left := 0, right := 1 }, { left := 1, right := 2 }]),
      m.left ≤ (3 / 2 : ℚ) ∧ (3 / 2 : ℚ) ≤ m.right :=
  ((C27_merge_step
      [{ left := 3, right := 4 }, { left := 0, right := 1 }, { left := 1, right := 2 }]
      (by decide) (by decide!)).2.2.2 (3 / 2)).mpr
    ⟨{ left := 1, right := 2 }, by decide, by decide!, by decide!⟩

theorem Map.unique_strictly_increasing :
    ∀ l : List Nat, l.Pairwise (· ≤ ·) → (Map.unique l).Pairwise (· < ·) := by
  intro l
  induction l using Map.unique.induct with
  | case1 => intro _; simp [Map.unique]
  | case2 a => intro _; simp [Map.unique]
  | case3 a rest ih =>
    intro h
    rw [Map.unique, if_pos rfl]
    exact ih (List.Pairwise.of_cons h)
  | case4 a b rest hab ih =>
    intro h
    rw [Map.unique, if_neg hab]
    refine List.Pairwise.cons ?_ (ih (List.Pairwise.of_cons h))
    intro x hx
    have hx2 : x ∈ b :: rest := (Map.mem_unique x _).mp hx
    have hab2 : a ≤ b := List.rel_of_pairwise_cons h (List.mem_cons_self _ _)
    have hbx : b ≤ x := by
      rcases List.mem_cons.mp hx2 with rfl | hx3
      · exact le_refl _
      · exact List.rel_of_pairwise_cons (List.Pairwise.of_cons h) hx3
    omega

/-- C28: the 6-cell candidate query is complete: for every map built from a road
list, every road `R` with index `i` and every point `p` inside the corridor of `R`,
`i` is contained in `GetRoadCandidates(p)`; and the returned list is strictly
increasing (for every map and point). -/
theorem C28_candidate_query_complete (roads : List Road) (m : Map) (p : pos.Coordinate) :
    (∀ (i : Nat) (r : Road), roads.get? i = some r → InCorridor r p →
      i ∈ (Map.ConstructMapFromConfig roads).GetRoadCandidates p) ∧
    (m.GetRoadCandidates p).Pairwise (· < ·) := by
  constructor
  · intro i r hr hp
    exact Map.mem_GetRoadCandidates_of_InCorridor roads i r hr p hp
  · unfold Map.GetRoadCandidates
    exact Map.unique_strictly_increasing _ (List.sorted_insertionSort _ _)

/-- C28, applied to the two roads from `(0,0)` to `(10,0)` and to `(0,10)` and the
corner point `(0.4, −0.4)` of the second corridor. -/
theorem C28_candidate_query_complete_witness :
    1 ∈ (Map.ConstructMapFromConfig
      [Road.HORIZONTAL { x := 0, y := 0 } 10, Road.VERTICAL { x := 0, y := 0 } 10]).GetRoadCandidates
        { x := 2 / 5, y := -2 / 5 } :=
  (C28_candidate_query_complete
    [Road.HORIZONTAL { x := 0, y := 0 } 10, Road.VERTICAL { x := 0, y := 0 } 10] Map.empty
    { x := 2 / 5, y := -2 / 5 }).1 1 (Road.VERTICAL { x := 0, y := 0 } 10) rfl (by decide!)

end model

/-! ## The loot arena without restore -/

namespace model.LootStore

theorem restore_pending_of_no_restore (ops : List Op) (h : no_restore ops = true) :
    restore_pending false ops = false := by
  induction ops with
  | nil => rfl
  | cons op ops ih =>
    unfold no_restore at h ih
    rw [List.all_cons, Bool.and_eq_true] at h
    cases op with
    | RestoreItem id info coord width => simp at h
    | Create info coord => exact ih h.2
    | Remove id => exact ih h.2
    | Clear => exact ih h.2
    | FinalizeAfterRestore => exact ih h.2

theorem IdsMatch_Create (s : LootStore) (hc : s.Consistent) (h : s.IdsMatch) (info : LootInfo)
    (coord : pos.Coordinate) : IdsMatch (s.Create info coord).2 := by
  intro k item hk
  cases hlast : s.free_ids_.getLast? with
  | none =>
    have hstep : (s.Create info coord).2.items_ =
        s.items_ ++ [some { id := s.items_.length % 2 ^ 32, info := info,
                            coordinate := coord, width := 0 }] := by
      unfold Create
      rw [hlast]
    rw [hstep, List.get?_eq_getElem?] at hk
    by_cases hlt : k < s.items_.length
    · rw [List.getElem?_append_left hlt, ← List.get?_eq_getElem?] at hk
      exact h k item hk
    · by_cases heq : k = s.items_.length
      · subst heq
        rw [List.getElem?_append_right (le_refl _)] at hk
        simp at hk
        right
        rw [← hk]
        norm_num
      · rw [List.getElem?_eq_none (by simp; omega)] at hk
        simp at hk
  | some id =>
    have hstep : (s.Create info coord).2.items_ =
        s.items_.set id (some { id := id, info := info, coordinate := coord, width := 0 }) := by
      unfold Create
      rw [hlast]
    rw [hstep, List.get?_eq_getElem?] at hk
    by_cases heq : k = id
    · subst heq
      have hmem : k ∈ s.free_ids_ := List.mem_of_getLast?_eq_some hlast
      have hlt := ((hc.2 k).mp hmem).1
      rw [List.getElem?_set_self hlt] at hk
      simp at hk
      left
      rw [← hk]
    · rw [List.getElem?_set_ne (Ne.symm heq), ← List.get?_eq_getElem?] at hk
      exact h k item hk

theorem IdsMatch_Remove (s : LootStore) (h : s.IdsMatch) (id : Nat) :
    IdsMatch (s.Remove id).2 := by
  unfold Remove
  split
  · exact h
  · intro k item hk
    simp only [List.get?_eq_getElem?] at hk
    by_cases heq : k = id
    · subst heq
      by_cases hlt : k < s.items_.length
      · rw [List.getElem?_set_self hlt] at hk
        simp at hk
      · rw [List.getElem?_eq_none (by simp; omega)] at hk
        simp at hk
    · rw [List.getElem?_set_ne (Ne.symm heq), ← List.get?_eq_getElem?] at hk
      exact h k item hk

theorem IdsMatch_run_ops (ops : List Op) :
    ∀ s : LootStore, s.Consistent → s.IdsMatch → no_restore ops = true →
      (run_ops s ops).IdsMatch := by
  induction ops with
  | nil => intro s _ h _; exact h
  | cons op ops ih =>
    intro s hc h hno
    have hrun : run_ops s (op :: ops) = run_ops (s.apply op) ops := rfl
    rw [hrun]
    unfold no_restore at hno ih
    rw [List.all_cons, Bool.and_eq_true] at hno
    cases op with
    | RestoreItem id info coord width => simp at hno
    | Create info coord =>
      exact ih _ (Consistent_Create s hc info coord) (IdsMatch_Create s hc h info coord) hno.2
    | Remove id => exact ih _ (Consistent_Remove s hc id) (IdsMatch_Remove s h id) hno.2
    | Clear =>
      exact ih _ (Consistent_Clear s) (fun k item hk => by simp [apply, Clear] at hk) hno.2
    | FinalizeAfterRestore =>
      exact ih _ (Consistent_FinalizeAfterRestore s) h hno.2

/-- When every live item carries the index of its slot, `GetAllItems` lists the
items with strictly increasing ids, all below the array length. -/
theorem ids_increasing (l : List (Option LootItem)) :
    (∀ k item, l.get? k = some (some item) → item.id = k) →
    ((l.filterMap id).map (fun item => item.id)).Pairwise (· < ·) ∧
    ∀ i ∈ (l.filterMap id).map (fun item => item.id), i < l.length := by
  induction l using List.reverseRecOn with
  | nil => intro _; simp
  | append_singleton l x ih =>
    intro h
    have hl : ∀ k item, l.get? k = some (some item) → item.id = k := by
      intro k item hk
      apply h k item
      rw [List.get?_eq_getElem?] at hk ⊢
      have hlt : k < l.length := by
        by_contra hc
        rw [List.getElem?_eq_none (Nat.le_of_not_lt hc)] at hk
        simp at hk
      rw [List.getElem?_append_left hlt]
      exact hk
    obtain ⟨ih1, ih2⟩ := ih hl
    rw [List.filterMap_append, List.map_append, List.length_append, List.length_singleton]
    cases x with
    | none =>
      simp only [List.filterMap_cons, id, List.filterMap_nil, List.map_nil, List.append_nil]
      exact ⟨ih1, fun i hi => Nat.lt_succ_of_lt (ih2 i hi)⟩
    | some it =>
      have hit : it.id = l.length := by
        apply h l.length it
        rw [List.get?_eq_getElem?, List.getElem?_append_right (le_refl _)]
        simp
      simp only [List.filterMap_cons, id, List.filterMap_nil, List.map_cons, List.map_nil]
      constructor
      · rw [List.pairwise_append]
        refine ⟨ih1, List.pairwise_singleton _ _, ?_⟩
        intro a ha b hb
        rw [List.mem_singleton.mp hb, hit]
        exact ih2 a ha
      · intro i hi
        rcases List.mem_append.mp hi with h1 | h1
        · exact Nat.lt_succ_of_lt (ih2 i h1)
        · rw [List.mem_singleton.mp h1, hit]
          exact Nat.lt_succ_self _

/-- C30: in every store reached from the empty store by `Create`, `Remove`, `Clear`
and `FinalizeAfterRestore` calls (no `RestoreItem`) whose array has at most `2^32`
slots (the range of `ItemId`), the free-id list has no duplicates and holds exactly
the ids of the empty slots below the array length, and every non-empty slot `k`
holds an item whose id field is `k`; so `GetAllItems` lists the live items in
strictly increasing id order, and (with fewer than `2^32` slots) `Create` uses a
slot that holds no item and leaves every other slot as it was. -/
theorem C30_arena_invariant (ops : List Op) (hno : no_restore ops = true)
    (hlen : (run_ops empty ops).items_.length ≤ 2 ^ 32) (info : LootInfo)
    (coord : pos.Coordinate) :
    (run_ops empty ops).free_ids_.Nodup ∧
    (∀ k, k ∈ (run_ops empty ops).free_ids_ ↔
      (k < (run_ops empty ops).items_.length ∧ (run_ops empty ops).items_.get? k = some none)) ∧
    (∀ k item, (run_ops empty ops).items_.get? k = some (some item) → item.id = k) ∧
    ((run_ops empty ops).GetAllItems.map (fun item => item.id)).Pairwise (· < ·) ∧
    ((run_ops empty ops).items_.length < 2 ^ 32 →
      (run_ops empty ops).GetItem ((run_ops empty ops).Create info coord).1.id = none ∧
      ∀ k, k ≠ ((run_ops empty ops).Create info coord).1.id →
        ((run_ops empty ops).Create info coord).2.GetItem k = (run_ops empty ops).GetItem k) := by
  have hc : (run_ops empty ops).Consistent :=
    Consistent_run_ops ops empty false (fun _ => Consistent_empty)
      (restore_pending_of_no_restore ops hno)
  have hids0 := IdsMatch_run_ops ops empty Consistent_empty
    (fun k item hk => by simp [empty] at hk) hno
  have hids : ∀ k item, (run_ops empty ops).items_.get? k = some (some item) → item.id = k := by
    intro k item hk
    have hlt : k < (run_ops empty ops).items_.length := (List.get?_eq_some.mp hk).1
    rcases hids0 k item hk with h1 | h1
    · exact h1
    · rw [h1]
      exact Nat.mod_eq_of_lt (by omega)
  refine ⟨hc.1, ?_, hids, (ids_increasing _ hids).1, fun hlt => hc.Create_fresh hlt info coord⟩
  intro k
  rw [hc.2 k]
  constructor
  · rintro ⟨h1, h2⟩
    exact ⟨h1, (has_value_eq_false_iff _ k h1).mp h2⟩
  · rintro ⟨h1, h2⟩
    exact ⟨h1, (has_value_eq_false_iff _ k h1).mpr h2⟩

/-- C30, applied to "create, create, create, remove 1, finalize, create, remove 0". -/
theorem C30_arena_invariant_witness :
    ((run_ops empty [Op.Create { type := LootType.KEY, value := 1 } { x := 0, y := 0 },
        Op.Create { type := LootType.KEY, value := 1 } { x := 1, y := 0 },
        Op.Create { type := LootType.KEY, value := 1 } { x := 2, y := 0 },
        Op.Remove 1, Op.FinalizeAfterRestore,
        Op.Create { type := LootType.WALLET, value := 2 } { x := 3, y := 0 },
        Op.Remove 0]).GetAllItems.map (fun item => item.id)).Pairwise (· < ·) :=
  (C30_arena_invariant _ (by decide) (by decide!) { type := LootType.KEY, value := 1 }
    { x := 0, y := 0 }).2.2.2.1

end model.LootStore

/-! ## Indexing a horizontal road: the adjacent rows -/

namespace model

/-- C26 (evaluated at the failing input): after the horizontal road from `(0, 0)` to
`x = 2`, with index `0`, is indexed into an empty map, the index registers `0` under
the cells `(0, 0)`, `(1, 0)` and `(2, 0)` of the axis line, but the cells directly
above and below the first endpoint, `(0, 1)` and `(0, -1)`, are only touched: each
has an entry, and the entry is empty, so the road is not registered there. -/
theorem C26_adjacent_rows_are_touched_not_registered :
    (Map.AddRoad Map.empty (Road.HORIZONTAL { x := 0, y := 0 } 2)).roads_by_cell_
        { x := 0, y := 0 } = some [0] ∧
    (Map.AddRoad Map.empty (Road.HORIZONTAL { x := 0, y := 0 } 2)).roads_by_cell_
        { x := 1, y := 0 } = some [0] ∧
    (Map.AddRoad Map.empty (Road.HORIZONTAL { x := 0, y := 0 } 2)).roads_by_cell_
        { x := 2, y := 0 } = some [0] ∧
    (Map.AddRoad Map.empty (Road.HORIZONTAL { x := 0, y := 0 } 2)).roads_by_cell_
        { x := 0, y := 1 } = some [] ∧
    (Map.AddRoad Map.empty (Road.HORIZONTAL { x := 0, y := 0 } 2)).roads_by_cell_
        { x := 0, y := -1 } = some [] ∧
    0 ∉ (Map.AddRoad Map.empty (Road.HORIZONTAL { x := 0, y := 0 } 2)).roads_by_cell_.lookup
        { x := 0, y := 1 } ∧
    0 ∉ (Map.AddRoad Map.empty (Road.HORIZONTAL { x := 0, y := 0 } 2)).roads_by_cell_.lookup
        { x := 0, y := -1 } := by
  decide

end model

/-! ## Swept cells and collected items -/

namespace model

/-- A point `a + t (b - a) + e` with `0 ≤ t ≤ 1` and `|e| ≤ w` lies within `w` of
the interval between `a` and `b`. -/
theorem sweep_bound (a b c t w : ℚ) (ht0 : 0 ≤ t) (ht1 : t ≤ 1)
    (hl : -w ≤ c - a - t * (b - a)) (hu : c - a - t * (b - a) ≤ w) :
    min a b - w ≤ c ∧ c ≤ max a b + w := by
  rcases le_total a b with hab | hab
  · rw [min_eq_left hab, max_eq_right hab]
    have h1 : 0 ≤ t * (b - a) := mul_nonneg ht0 (by linarith)
    have h2 : 0 ≤ (1 - t) * (b - a) := mul_nonneg (by linarith) (by linarith)
    constructor <;> nlinarith
  · rw [min_eq_right hab, max_eq_left hab]
    have h1 : 0 ≤ t * (a - b) := mul_nonneg ht0 (by linarith)
    have h2 : 0 ≤ (1 - t) * (a - b) := mul_nonneg (by linarith) (by linarith)
    constructor <;> nlinarith

theorem v_len2_ne_zero (a b : pos.Coordinate) (h : a ≠ b) :
    (b.x - a.x) ^ 2 + (b.y - a.y) ^ 2 ≠ 0 := by
  intro h0
  apply h
  have hx : b.x - a.x = 0 := by nlinarith [sq_nonneg (b.x - a.x), sq_nonneg (b.y - a.y)]
  have hy : b.y - a.y = 0 := by nlinarith [sq_nonneg (b.x - a.x), sq_nonneg (b.y - a.y)]
  cases a; cases b
  simp only [pos.Coordinate.mk.injEq]
  simp only at hx hy
  constructor <;> linarith

/-- A point that satisfies the collection criterion in exact arithmetic lies, in each
coordinate, within the collect radius of the bounding box of the segment. -/
theorem collected_in_box (a b c : pos.Coordinate) (w : ℚ) (hab : a ≠ b) (hw : 0 ≤ w)
    (ht0 : 0 ≤ collision_detector.spec_proj_ratio a b c)
    (ht1 : collision_detector.spec_proj_ratio a b c ≤ 1)
    (hd : collision_detector.spec_sq_distance a b c ≤ w ^ 2) :
    (min a.x b.x - w ≤ c.x ∧ c.x ≤ max a.x b.x + w) ∧
    (min a.y b.y - w ≤ c.y ∧ c.y ≤ max a.y b.y + w) := by
  have hL := v_len2_ne_zero a b hab
  unfold collision_detector.spec_sq_distance at hd
  unfold collision_detector.spec_proj_ratio at ht0 ht1
  generalize ht : ((c.x - a.x) * (b.x - a.x) + (c.y - a.y) * (b.y - a.y)) /
    ((b.x - a.x) ^ 2 + (b.y - a.y) ^ 2) = t at ht0 ht1
  have hkey : (c.x - a.x - t * (b.x - a.x)) ^ 2 + (c.y - a.y - t * (b.y - a.y)) ^ 2 =
      (c.x - a.x) ^ 2 + (c.y - a.y) ^ 2 -
        ((c.x - a.x) * (b.x - a.x) + (c.y - a.y) * (b.y - a.y)) ^ 2 /
        ((b.x - a.x) ^ 2 + (b.y - a.y) ^ 2) := by
    rw [← ht]
    field_simp
    ring
  have hx2 : (c.x - a.x - t * (b.x - a.x)) ^ 2 ≤ w ^ 2 := by
    nlinarith [sq_nonneg (c.y - a.y - t * (b.y - a.y))]
  have hy2 : (c.y - a.y - t * (b.y - a.y)) ^ 2 ≤ w ^ 2 := by
    nlinarith [sq_nonneg (c.x - a.x - t * (b.x - a.x))]
  have hx := abs_le_of_sq_le_sq' hx2 hw
  have hy := abs_le_of_sq_le_sq' hy2 hw
  exact ⟨sweep_bound _ _ _ t w ht0 ht1 hx.1 hx.2, sweep_bound _ _ _ t w ht0 ht1 hy.1 hy.2⟩

theorem Map.mem_GetCellsOnTheWayArea (from_ to_ : pos.Coordinate) (w : ℚ) (cell : Cell) :
    cell ∈ Map.GetCellsOnTheWayArea from_ to_ w ↔
      (⌊double.sub (min from_.x to_.x) w⌋ ≤ cell.x ∧
        cell.x ≤ ⌊double.add (max from_.x to_.x) w⌋) ∧
      (⌊double.sub (min from_.y to_.y) w⌋ ≤ cell.y ∧
        cell.y ≤ ⌊double.add (max from_.y to_.y) w⌋) := by
  unfold Map.GetCellsOnTheWayArea
  simp only [List.mem_flatMap, List.mem_map, Map.mem_intRange]
  constructor
  · rintro ⟨x, hx, y, hy, rfl⟩
    exact ⟨hx, hy⟩
  · rintro ⟨hx, hy⟩
    exact ⟨cell.x, hx, cell.y, hy, rfl⟩

/-- The cell of a point with double coordinates inside the box of the segment,
widened by `w`, is swept: the rounding of the four bounds does not pass over a
double. -/
theorem box_in_swept_cells (a b c : pos.Coordinate) (w : ℚ)
    (hdx : double.IsDouble c.x) (hdy : double.IsDouble c.y)
    (hx : min a.x b.x - w ≤ c.x ∧ c.x ≤ max a.x b.x + w)
    (hy : min a.y b.y - w ≤ c.y ∧ c.y ≤ max a.y b.y + w) :
    ({ x := ⌊c.x⌋, y := ⌊c.y⌋ } : Cell) ∈ Map.GetCellsOnTheWayArea a b w := by
  rw [Map.mem_GetCellsOnTheWayArea]
  unfold double.sub double.add
  exact ⟨⟨Int.floor_mono (double.fl_le_of_le _ _ hx.1 hdx),
      Int.floor_mono (double.le_fl_of_le _ _ hx.2 hdx)⟩,
    ⟨Int.floor_mono (double.fl_le_of_le _ _ hy.1 hdy),
      Int.floor_mono (double.le_fl_of_le _ _ hy.2 hdy)⟩⟩

/-- A live item indexed under a cell that a gatherer sweeps is among the candidates
that `LootEventProcessing` hands to the detector. -/
theorem GameSession.mem_GatherCandidates (s : GameSession)
    (gatherers : List collision_detector.Gatherer) (g : collision_detector.Gatherer)
    (hg : g ∈ gatherers) (cell : Cell)
    (hcell : cell ∈ Map.GetCellsOnTheWayArea g.start_pos g.end_pos g.width) (id : Nat)
    (hid : id ∈ s.map_.GetItemIdsInCell cell) (item : LootItem)
    (hlive : s.loot_store_.GetItem (id % 2 ^ 32) = some item) :
    collision_detector.Item.mk "loot" item.coordinate item.width (to_int32 item.id) ∈
      s.GatherCandidates gatherers := by
  unfold GameSession.GatherCandidates
  simp only
  apply List.mem_append_left
  rw [List.mem_flatMap]
  refine ⟨cell, ?_, ?_⟩
  · rw [List.mem_dedup, List.mem_flatMap]
    exact ⟨g, hg, hcell⟩
  · rw [List.mem_filterMap]
    refine ⟨id, hid, ?_⟩
    rw [hlive]

/-- C29 as stated fails: a gatherer of width `0.3` walking from `(0, y)` to `(8, y)` with
`y = 1.6999999999999984` collects, in the detector's double arithmetic, the item of
width `0` at `(4, 2)` (the computed `sq_distance` is below the computed `0.3²`, the
exact distance being above `0.3`), but the cell `(4, 2)` of the item is not among the
swept cells, which end with row `1`. -/
theorem C29_counterexample :
    (collision_detector.TryCollectPoint
        { x := 0, y := 1914029841632459 / 1125899906842624 }
        { x := 8, y := 1914029841632459 / 1125899906842624 } { x := 4, y := 2 }).map
      (fun r => r.IsCollected (double.add (double.fl (3 / 10)) 0)) = some true ∧
    double.IsDouble (1914029841632459 / 1125899906842624) ∧
    ({ x := ⌊(4 : ℚ)⌋, y := ⌊(2 : ℚ)⌋ } : Cell) ∉
      Map.GetCellsOnTheWayArea { x := 0, y := 1914029841632459 / 1125899906842624 }
        { x := 8, y := 1914029841632459 / 1125899906842624 } (double.fl (3 / 10)) := by
  decide!

/-- C29, amended: restricting pickup candidates to swept cells loses no item within
reach in exact arithmetic.  For a gatherer segment from `a` to `b` with `a ≠ b` and
width `w ≥ 0` (coordinates and width up to `2^29` in magnitude, so that every cell
index fits an `int`) and an item of width `0` at a position `c` with double coordinates
that satisfies the collection criterion in exact arithmetic (`0 ≤ proj_ratio ≤ 1`
and `sq_distance ≤ w²`), the cell `(⌊c.x⌋, ⌊c.y⌋)`, under which `AddLootItem` indexes
the item, is among `GetCellsOnTheWayArea a b w`, and the item, when it is live and
indexed under that cell, is among the candidates that `LootEventProcessing` hands
to the detector. -/
theorem C29_swept_cells_cover_items_in_reach (s : GameSession)
    (gatherers : List collision_detector.Gatherer) (g : collision_detector.Gatherer)
    (item : LootItem) (hg : g ∈ gatherers) (hab : g.start_pos ≠ g.end_pos)
    (hw : 0 ≤ g.width) (_hrange : g.in_range 29) (hwidth : item.width = 0)
    (hdx : double.IsDouble item.coordinate.x) (hdy : double.IsDouble item.coordinate.y)
    (ht0 : 0 ≤ collision_detector.spec_proj_ratio g.start_pos g.end_pos item.coordinate)
    (ht1 : collision_detector.spec_proj_ratio g.start_pos g.end_pos item.coordinate ≤ 1)
    (hd : collision_detector.spec_sq_distance g.start_pos g.end_pos item.coordinate ≤
      (g.width + item.width) ^ 2) :
    ({ x := ⌊item.coordinate.x⌋, y := ⌊item.coordinate.y⌋ } : Cell) ∈
      Map.GetCellsOnTheWayArea g.start_pos g.end_pos g.width ∧
    (∀ m : Map, item.id ∈ (m.AddLootItem item).GetItemIdsInCell
      { x := ⌊item.coordinate.x⌋, y := ⌊item.coordinate.y⌋ }) ∧
    (s.loot_store_.GetItem (item.id % 2 ^ 32) = some item →
      item.id ∈ s.map_.GetItemIdsInCell
        { x := ⌊item.coordinate.x⌋, y := ⌊item.coordinate.y⌋ } →
      collision_detector.Item.mk "loot" item.coordinate item.width (to_int32 item.id) ∈
        s.GatherCandidates gatherers) := by
  rw [hwidth, add_zero] at hd
  obtain ⟨hx, hy⟩ := collected_in_box g.start_pos g.end_pos item.coordinate g.width hab hw
    ht0 ht1 hd
  have hcell := box_in_swept_cells g.start_pos g.end_pos item.coordinate g.width hdx hdy hx hy
  refine ⟨hcell, ?_, ?_⟩
  · intro m
    unfold Map.GetItemIdsInCell Map.AddLootItem
    simp only [if_true]
    unfold Map.set_insert
    split
    · assumption
    · exact (List.mem_orderedInsert _).mpr (Or.inl rfl)
  · intro hlive hid
    exact GameSession.mem_GatherCandidates s gatherers g hg _ hcell item.id hid item hlive

/-- C29 amended, applied to `pickup_session`: the dog walks from `(0,0)` to `(4,0)` and
the item at `(2,0)` is among the candidates. -/
theorem C29_swept_cells_cover_items_in_reach_witness :
    collision_detector.Item.mk "loot" { x := 2, y := 0 } 0 (to_int32 0) ∈
      GameSession.pickup_session.GatherCandidates [GameSession.pickup_gatherer] :=
  (C29_swept_cells_cover_items_in_reach GameSession.pickup_session
    [GameSession.pickup_gatherer] GameSession.pickup_gatherer
    { id := 0, info := { type := LootType.KEY, value := 5 },
      coordinate := { x := 2, y := 0 }, width := 0 }
    (List.mem_singleton.mpr rfl) (by decide!) (by decide!) (by decide!) rfl (by decide!)
    (by decide!) (by decide!) (by decide!) (by decide!)).2.2 (by decide!) (by decide!)

end model

/-! ## Spawn points -/

namespace model.GameSession

/-- With in-range draws on a map whose roads are horizontal or vertical, the random
spawn point lies on the axis segment of a road of the map, inside its corridor. -/
theorem GenerateRandomSpawnCoordinates_on_road (s : GameSession) (draws : List Int)
    (hne : s.map_.GetRoads ≠ [])
    (haxis : ∀ r ∈ s.map_.GetRoads, r.IsHorizontal = true ∨ r.IsVertical = true)
    (hd : SpawnDrawsInRange s draws) :
    ∃ road ∈ s.map_.GetRoads,
      OnAxisSegment road (s.GenerateRandomSpawnCoordinates draws).1 ∧
      InCorridor road (s.GenerateRandomSpawnCoordinates draws).1 := by
  have hemp : s.map_.GetRoads.isEmpty = false := by
    cases h : s.map_.GetRoads with
    | nil => exact absurd h hne
    | cons a l => rfl
  unfold SpawnDrawsInRange DrawInRange at hd
  unfold GenerateRandomSpawnCoordinates
  simp only [hemp, Bool.false_eq_true, if_false]
  simp only at hd
  obtain ⟨⟨h0, h1⟩, h2⟩ := hd
  generalize hd1 : (GenerateRandomInt 0 ((s.map_.GetRoads.length : Int) - 1) draws) = r1
    at h0 h1 h2 ⊢
  have hlt : r1.1.toNat < s.map_.GetRoads.length := by omega
  have hroad : s.map_.GetRoads.getD r1.1.toNat
      { start_ := { x := 0, y := 0 }, end_ := { x := 0, y := 0 } } =
      s.map_.GetRoads[r1.1.toNat] := List.getD_eq_getElem _ _ hlt
  have hmem : s.map_.GetRoads[r1.1.toNat] ∈ s.map_.GetRoads := List.getElem_mem hlt
  rw [hroad] at h2 ⊢
  generalize s.map_.GetRoads[r1.1.toNat] = road at h2 hmem ⊢
  refine ⟨road, hmem, ?_⟩
  by_cases hh : road.IsHorizontal = true
  · rw [if_pos hh] at h2 ⊢
    have hy : road.start_.y = road.end_.y := by
      simpa [Road.IsHorizontal] using hh
    simp only [Road.GetStart, Road.GetEnd] at h2 ⊢
    generalize (GenerateRandomInt (min road.start_.x road.end_.x)
      (max road.start_.x road.end_.x) r1.2) = r2 at h2 ⊢
    have ha : ((min road.start_.x road.end_.x : Int) : ℚ) ≤ (r2.1 : ℚ) := Int.cast_le.mpr h2.1
    have hb : (r2.1 : ℚ) ≤ ((max road.start_.x road.end_.x : Int) : ℚ) := Int.cast_le.mpr h2.2
    have hc : ((min road.start_.y road.end_.y : Int) : ℚ) ≤ (road.start_.y : ℚ) :=
      Int.cast_le.mpr (min_le_left _ _)
    have hd : (road.start_.y : ℚ) ≤ ((max road.start_.y road.end_.y : Int) : ℚ) :=
      Int.cast_le.mpr (le_max_left _ _)
    constructor
    · refine ⟨?_, ha, hb, hc, hd⟩
      rw [hy]
      ring
    · unfold InCorridor
      rw [RoadRect_of_horizontal road hh]
      unfold kHalfWidth
      simp only
      refine ⟨?_, ?_, ?_, ?_⟩ <;> linarith
  · rw [if_neg hh] at h2 ⊢
    have hx : road.start_.x = road.end_.x := by
      rcases haxis road hmem with h | h
      · exact absurd h hh
      · simpa [Road.IsVertical] using h
    simp only [Road.GetStart, Road.GetEnd] at h2 ⊢
    generalize (GenerateRandomInt (min road.start_.y road.end_.y)
      (max road.start_.y road.end_.y) r1.2) = r2 at h2 ⊢
    have ha : ((min road.start_.y road.end_.y : Int) : ℚ) ≤ (r2.1 : ℚ) := Int.cast_le.mpr h2.1
    have hb : (r2.1 : ℚ) ≤ ((max road.start_.y road.end_.y : Int) : ℚ) := Int.cast_le.mpr h2.2
    have hc : ((min road.start_.x road.end_.x : Int) : ℚ) ≤ (road.start_.x : ℚ) :=
      Int.cast_le.mpr (min_le_left _ _)
    have hd : (road.start_.x : ℚ) ≤ ((max road.start_.x road.end_.x : Int) : ℚ) :=
      Int.cast_le.mpr (le_max_left _ _)
    constructor
    · refine ⟨?_, hc, hd, ha, hb⟩
      rw [hx]
      ring
    · unfold InCorridor
      rw [RoadRect_of_not_horizontal road hh]
      unfold kHalfWidth
      simp only
      refine ⟨?_, ?_, ?_, ?_⟩ <;> linarith

/-- The start point of a horizontal or vertical road lies on its axis segment,
inside its corridor. -/
theorem start_on_road (road : Road) :
    OnAxisSegment road { x := (road.GetStart.x : ℚ), y := (road.GetStart.y : ℚ) } ∧
    InCorridor road { x := (road.GetStart.x : ℚ), y := (road.GetStart.y : ℚ) } := by
  have hc : ((min road.start_.x road.end_.x : Int) : ℚ) ≤ (road.start_.x : ℚ) :=
    Int.cast_le.mpr (min_le_left _ _)
  have hd : (road.start_.x : ℚ) ≤ ((max road.start_.x road.end_.x : Int) : ℚ) :=
    Int.cast_le.mpr (le_max_left _ _)
  have he : ((min road.start_.y road.end_.y : Int) : ℚ) ≤ (road.start_.y : ℚ) :=
    Int.cast_le.mpr (min_le_left _ _)
  have hf : (road.start_.y : ℚ) ≤ ((max road.start_.y road.end_.y : Int) : ℚ) :=
    Int.cast_le.mpr (le_max_left _ _)
  constructor
  · refine ⟨?_, hc, hd, he, hf⟩
    simp only [Road.GetStart]
    ring
  · unfold InCorridor
    by_cases hh : road.IsHorizontal = true
    · rw [RoadRect_of_horizontal road hh]
      unfold kHalfWidth
      simp only [Road.GetStart]
      refine ⟨?_, ?_, ?_, ?_⟩ <;> linarith
    · rw [RoadRect_of_not_horizontal road hh]
      unfold kHalfWidth
      simp only [Road.GetStart]
      refine ⟨?_, ?_, ?_, ?_⟩ <;> linarith

theorem Create_coordinate (st : LootStore) (info : LootInfo) (coord : pos.Coordinate) :
    (st.Create info coord).1.coordinate = coord := by
  unfold LootStore.Create
  cases st.free_ids_.getLast? <;> rfl

/-- C24: on a map with at least one road, all roads horizontal or vertical, and
with each random draw inside the inclusive range it was asked for, the coordinate
of a spawned dog lies on the axis segment of a road of the map and inside its
corridor, and so does the coordinate of the item created by one iteration of the
loot spawn loop; with `randomize_spawn_points_` off the dog is spawned exactly at
the start point of the first road. -/
theorem C24_spawn_points_on_roads (s : GameSession) (dog_name : String) (id bag_capacity : Int)
    (draws loot_draws : List Int) (i : Nat)
    (hne : s.map_.GetRoads ≠ [])
    (haxis : ∀ r ∈ s.map_.GetRoads, r.IsHorizontal = true ∨ r.IsVertical = true)
    (hdog : s.randomize_spawn_points_ = true → SpawnDrawsInRange s draws)
    (hloot : SpawnDrawsInRange s (s.GetRandomLootType loot_draws).2) :
    (∀ dog, (s.SpawnDog dog_name id bag_capacity draws).1 = some dog →
      (∃ road ∈ s.map_.GetRoads,
        OnAxisSegment road dog.pos_.coordinates_ ∧ InCorridor road dog.pos_.coordinates_) ∧
      (s.randomize_spawn_points_ = false → ∀ road, s.map_.GetRoads.head? = some road →
        dog.pos_.coordinates_ = { x := (road.GetStart.x : ℚ), y := (road.GetStart.y : ℚ) })) ∧
    (∃ item, ∃ road ∈ s.map_.GetRoads,
      (SpawnLootStep (s, loot_draws) i).1.loot_store_ =
        (s.loot_store_.Create item.info item.coordinate).2 ∧
      item = (s.loot_store_.Create item.info item.coordinate).1 ∧
      (SpawnLootStep (s, loot_draws) i).1.map_ = s.map_.AddLootItem item ∧
      OnAxisSegment road item.coordinate ∧ InCorridor road item.coordinate) := by
  constructor
  · intro dog hdogspawn
    have hcoord : dog.pos_.coordinates_ = (s.GenerateDogSpawnCoordinates draws).1 := by
      unfold SpawnDog at hdogspawn
      simp only at hdogspawn
      split at hdogspawn
      · simp at hdogspawn
      · simp only [Option.some.injEq] at hdogspawn
        rw [← hdogspawn]
        rfl
    rw [hcoord]
    unfold GenerateDogSpawnCoordinates
    cases hrand : s.randomize_spawn_points_ with
    | true =>
      simp only [if_true]
      exact ⟨GenerateRandomSpawnCoordinates_on_road s draws hne haxis (hdog hrand),
        fun h => by simp at h⟩
    | false =>
      simp only [Bool.false_eq_true, if_false]
      cases hroads : s.map_.GetRoads with
      | nil => exact absurd hroads hne
      | cons road rest =>
        simp only
        refine ⟨⟨road, List.mem_cons_self _ _, start_on_road road⟩, ?_⟩
        intro _ road2 h2
        simp only [List.head?_cons, Option.some.injEq] at h2
        rw [h2]
  · obtain ⟨road, hmem, hon, hin⟩ :=
      GenerateRandomSpawnCoordinates_on_road s (s.GetRandomLootType loot_draws).2 hne haxis hloot
    refine ⟨(s.loot_store_.Create (s.map_.GetLootInfo (s.GetRandomLootType loot_draws).1)
      (s.GenerateRandomSpawnCoordinates (s.GetRandomLootType loot_draws).2).1).1, road, hmem, ?_⟩
    have hc := Create_coordinate s.loot_store_
      (s.map_.GetLootInfo (s.GetRandomLootType loot_draws).1)
      (s.GenerateRandomSpawnCoordinates (s.GetRandomLootType loot_draws).2).1
    have hi : (s.loot_store_.Create (s.map_.GetLootInfo (s.GetRandomLootType loot_draws).1)
      (s.GenerateRandomSpawnCoordinates (s.GetRandomLootType loot_draws).2).1).1.info =
        s.map_.GetLootInfo (s.GetRandomLootType loot_draws).1 := by
      unfold LootStore.Create
      cases s.loot_store_.free_ids_.getLast? <;> rfl
    rw [hc, hi]
    exact ⟨rfl, rfl, rfl, hon, hin⟩

/-- C24, applied to `spawn_session` with the draws "road 1, coordinate 3" for the
dog and "type 0, road 0, coordinate 7" for the loot item: the dog with id `1` is
spawned at `(10, 3)`, on the second road. -/
theorem C24_spawn_points_on_roads_witness :
    ∃ road ∈ spawn_session.map_.GetRoads,
      OnAxisSegment road { x := 10, y := 3 } ∧ InCorridor road { x := 10, y := 3 } :=
  ((C24_spawn_points_on_roads spawn_session "a" 1 3 [1, 3] [0, 0, 7] 0 (by decide) (by decide)
    (fun _ => by decide) (by decide)).1
      (Dog.new "a" 1 { x := 10, y := 3 } 3) (by decide!)).1

end model.GameSession

/-! ## Player commands: move and stop -/

namespace application

open model

theorem FindSession_ModifySession_self (g : Game) (id : String)
    (f : GameSession → GameSession) :
    (g.ModifySession id f).FindSession id = (g.FindSession id).map f := by
  obtain ⟨l⟩ := g
  unfold Game.ModifySession Game.FindSession
  simp only
  induction l with
  | nil => rfl
  | cons p rest ih =>
    unfold Game.ModifySessions
    by_cases h : p.1 = id
    · rw [if_pos h]
      simp [List.find?_cons, h]
    · rw [if_neg h]
      have hb : (p.1 == id) = false := by simpa using h
      rw [List.find?_cons, hb, List.find?_cons, hb]
      exact ih

theorem FindSession_ModifySession_ne (g : Game) (id k : String)
    (f : GameSession → GameSession) (hk : k ≠ id) :
    (g.ModifySession id f).FindSession k = g.FindSession k := by
  obtain ⟨l⟩ := g
  unfold Game.ModifySession Game.FindSession
  simp only
  induction l with
  | nil => rfl
  | cons p rest ih =>
    unfold Game.ModifySessions
    by_cases h : p.1 = id
    · rw [if_pos h]
      have hb : (p.1 == k) = false := by
        rw [h]
        simpa using Ne.symm hk
      rw [List.find?_cons, List.find?_cons]
      simp only [hb]
    · rw [if_neg h]
      rw [List.find?_cons, List.find?_cons]
      cases hb : (p.1 == k)
      · simp only []
        exact ih
      · rfl

/-- C22: `MoveDog` sets the dog's direction to the given one and its velocity to the
map's speed `s` along it (NORTH `(0, -s)`, SOUTH `(0, s)`, WEST `(-s, 0)`, EAST
`(s, 0)`) and leaves position, bag and score as they were; for a player whose dog
is in the session of the player's map, `MovePlayer` does exactly that to the dog,
and `StopPlayer` sets the dog's velocity to `(0, 0)` and changes nothing else of
it. -/
theorem C22_move_and_stop (app : Application) (player_id : Nat) (dir : pos.Direction)
    (player : Player) (dog_id : Int) (session : GameSession) (dog : Dog)
    (hplayer : FindPlayerById app.players_ player_id = some player)
    (hdog : player.dog_ = some dog_id)
    (hsession : app.game_.GetSessionForMap player.map_id_ = some session)
    (hfind : session.GetDog dog_id = some dog) :
    (∀ (s : GameSession) (d : Dog),
      (s.MoveDog d dir).pos_.direction_ = dir ∧
      (s.MoveDog d dir).pos_.velocity_ =
        (match dir with
         | pos.Direction.NORTH => { vx := 0, vy := -s.map_.GetDogSpeed }
         | pos.Direction.SOUTH => { vx := 0, vy := s.map_.GetDogSpeed }
         | pos.Direction.WEST => { vx := -s.map_.GetDogSpeed, vy := 0 }
         | pos.Direction.EAST => { vx := s.map_.GetDogSpeed, vy := 0 }) ∧
      (s.MoveDog d dir).pos_.coordinates_ = d.pos_.coordinates_ ∧
      (s.MoveDog d dir).collected_items_ = d.collected_items_ ∧
      (s.MoveDog d dir).score_ = d.score_) ∧
    ((app.MovePlayer player_id dir).game_.GetSessionForMap player.map_id_).bind
        (fun s => s.GetDog dog_id) = some (session.MoveDog dog dir) ∧
    ((app.StopPlayer player_id).game_.GetSessionForMap player.map_id_).bind
        (fun s => s.GetDog dog_id) = some (dog.SetVelocity { vx := 0, vy := 0 }) ∧
    (dog.SetVelocity { vx := 0, vy := 0 }).pos_.velocity_ = { vx := 0, vy := 0 } ∧
    (dog.SetVelocity { vx := 0, vy := 0 }).pos_.coordinates_ = dog.pos_.coordinates_ ∧
    (dog.SetVelocity { vx := 0, vy := 0 }).pos_.direction_ = dog.pos_.direction_ ∧
    (dog.SetVelocity { vx := 0, vy := 0 }).collected_items_ = dog.collected_items_ ∧
    (dog.SetVelocity { vx := 0, vy := 0 }).score_ = dog.score_ ∧
    (dog.SetVelocity { vx := 0, vy := 0 }).name_ = dog.name_ ∧
    (dog.SetVelocity { vx := 0, vy := 0 }).id_ = dog.id_ ∧
    (dog.SetVelocity { vx := 0, vy := 0 }).bag_capacity_ = dog.bag_capacity_ := by
  refine ⟨?_, ?_, ?_, rfl, rfl, rfl, rfl, rfl, rfl, rfl, rfl⟩
  · intro s d
    refine ⟨rfl, ?_, rfl, rfl, rfl⟩
    cases dir <;> rfl
  · unfold Application.MovePlayer
    simp only [hplayer, hdog]
    unfold Game.GetSessionForMap at hsession ⊢
    rw [FindSession_ModifySession_self, hsession]
    simp only [Option.map_some', Option.some_bind, GameSession.GetDog]
    rw [GameSession.FindDog_ModifyDog_self]
    unfold GameSession.GetDog at hfind
    rw [hfind]
    rfl
  · unfold Application.StopPlayer
    simp only [hplayer, hdog]
    unfold Game.GetSessionForMap at hsession ⊢
    rw [FindSession_ModifySession_self, hsession]
    simp only [Option.map_some', Option.some_bind, GameSession.GetDog]
    rw [GameSession.FindDog_ModifyDog_self]
    unfold GameSession.GetDog at hfind
    rw [hfind]
    rfl

/-- C22, applied to player `0` of `example_app`, whose dog `1` stands at `(4, 0)` on a
map of speed `1`: moving WEST gives the velocity `(-1, 0)`, stopping gives `(0, 0)`. -/
theorem C22_move_and_stop_witness :
    ((example_app.MovePlayer 0 pos.Direction.WEST).game_.GetSessionForMap "m1").bind
        (fun s => s.GetDog 1) =
      some (GameSession.pickup_session.MoveDog
        ((Dog.new "a" 1 { x := 4, y := 0 } 1).AddScore 10) pos.Direction.WEST) ∧
    ((example_app.StopPlayer 0).game_.GetSessionForMap "m1").bind (fun s => s.GetDog 1) =
      some (((Dog.new "a" 1 { x := 4, y := 0 } 1).AddScore 10).SetVelocity { vx := 0, vy := 0 }) :=
  ⟨(C22_move_and_stop example_app 0 pos.Direction.WEST { id_ := 0, dog_ := some 1, map_id_ := "m1" }
      1 GameSession.pickup_session ((Dog.new "a" 1 { x := 4, y := 0 } 1).AddScore 10)
      (by decide) rfl rfl (by decide!)).2.1,
   (C22_move_and_stop example_app 0 pos.Direction.WEST { id_ := 0, dog_ := some 1, map_id_ := "m1" }
      1 GameSession.pickup_session ((Dog.new "a" 1 { x := 4, y := 0 } 1).AddScore 10)
      (by decide) rfl rfl (by decide!)).2.2.1⟩

end application

/-! ## Restoring a snapshot -/

namespace application

open model

theorem FindMap_eq_none_iff (g : Game) (id : String) :
    g.FindMap id = none ↔ g.FindSession id = none := by
  unfold Game.FindMap
  cases g.FindSession id <;> simp

theorem FindSession_ModifySession_eq_none_iff (g : Game) (id k : String)
    (f : GameSession → GameSession) :
    (g.ModifySession id f).FindSession k = none ↔ g.FindSession k = none := by
  by_cases h : k = id
  · subst h
    rw [FindSession_ModifySession_self]
    cases g.FindSession k <;> simp
  · rw [FindSession_ModifySession_ne g id k f h]

theorem RestoreMaps_cons_none (g : Game) (map_state : MapState) (rest : List MapState)
    (h : g.FindSession map_state.map_id = none) :
    RestoreMaps g (map_state :: rest) = (some "Restoring state failed: map not found", g) := by
  have h1 : g.FindMap map_state.map_id = none := (FindMap_eq_none_iff g _).mpr h
  rw [RestoreMaps, h1]

theorem RestoreMaps_cons_some (g : Game) (map_state : MapState) (rest : List MapState)
    (session : GameSession) (h : g.FindSession map_state.map_id = some session) :
    RestoreMaps g (map_state :: rest) =
      (match (RestoreDogs session.ClearDynamicState map_state.dogs).1 with
       | some e => (some e, g.ModifySession map_state.map_id
           (fun _ => (RestoreDogs session.ClearDynamicState map_state.dogs).2))
       | none => RestoreMaps (g.ModifySession map_state.map_id
           (fun _ => (RestoreLoot (RestoreDogs session.ClearDynamicState map_state.dogs).2
             map_state.loot).FinalizeAfterRestore)) rest) := by
  have h1 : g.FindMap map_state.map_id = some session.map_ := by
    unfold Game.FindMap
    rw [h]
  have h2 : g.GetSessionForMap map_state.map_id = some session := h
  rw [RestoreMaps, h1, h2]

/-- The first loop of `RestoreState` neither adds nor removes a map. -/
theorem RestoreMaps_FindSession_eq_none_iff (maps : List MapState) :
    ∀ (g : Game) (k : String),
      (RestoreMaps g maps).2.FindSession k = none ↔ g.FindSession k = none := by
  induction maps with
  | nil => intro g k; rfl
  | cons map_state rest ih =>
    intro g k
    cases h : g.FindSession map_state.map_id with
    | none => rw [RestoreMaps_cons_none g map_state rest h]
    | some session =>
      rw [RestoreMaps_cons_some g map_state rest session h]
      cases (RestoreDogs session.ClearDynamicState map_state.dogs).1 with
      | some e =>
        simp only
        exact FindSession_ModifySession_eq_none_iff g _ k _
      | none =>
        simp only
        rw [ih]
        exact FindSession_ModifySession_eq_none_iff g _ k _

theorem DecodeDirection_eq_none (c : Char)
    (h : c ≠ 'N' ∧ c ≠ 'S' ∧ c ≠ 'E' ∧ c ≠ 'W') : DecodeDirection c = none := by
  unfold DecodeDirection
  rw [if_neg h.1, if_neg h.2.1, if_neg h.2.2.1, if_neg h.2.2.2]

theorem RestoreDogs_fails (dogs : List DogState) :
    ∀ (session : GameSession),
      (∃ ds ∈ dogs, ds.dir ≠ 'N' ∧ ds.dir ≠ 'S' ∧ ds.dir ≠ 'E' ∧ ds.dir ≠ 'W') →
      ∃ e, (RestoreDogs session dogs).1 = some e := by
  induction dogs with
  | nil =>
    intro _ h
    obtain ⟨ds, hds, _⟩ := h
    simp at hds
  | cons d rest ih =>
    intro session h
    unfold RestoreDogs
    cases hb : BuildDog d with
    | none => exact ⟨_, rfl⟩
    | some dog =>
      simp only
      apply ih
      obtain ⟨ds, hds, hbad⟩ := h
      rcases List.mem_cons.mp hds with h1 | h1
      · subst h1
        unfold BuildDog at hb
        simp only [DecodeDirection_eq_none _ hbad] at hb
        simp at hb
      · exact ⟨ds, h1, hbad⟩

/-- The first loop of `RestoreState` throws when a map state names an unknown map or
holds a dog with an unknown direction code. -/
theorem RestoreMaps_fails (maps : List MapState) :
    ∀ (g : Game),
      (∃ ms ∈ maps, g.FindMap ms.map_id = none ∨
        ∃ ds ∈ ms.dogs, ds.dir ≠ 'N' ∧ ds.dir ≠ 'S' ∧ ds.dir ≠ 'E' ∧ ds.dir ≠ 'W') →
      ∃ e, (RestoreMaps g maps).1 = some e := by
  induction maps with
  | nil =>
    intro _ h
    obtain ⟨ms, hms, _⟩ := h
    simp at hms
  | cons map_state rest ih =>
    intro g h
    cases hs : g.FindSession map_state.map_id with
    | none =>
      rw [RestoreMaps_cons_none g map_state rest hs]
      exact ⟨_, rfl⟩
    | some session =>
      rw [RestoreMaps_cons_some g map_state rest session hs]
      cases hd : (RestoreDogs session.ClearDynamicState map_state.dogs).1 with
      | some e => exact ⟨e, rfl⟩
      | none =>
        simp only
        apply ih
        obtain ⟨ms, hms, hbad⟩ := h
        rcases List.mem_cons.mp hms with h1 | h1
        · subst h1
          rcases hbad with hbad | hbad
          · rw [(FindMap_eq_none_iff g _).mp hbad] at hs
            simp at hs
          · obtain ⟨e, he⟩ := RestoreDogs_fails ms.dogs session.ClearDynamicState hbad
            rw [he] at hd
            simp at hd
        · refine ⟨ms, h1, ?_⟩
          rcases hbad with hbad | hbad
          · left
            rw [FindMap_eq_none_iff] at hbad ⊢
            exact (FindSession_ModifySession_eq_none_iff g _ _ _).mpr hbad
          · exact Or.inr hbad

/-- The first loop of `RestoreState` over a list that continues a list it ran through
without an exception goes on from the game the first part left. -/
theorem RestoreMaps_append (pre post : List MapState) :
    ∀ (g : Game), (RestoreMaps g pre).1 = none →
      RestoreMaps g (pre ++ post) = RestoreMaps (RestoreMaps g pre).2 post := by
  induction pre with
  | nil => intro g _; rfl
  | cons map_state rest ih =>
    intro g h
    rw [List.cons_append]
    cases hs : g.FindSession map_state.map_id with
    | none =>
      rw [RestoreMaps_cons_none g map_state rest hs] at h
      simp at h
    | some session =>
      rw [RestoreMaps_cons_some g map_state rest session hs] at h ⊢
      rw [RestoreMaps_cons_some g map_state (rest ++ post) session hs]
      cases hd : (RestoreDogs session.ClearDynamicState map_state.dogs).1 with
      | some e =>
        rw [hd] at h
        simp at h
      | none =>
        rw [hd] at h
        simp only at h ⊢
        exact ih _ h

theorem RestorePlayers_game (players : List PlayerLink) :
    ∀ (app : Application), (app.RestorePlayers players).2.game_ = app.game_ := by
  induction players with
  | nil => intro app; rfl
  | cons pl rest ih =>
    intro app
    unfold Application.RestorePlayers
    cases h1 : app.game_.FindMap pl.map_id with
    | none => rfl
    | some m =>
      cases h2 : app.game_.GetSessionForMap pl.map_id with
      | none => rfl
      | some session =>
        simp only
        cases h3 : session.GetDog pl.dog_id with
        | none => rfl
        | some d =>
          simp only
          rw [ih]

/-- The second loop of `RestoreState` throws when a player link names an unknown map
or a dog that the session of its map does not hold. -/
theorem RestorePlayers_fails (players : List PlayerLink) :
    ∀ (app : Application),
      (∃ pl ∈ players, app.game_.FindMap pl.map_id = none ∨
        ∀ session, app.game_.GetSessionForMap pl.map_id = some session →
          session.GetDog pl.dog_id = none) →
      ∃ e, (app.RestorePlayers players).1 = some e := by
  induction players with
  | nil =>
    intro _ h
    obtain ⟨pl, hpl, _⟩ := h
    simp at hpl
  | cons p rest ih =>
    intro app h
    unfold Application.RestorePlayers
    cases h1 : app.game_.FindMap p.map_id with
    | none => exact ⟨_, rfl⟩
    | some m =>
      cases h2 : app.game_.GetSessionForMap p.map_id with
      | none => exact ⟨_, rfl⟩
      | some session =>
        simp only
        cases h3 : session.GetDog p.dog_id with
        | none => exact ⟨_, rfl⟩
        | some d =>
          simp only
          apply ih
          obtain ⟨pl, hpl, hbad⟩ := h
          rcases List.mem_cons.mp hpl with h4 | h4
          · subst h4
            rcases hbad with hbad | hbad
            · rw [hbad] at h1
              simp at h1
            · rw [hbad session h2] at h3
              simp at h3
          · exact ⟨pl, h4, hbad⟩

theorem RestoreState_of_maps_error (app : Application) (app_state : AppState) (e : String)
    (h : (RestoreMaps app.game_ app_state.maps).1 = some e) :
    app.RestoreState app_state =
      (some e, Application.mk (RestoreMaps app.game_ app_state.maps).2 app.players_ app.tokens_
        app.next_player_id_ app.player_timing_) := by
  unfold Application.RestoreState
  simp only [h]

theorem RestoreState_of_players_error (app : Application) (app_state : AppState) (e : String)
    (h : (RestoreMaps app.game_ app_state.maps).1 = none)
    (he : ((Application.mk (RestoreMaps app.game_ app_state.maps).2 [] []
      app_state.auth.next_player_id app.player_timing_).RestorePlayers
        app_state.auth.players).1 = some e) :
    (app.RestoreState app_state).1 = some e := by
  unfold Application.RestoreState
  simp only [h, he]

/-- C21 as stated fails: restoring `broken_snapshot` into `example_app` throws
"map not found" at the second map state, and the session of the map `m1`, restored
from the first map state, has lost its dog and its loot item. -/
theorem C21_counterexample :
    (example_app.RestoreState broken_snapshot).1 =
      some "Restoring state failed: map not found" ∧
    ((example_app.RestoreState broken_snapshot).2.game_.GetSessionForMap "m1").map
        (fun s => s.dogs_) ≠
      (example_app.game_.GetSessionForMap "m1").map (fun s => s.dogs_) ∧
    ((example_app.RestoreState broken_snapshot).2.game_.GetSessionForMap "m1").map
        (fun s => (s.dogs_.length, s.loot_store_.GetAllItems.length)) = some (0, 0) ∧
    (example_app.game_.GetSessionForMap "m1").map
        (fun s => (s.dogs_.length, s.loot_store_.GetAllItems.length)) = some (1, 1) := by
  decide!

/-- C21, amended: `RestoreState` throws when a map state names an unknown map or
holds a dog whose direction code is none of `N`, `S`, `E`, `W`, and when a player link
names an unknown map or a dog that the session of its map does not hold once the
map states are restored.  A failure is not rolled back: when the call stops at a
map state with an unknown map, the game is left as the preceding map states made
it; in a failure within the map states the player table, the token table, the next
player id and the timing table are the same as before the call. -/
theorem C21_restore_fails_without_rollback (app : Application) (app_state : AppState) :
    ((∃ ms ∈ app_state.maps, app.game_.FindMap ms.map_id = none ∨
        ∃ ds ∈ ms.dogs, ds.dir ≠ 'N' ∧ ds.dir ≠ 'S' ∧ ds.dir ≠ 'E' ∧ ds.dir ≠ 'W') →
      (∃ e, (app.RestoreState app_state).1 = some e) ∧
      (app.RestoreState app_state).2.players_ = app.players_ ∧
      (app.RestoreState app_state).2.tokens_ = app.tokens_ ∧
      (app.RestoreState app_state).2.next_player_id_ = app.next_player_id_ ∧
      (app.RestoreState app_state).2.player_timing_ = app.player_timing_) ∧
    ((∃ pl ∈ app_state.auth.players, app.game_.FindMap pl.map_id = none ∨
        ∀ session,
          (RestoreMaps app.game_ app_state.maps).2.GetSessionForMap pl.map_id = some session →
          session.GetDog pl.dog_id = none) →
      ∃ e, (app.RestoreState app_state).1 = some e) ∧
    (∀ pre ms post, app_state.maps = pre ++ ms :: post →
      (RestoreMaps app.game_ pre).1 = none →
      (RestoreMaps app.game_ pre).2.FindMap ms.map_id = none →
      (app.RestoreState app_state).1 = some "Restoring state failed: map not found" ∧
      (app.RestoreState app_state).2.game_ = (RestoreMaps app.game_ pre).2) := by
  refine ⟨?_, ?_, ?_⟩
  · intro h
    obtain ⟨e, he⟩ := RestoreMaps_fails app_state.maps app.game_ h
    rw [RestoreState_of_maps_error app app_state e he]
    exact ⟨⟨e, rfl⟩, rfl, rfl, rfl, rfl⟩
  · intro h
    cases hm : (RestoreMaps app.game_ app_state.maps).1 with
    | some e =>
      rw [RestoreState_of_maps_error app app_state e hm]
      exact ⟨e, rfl⟩
    | none =>
      have hfail := RestorePlayers_fails app_state.auth.players
        (Application.mk (RestoreMaps app.game_ app_state.maps).2 [] []
          app_state.auth.next_player_id app.player_timing_)
        (by
          obtain ⟨pl, hpl, hbad⟩ := h
          refine ⟨pl, hpl, ?_⟩
          rcases hbad with hbad | hbad
          · left
            rw [FindMap_eq_none_iff] at hbad ⊢
            exact (RestoreMaps_FindSession_eq_none_iff _ _ _).mpr hbad
          · exact Or.inr hbad)
      obtain ⟨e, he⟩ := hfail
      rw [RestoreState_of_players_error app app_state e hm he]
      exact ⟨e, rfl⟩
  · intro pre ms post hmaps hpre hmap
    have hrun : RestoreMaps app.game_ app_state.maps =
        (some "Restoring state failed: map not found", (RestoreMaps app.game_ pre).2) := by
      rw [hmaps, RestoreMaps_append pre (ms :: post) app.game_ hpre]
      exact RestoreMaps_cons_none _ ms post ((FindMap_eq_none_iff _ _).mp hmap)
    rw [RestoreState_of_maps_error app app_state "Restoring state failed: map not found"
      (by rw [hrun]), hrun]
    exact ⟨rfl, rfl⟩

/-- C21 amended, applied to `example_app` and `broken_snapshot`: the call throws at
the second map state and leaves the game as the first map state made it. -/
theorem C21_restore_fails_without_rollback_witness :
    (example_app.RestoreState broken_snapshot).1 =
      some "Restoring state failed: map not found" ∧
    (example_app.RestoreState broken_snapshot).2.game_ =
      (RestoreMaps example_app.game_ [{ map_id := "m1", dogs := [], loot := [] }]).2 :=
  (C21_restore_fails_without_rollback example_app broken_snapshot).2.2
    [{ map_id := "m1", dogs := [], loot := [] }] { map_id := "zz", dogs := [], loot := [] } []
    rfl (by decide!) (Option.isNone_iff_eq_none.mp (by decide!))

end application
